import Mathlib

/-!
Hangmango: game rules, session controller and in-memory store

A shallow embedding of the Go packages `pkg/utils`, `pkg/game`, `pkg/messages`,
`pkg/store` and `pkg/server/handlers`.

Modelling conventions

* A Go `string` is a Lean `String`, i.e. a sequence of Unicode scalar values.
  Every string the server handles is valid UTF-8 (the vocabulary is made of
  Go literals and `encoding/json` only ever yields valid UTF-8), so
  `for _, c := range s` visits exactly `s.data`, `string(c)` is the
  one-character string, and `len(s)` is `s.utf8ByteSize` (a byte count).
* A Go slice `[]string` is a `List String`; `append` adds at the end.  A nil
  slice and an empty slice are both `[]`.  This is the view of one holder of
  the slice.  The backing arrays that the copies of a game share, and the
  writes of `append` into them, are the subject of the section on slices
  with their backing arrays (namespace `shared`).
* A Go `map[K]V` is an association list with pairwise distinct keys
  (`AList`); `len` is the number of entries.  The iteration order of a Go map
  is unspecified and nothing below depends on the order of the entries.
* A method with a pointer receiver is a function returning the new value of
  the receiver together with what the method emits or returns.
* `json.Encoder.Encode(v)` is modelled by the value `v` that is handed to it;
  the encoder itself is taken not to fail.
* The draw `rand.Int()` of `randomHero` is a parameter of the handlers that
  start a new game.
* A Go `int` is a Lean `Int`; where the 64-bit range matters (`strconv.Atoi`)
  the bounds are explicit.
-/

namespace Hangmango

/-! ## Go standard library: `strings` (as documented) -/

namespace strings

/-- The substring test behind `strings.Contains`: does `substr` start at some
position of the remaining text? -/
def containsFrom (substr : List Char) : List Char → Bool
  | [] => substr.isEmpty
  | c :: cs => substr.isPrefixOf (c :: cs) || containsFrom substr cs

/-- Go `strings.Contains(s, substr)`: reports whether `substr` is within `s`. -/
def Contains (s substr : String) : Bool :=
  containsFrom substr.data s.data

/-- The scan behind `strings.Count` for a non-empty `substr`: `skip` is the
number of characters still covered by the occurrence found last, so that
occurrences do not overlap. -/
def countFrom (substr : List Char) : List Char → Nat → Nat
  | [], _ => 0
  | _ :: cs, skip + 1 => countFrom substr cs skip
  | c :: cs, 0 =>
    if substr.isPrefixOf (c :: cs) then 1 + countFrom substr cs (substr.length - 1)
    else countFrom substr cs 0

/-- Go `strings.Count(s, substr)`: the number of non-overlapping instances of
`substr` in `s`; for an empty `substr`, one more than the number of code
points of `s`. -/
def Count (s substr : String) : Nat :=
  if substr.data.isEmpty then s.data.length + 1 else countFrom substr.data s.data 0

end strings

/-! ## Go standard library: `strconv` (as documented, 64-bit `int`) -/

namespace strconv

/-- The value of an ASCII decimal digit; none for any other character. -/
def digitValue (ch : Char) : Option Nat :=
  if 48 ≤ ch.toNat ∧ ch.toNat ≤ 57 then some (ch.toNat - 48) else none

/-- The digit loop of `strconv.Atoi`: `n = n*10 + digit` for every character,
a syntax error (none) at the first character that is not a digit. -/
def parseDigits : List Char → Nat → Option Nat
  | [], n => some n
  | ch :: rest, n =>
    match digitValue ch with
    | some d => parseDigits rest (n * 10 + d)
    | none => none

/-- A non-empty run of decimal digits. -/
def parseUnsigned (digits : List Char) : Option Nat :=
  if digits.isEmpty then none else parseDigits digits 0

/-- Go `strconv.Atoi`: an optional sign followed by at least one decimal
digit, the value within the range of a 64-bit `int`; none for the syntax and
range errors. -/
def Atoi (s : String) : Option Int :=
  match s.data with
  | [] => none
  | ch :: rest =>
    if ch = '-' then
      (parseUnsigned rest).bind (fun n => if n ≤ 2 ^ 63 then some (-(n : Int)) else none)
    else if ch = '+' then
      (parseUnsigned rest).bind (fun n => if n < 2 ^ 63 then some (n : Int) else none)
    else
      (parseUnsigned (ch :: rest)).bind (fun n => if n < 2 ^ 63 then some (n : Int) else none)

/-- The character of a decimal digit. -/
def digitChar (d : Nat) : Char := Char.ofNat (48 + d)

/-- The decimal digits of `n` in front of `acc`, least significant digit
first produced; `fuel` bounds the number of digits. -/
def formatDigits : Nat → Nat → List Char → List Char
  | 0, _, acc => acc
  | fuel + 1, n, acc =>
    if n / 10 = 0 then digitChar (n % 10) :: acc
    else formatDigits fuel (n / 10) (digitChar (n % 10) :: acc)

/-- Go `strconv.Itoa`: the decimal text of an integer. -/
def Itoa (i : Int) : String :=
  if i < 0 then String.mk ('-' :: formatDigits (i.natAbs + 1) i.natAbs [])
  else String.mk (formatDigits (i.natAbs + 1) i.natAbs [])

end strconv

/-- Go conversion `string(c)` of a rune to the string holding that one
character. -/
def runeString (c : Char) : String := String.mk [c]

/-! ## `pkg/utils` -/

namespace utils

/-- Go `utils.Contains`: true if the haystack slice contains needle. -/
def Contains : List String → String → Bool
  | [], _ => false
  | c :: rest, needle => if c = needle then true else Contains rest needle

end utils

/-! ## `pkg/game` -/

namespace game

/-- Go `MaxWrongChars`: the number of wrong characters after which the game is
over. -/
def MaxWrongChars : Nat := 7

/-- Go `type Status string`. -/
abbrev Status := String

def Unknown : Status := "unknown"
def InProgress : Status := "in progress"
def ShowInfo : Status := "show info"
def Paused : Status := "paused"
def GameOver : Status := "game over"
def Won : Status := "won"
def Error : Status := "error"

/-- Go `game.State`. -/
structure State where
  GameID : Int
  WordToGuess : String
  CharsGuessed : List String
  CharsTried : List String
  Status : Status
deriving DecidableEq, Repr, Inhabited

/-- The anonymous struct that `State.MarshalJSON` hands to `json.Marshal`:
fields `id`, `word`, `tried`, `status`. -/
structure WireState where
  GameID : Int
  WordToGuess : String
  CharsTried : List String
  Status : Status
deriving DecidableEq, Repr

/-- One iteration of the loop of `State.MarshalJSON`: `p` is the text built so
far, `c` the current character of the word. -/
def maskStep (charsGuessed : List String) (p : String) (c : Char) : String :=
  if utils.Contains charsGuessed (runeString c) then
    p ++ (runeString c ++ " ")
  else
    p ++ "_ "

/-- Go `State.MarshalJSON`, up to the final `json.Marshal` of the struct. -/
def State.MarshalJSON (g : State) : WireState :=
  let p := g.WordToGuess.data.foldl (maskStep g.CharsGuessed) ""
  { GameID := g.GameID, WordToGuess := p, CharsTried := g.CharsTried, Status := g.Status }

/-- Go `game.Rules`: the help text, with `MaxWrongChars` filled in. -/
def Rules : String :=
  "\n\tGUESS THE CARTOON HERO!\n\n\tRules:\n" ++
  "\tGuessing the letters in order to discover who the hidden cartoon hero is.\n" ++
  "\tIf you make more that 7 mistakes you loose.\n" ++
  "\t************************************************************************************\n" ++
  "\tAvailable commands:\n" ++
  "\thelp             => prints the help screen\n" ++
  "\tnew              => starts a new game\n" ++
  "\tlist             => shows the game history. Each game displays its id and status\n" ++
  "\ttry <character>  => checks if <character> is part of the word to guess\n" ++
  "\tresume <game-id> => restarts an existing game if its staus is not \x27won\x27 or \x27game over\x27\n"

/-- Go `type PlayerAction string`. -/
abbrev PlayerAction := String

def Guess : PlayerAction := "try"
def NewGame : PlayerAction := "new"
def ResumeGame : PlayerAction := "resume"
def ListGames : PlayerAction := "list"
def Help : PlayerAction := "help"
def Login : PlayerAction := "login"

end game

/-! ## `pkg/messages` -/

namespace messages

/-- Go `messages.Error`. -/
structure Error where
  Message : String
deriving DecidableEq, Repr

/-- Go `messages.GameStateResp`; a nil `Error` is `none`. -/
structure GameStateResp where
  State : game.State
  Error : Option Error
deriving DecidableEq, Repr

/-- Go `messages.HelpResp`. -/
structure HelpResp where
  Info : String
  Error : Option Error
deriving DecidableEq, Repr

/-- Go `messages.ListGamesResp`. -/
structure ListGamesResp where
  Games : List game.State
  Error : Option Error
deriving DecidableEq, Repr

/-- Go `messages.PlayerReq`. -/
structure PlayerReq where
  Action : game.PlayerAction
  Value : String
deriving DecidableEq, Repr

end messages

/-! ## `pkg/store` -/

namespace store

/-- The errors declared by the store. -/
inductive StoreError where
  | ErrorGameNotFound
  | ErrorUserNotFound
  | ErrorMissingGameID
deriving DecidableEq, Repr

/-- Go `map[int]game.State`: the games of one user. -/
abbrev Games := AList (fun _ : Int => game.State)

/-- Go `memStore` without its mutex: `map[string]map[int]game.State`. -/
structure memStore where
  games : AList (fun _ : String => Games)

/-- Go `NewMemStore`. -/
def NewMemStore : memStore := { games := ∅ }

/-- Go `len(s.games[userID])`: indexing a missing key yields the nil map, of
length 0. -/
def lenGames (s : memStore) (userID : String) : Nat :=
  match s.games.lookup userID with
  | none => 0
  | some games => games.entries.length

/-- Go `memStore.SaveGame`: the new store and the returned `(*game.State, error)`. -/
def memStore.SaveGame (s : memStore) (userID : String) (g : game.State) :
    memStore × Except StoreError game.State :=
  let g : game.State :=
    if g.GameID = 0 then { g with GameID := (lenGames s userID : Int) + 1 } else g
  match s.games.lookup userID with
  | none =>
    ({ games := s.games.insert userID ((∅ : Games).insert g.GameID g) }, Except.ok g)
  | some games =>
    ({ games := s.games.insert userID (games.insert g.GameID g) }, Except.ok g)

/-- The game stored for `userID` under `gameID`, if any: `s.games[userID][gameID]`. -/
def memStore.gameAt (s : memStore) (userID : String) (gameID : Int) : Option game.State :=
  match s.games.lookup userID with
  | none => none
  | some games => games.lookup gameID

/-- The IDs present in the collection of `userID` (none for a missing user). -/
def memStore.gameIDs (s : memStore) (userID : String) : List Int :=
  match s.games.lookup userID with
  | none => []
  | some games => games.keys

/-- The text of a store error (`err.Error()`). -/
def StoreError.message : StoreError → String
  | StoreError.ErrorGameNotFound => "game not found"
  | StoreError.ErrorUserNotFound => "user not found"
  | StoreError.ErrorMissingGameID => "ensure game has a valid ID. 0 is not a valid value"

/-- Go `memStore.SaveNewUser`: the new store and the returned error (`none`
is nil). -/
def memStore.SaveNewUser (s : memStore) (userID : String) : memStore × Option StoreError :=
  match s.games.lookup userID with
  | none => ({ games := s.games.insert userID ∅ }, none)
  | some _ => (s, none)

/-- The loop of `GetGameByID` over the entries of the map of a user: the
game of the first entry whose key is `gameID`. -/
def findGame (gameID : Int) : List (Sigma (fun _ : Int => game.State)) → Option game.State
  | [] => none
  | e :: rest => if e.1 = gameID then some e.2 else findGame gameID rest

/-- Go `memStore.GetGameByID`. -/
def memStore.GetGameByID (s : memStore) (userID : String) (gameID : Int) :
    Except StoreError game.State :=
  match s.games.lookup userID with
  | none => Except.error StoreError.ErrorUserNotFound
  | some games =>
    match findGame gameID games.entries with
    | some g => Except.ok g
    | none => Except.error StoreError.ErrorGameNotFound

/-- Go `memStore.GetGamesByUser`: the loop appends the game of every entry of
the map to `gameSlice`. -/
def memStore.GetGamesByUser (s : memStore) (userID : String) :
    Except StoreError (List game.State) :=
  match s.games.lookup userID with
  | none => Except.error StoreError.ErrorUserNotFound
  | some games =>
    Except.ok (games.entries.foldl (fun gameSlice e => gameSlice ++ [e.2]) [])

end store

/-! ## `pkg/server/handlers` -/

namespace handlers

/-- Go `controller`, without connection, logger and encoder: the session user,
the active game (`nil` is `none`) and the store of the `System`. -/
structure controller where
  UserID : String
  GameState : Option game.State
  Store : store.memStore

/-- The message of the error returned by `validateGameStatus`. -/
def notInProgressMessage : String :=
  "you must start a new game or resume a paused game before guessing the hero"

/-- Go `controller.validateGameStatus`; `none` is the nil error. -/
def validateGameStatus (c : controller) : Option messages.Error :=
  match c.GameState with
  | none => some { Message := notInProgressMessage }
  | some g =>
    if g.Status ≠ game.InProgress then some { Message := notInProgressMessage } else none

/-- Go `controller.updateGameStatus`, as a function of the active game it reads. -/
def updateGameStatus (g : game.State) : game.Status :=
  if g.CharsTried.length ≥ game.MaxWrongChars then game.GameOver
  else if g.CharsGuessed.length ≥ g.WordToGuess.utf8ByteSize then game.Won
  else game.InProgress

/-- The inner loop of `guessHandler`: `for occurences > 0` appends `charStr`
and decrements the counter. -/
def appendOccurences (charsGuessed : List String) (charStr : String) : Nat → List String
  | 0 => charsGuessed
  | occurences + 1 => appendOccurences (charsGuessed ++ [charStr]) charStr occurences

/-- The body of the loop of `guessHandler` for one character of the guess. -/
def guessChar (g : game.State) (char : Char) : game.State :=
  let charStr := runeString char
  if strings.Contains g.WordToGuess charStr then
    let occurences := strings.Count g.WordToGuess charStr
    { g with CharsGuessed := appendOccurences g.CharsGuessed charStr occurences }
  else if !utils.Contains g.CharsTried charStr then
    { g with CharsTried := g.CharsTried ++ [charStr] }
  else g

/-- The loop of `guessHandler` over the characters of the guess, left to right. -/
def guessLoop (g : game.State) (charGuessed : String) : game.State :=
  charGuessed.data.foldl guessChar g

/-- The response of a rejected guess: a zero `State` and the error. -/
def rejected (gameError : messages.Error) : messages.GameStateResp :=
  { State := default, Error := some gameError }

/-- Go `controller.guessHandler`: the controller afterwards and the response
that is encoded.  The branch with a nil error and no active game cannot be
reached (`validateGameStatus` returns an error when `GameState` is nil).
The handler makes no call to the store and the lists of the active game are
those of the code.  The `Store` component is returned as it is: with lists
for slices, a write of `append` (lines 202 and 207) into a backing array
that a stored game shares with the active game does not show here;
`shared.guessHandler` below has it. -/
def guessHandler (c : controller) (charGuessed : String) :
    controller × messages.GameStateResp :=
  match validateGameStatus c, c.GameState with
  | some gameError, _ => (c, rejected gameError)
  | none, none => (c, rejected { Message := notInProgressMessage })
  | none, some g =>
    let g1 := guessLoop g charGuessed
    let g2 : game.State := { g1 with Status := updateGameStatus g1 }
    ({ c with GameState := some g2 }, { State := g2, Error := none })

/-- A session receiving the guesses of `guesses` one after the other; the
responses are dropped. -/
def guessSequence (c : controller) (guesses : List String) : controller :=
  guesses.foldl (fun c charGuessed => (guessHandler c charGuessed).1) c

/-- A controller whose active game is the fresh game that `newGameHandler`
builds on word `w` (no character guessed or tried, in progress), saved under
`gameID`, for any user and store. -/
def freshSession (userID : String) (st : store.memStore) (gameID : Int) (w : String) :
    controller :=
  { UserID := userID
    GameState := some
      { GameID := gameID, WordToGuess := w, CharsGuessed := [], CharsTried := [],
        Status := game.InProgress }
    Store := st }

/-- Go `heroes`: the vocabulary of words to guess. -/
def heroes : List String :=
  ["superman", "spiderman", "batman", "catwoman", "jocker", "wolverine", "mickeymouse",
   "donaldduck", "wonderwoman", "capitanplanet", "rickandmorty", "ericcartman"]

/-- Go `randomHero`: `heroes[n]` for `n := rand.Int() % len(heroes)`; the
draw `rand.Int()` is the parameter `r`. -/
def randomHero (r : Nat) : String :=
  heroes.getD (r % heroes.length) ""

/-- What a handler encodes to the connection. -/
inductive Response where
  | help (r : messages.HelpResp)
  | gameState (r : messages.GameStateResp)
  | listGames (r : messages.ListGamesResp)
deriving DecidableEq, Repr

/-- The non-nil `error` values a handler can return (the encoder is taken
not to fail): a store error, the error of `strconv.Atoi` on `value`, and the
error for an action that is not recognized. -/
inductive HandlerError where
  | store (e : store.StoreError)
  | atoi (value : String)
  | unknownAction (action : game.PlayerAction)
deriving DecidableEq, Repr

/-- The effect of a handler: the controller afterwards, the response encoded
to the connection (if any) and the returned `error` (`none` is nil). -/
structure Outcome where
  ctrl : controller
  sent : Option Response
  err : Option HandlerError

/-- Go `controller.loginHandler`. -/
def loginHandler (c : controller) (userName : String) : Outcome :=
  match c.Store.SaveNewUser userName with
  | (st, some err) =>
    { ctrl := { c with Store := st }
      sent := some (Response.help { Info := "", Error := some { Message := err.message } })
      err := none }
  | (st, none) =>
    { ctrl := { c with Store := st, UserID := userName }
      sent := some (Response.help { Info := game.Rules, Error := none })
      err := none }

/-- The second half of `newGameHandler`: the fresh game is built, saved and
made the active game. -/
def createGame (c : controller) (r : Nat) : Outcome :=
  let newGame : game.State :=
    { GameID := 0, WordToGuess := randomHero r, CharsGuessed := [], CharsTried := [],
      Status := game.InProgress }
  match c.Store.SaveGame c.UserID newGame with
  | (st, Except.error e) =>
    { ctrl := { c with Store := st }, sent := none, err := some (HandlerError.store e) }
  | (st, Except.ok saved) =>
    let g : game.State := { saved with Status := game.InProgress }
    { ctrl := { c with Store := st, GameState := some g }
      sent := some (Response.gameState { State := g, Error := none })
      err := none }

/-- Go `controller.newGameHandler`; `r` is the random draw of `randomHero`. -/
def newGameHandler (c : controller) (r : Nat) : Outcome :=
  match c.GameState with
  | none => createGame c r
  | some g =>
    let g1 : game.State := { g with Status := game.Paused }
    match c.Store.SaveGame c.UserID g1 with
    | (st, Except.error e) =>
      { ctrl := { c with GameState := some g1, Store := st }
        sent := none, err := some (HandlerError.store e) }
    | (st, Except.ok _) => createGame { c with GameState := some g1, Store := st } r

/-- Go `controller.helpHandler`. -/
def helpHandler (c : controller) : Outcome :=
  { ctrl := c, sent := some (Response.help { Info := game.Rules, Error := none }), err := none }

/-- The second half of `listGamesHandler`: the games of the user are fetched
and encoded. -/
def listStored (c : controller) : Outcome :=
  match c.Store.GetGamesByUser c.UserID with
  | Except.error e => { ctrl := c, sent := none, err := some (HandlerError.store e) }
  | Except.ok games =>
    { ctrl := c, sent := some (Response.listGames { Games := games, Error := none })
      err := none }

/-- Go `controller.listGamesHandler`. -/
def listGamesHandler (c : controller) : Outcome :=
  match c.GameState with
  | none => listStored c
  | some g =>
    if g.Status = game.InProgress then
      let g1 : game.State := { g with Status := game.Paused }
      match c.Store.SaveGame c.UserID g1 with
      | (st, Except.error e) =>
        { ctrl := { c with GameState := some g1, Store := st }
          sent := none, err := some (HandlerError.store e) }
      | (st, Except.ok saved) => listStored { c with GameState := some saved, Store := st }
    else listStored c

/-- Go `controller.resumeGameHandler`. -/
def resumeGameHandler (c : controller) (gameID : String) : Outcome :=
  match strconv.Atoi gameID with
  | none => { ctrl := c, sent := none, err := some (HandlerError.atoi gameID) }
  | some id =>
    match c.Store.GetGameByID c.UserID id with
    | Except.error e =>
      { ctrl := c
        sent := some (Response.gameState
          { State := default, Error := some { Message := e.message } })
        err := none }
    | Except.ok toResume =>
      let g : game.State := { toResume with Status := game.InProgress }
      { ctrl := { c with GameState := some g }
        sent := some (Response.gameState { State := g, Error := none })
        err := none }

/-- Go `controller.handlePlayerAction`; `r` is the random draw used when the
action starts a new game. -/
def handlePlayerAction (c : controller) (input : messages.PlayerReq) (r : Nat) : Outcome :=
  if input.Action = game.Login then loginHandler c input.Value
  else if input.Action = game.NewGame then newGameHandler c r
  else if input.Action = game.Help then helpHandler c
  else if input.Action = game.ListGames then listGamesHandler c
  else if input.Action = game.ResumeGame then resumeGameHandler c input.Value
  else if input.Action = game.Guess then
    { ctrl := (guessHandler c input.Value).1
      sent := some (Response.gameState (guessHandler c input.Value).2)
      err := none }
  else { ctrl := c, sent := none, err := some (HandlerError.unknownAction input.Action) }

/-- A session handling the requests of `inputs` one after the other, each
with its random draw; a returned error does not end the session. -/
def runActions (c : controller) : List (messages.PlayerReq × Nat) → controller
  | [] => c
  | (input, r) :: rest => runActions (handlePlayerAction c input r).ctrl rest

/-- Go `NewSession`: the controller of a new connection on a store. -/
def NewSession (st : store.memStore) : controller :=
  { UserID := "", GameState := none, Store := st }

/-- The text of the errors that the handlers build themselves: the text of a
store error and the text of `fmt.Errorf` for an action that is not
recognized (`%v` prints the action as it is).  The text of a `strconv.Atoi`
error belongs to the library and is not modelled. -/
def HandlerError.text : HandlerError → Option String
  | HandlerError.store e => some e.message
  | HandlerError.atoi _ => none
  | HandlerError.unknownAction action =>
    some ("unexpected error: action " ++ action ++ " was not recognized")

/-- What `json.Decoder.Decode` finds next on the connection: a payload that
decodes into a request, a payload that does not decode, or the end of the
stream. -/
inductive Incoming where
  | request (req : messages.PlayerReq)
  | malformed
  | eof
deriving DecidableEq, Repr

/-- The errors of `parseUserInput`: `io.EOF` and any other decoding error. -/
inductive ReadError where
  | EOF
  | decode
deriving DecidableEq, Repr

/-- Go `parseUserInput`: the pointer to the request (`none` is nil) and the
error.  `ToLower` stands for `strings.ToLower`. -/
def parseUserInput (ToLower : String → String) :
    Incoming → Option messages.PlayerReq × Option ReadError
  | Incoming.request req => (some { req with Value := ToLower req.Value }, none)
  | Incoming.malformed => (none, some ReadError.decode)
  | Incoming.eof => (none, some ReadError.EOF)

/-- What a session writes to the connection: the response of a handler, or an
error that the loop of the session encodes after logging it. -/
inductive Emitted where
  | response (r : Response)
  | readError (e : ReadError)
  | handlerError (e : HandlerError)
deriving DecidableEq, Repr

/-- How far a session got on the requests it was given: it waits for the
next request, it left its loop on the end of the stream, or it panicked on a
nil pointer. -/
inductive SessionStatus where
  | waiting
  | disconnected
  | panicked
deriving DecidableEq, Repr

/-- The run of a session: the controller, what was written to the
connection, and the status. -/
structure SessionRun where
  ctrl : controller
  emitted : List Emitted
  status : SessionStatus

/-- Go method handleGameIO of the controller on the payloads that arrive, each with the
random draw available to its handler.  After a decoding error other than
`io.EOF` the loop body logs and encodes the error and goes on to
`c.handlePlayerAction(*cmd)`, where `cmd` is nil. -/
def handleGameIO (ToLower : String → String) (c : controller) :
    List (Incoming × Nat) → SessionRun
  | [] => { ctrl := c, emitted := [], status := SessionStatus.waiting }
  | (incoming, r) :: rest =>
    match parseUserInput ToLower incoming with
    | (_, some ReadError.EOF) =>
      { ctrl := c, emitted := [], status := SessionStatus.disconnected }
    | (none, some ReadError.decode) =>
      { ctrl := c, emitted := [Emitted.readError ReadError.decode]
        status := SessionStatus.panicked }
    | (none, none) => { ctrl := c, emitted := [], status := SessionStatus.panicked }
    | (some cmd, readErr) =>
      let o := handlePlayerAction c cmd r
      let next := handleGameIO ToLower o.ctrl rest
      { ctrl := next.ctrl
        emitted :=
          (match readErr with
            | some e => [Emitted.readError e]
            | none => [])
          ++ (match o.sent with
            | some resp => [Emitted.response resp]
            | none => [])
          ++ (match o.err with
            | some e => [Emitted.handlerError e]
            | none => [])
          ++ next.emitted
        status := next.status }

end handlers

/-! ## Slices with their backing arrays

In the definitions above a slice is the list of its elements.  A Go slice is
a header (pointer, length, capacity) onto a backing array, and the copies of
a `game.State` that `SaveGame` stores and that `SaveGame` and `GetGameByID`
return carry copies of the headers of `CharsGuessed` and `CharsTried`: the
stored game and the game a controller works on share the backing arrays.
The definitions of this section follow the same source with the slices as
headers into a heap of arrays, so that a write of `append` into a shared
array shows in every game whose header covers the cell written.  The
handlers are given by their effect on the controller, the store and the
heap; what they encode to the connection is defined above. -/

namespace shared

/-- A Go slice header of type `[]string`: the address of the backing array,
the length and the capacity.  The slice starts at the first cell of its
array (the code never reslices).  For a slice of capacity 0, nil or empty,
the address is not used. -/
structure Slice where
  array : Nat
  len : Nat
  cap : Nat
deriving DecidableEq, Repr

/-- The arrays allocated so far; the address of an array is its position. -/
abbrev Heap := List (List String)

/-- The elements of a slice: the first `len` cells of its backing array. -/
def Slice.elems (h : Heap) (s : Slice) : List String :=
  (h.getD s.array []).take s.len

/-- The capacity that the Go runtime (`growslice`) gives to a slice of fewer
than 256 elements that has to grow to `newLen` elements: twice the old
capacity, or `newLen` if that is larger.  For the slices of the server,
which all grow one element at a time from the empty slice of a new game,
the capacities are 1, 2, 4, 8, ... -/
def growCap (oldCap newLen : Nat) : Nat :=
  if oldCap + oldCap < newLen then newLen else oldCap + oldCap

/-- Go `append(s, x)` for one element: when the capacity allows, `x` is
written into the cell after the last element of `s`, in the backing array of
`s`; otherwise a new array is allocated, the elements of `s` are copied and
`x` is put after them.  The result is the heap afterwards and the returned
slice. -/
def append (h : Heap) (s : Slice) (x : String) : Heap × Slice :=
  if s.len < s.cap then
    (h.set s.array ((h.getD s.array []).set s.len x), { s with len := s.len + 1 })
  else
    (h ++ [s.elems h ++ x :: List.replicate (growCap s.cap (s.len + 1) - (s.len + 1)) ""],
     { array := h.length, len := s.len + 1, cap := growCap s.cap (s.len + 1) })

/-- Go `game.State`, the two slices as headers. -/
structure State where
  GameID : Int
  WordToGuess : String
  CharsGuessed : Slice
  CharsTried : Slice
  Status : game.Status
deriving DecidableEq, Repr

/-- The game that a `State` of headers denotes in heap `h`. -/
def State.view (h : Heap) (g : State) : game.State :=
  { GameID := g.GameID, WordToGuess := g.WordToGuess, CharsGuessed := g.CharsGuessed.elems h,
    CharsTried := g.CharsTried.elems h, Status := g.Status }

/-- Go `map[int]game.State`: the games of one user. -/
abbrev Games := AList (fun _ : Int => State)

/-- Go `memStore` without its mutex. -/
structure memStore where
  games : AList (fun _ : String => Games)

/-- Go `NewMemStore`. -/
def NewMemStore : memStore := { games := ∅ }

/-- Go `len(s.games[userID])`. -/
def lenGames (s : memStore) (userID : String) : Nat :=
  match s.games.lookup userID with
  | none => 0
  | some games => games.entries.length

/-- Go `memStore.SaveGame`: the struct `g` is copied into the map and into
the returned value, headers included; no array is copied. -/
def memStore.SaveGame (s : memStore) (userID : String) (g : State) :
    memStore × Except store.StoreError State :=
  let g : State :=
    if g.GameID = 0 then { g with GameID := (lenGames s userID : Int) + 1 } else g
  match s.games.lookup userID with
  | none =>
    ({ games := s.games.insert userID ((∅ : Games).insert g.GameID g) }, Except.ok g)
  | some games =>
    ({ games := s.games.insert userID (games.insert g.GameID g) }, Except.ok g)

/-- The game stored for `userID` under `gameID`, if any. -/
def memStore.gameAt (s : memStore) (userID : String) (gameID : Int) : Option State :=
  match s.games.lookup userID with
  | none => none
  | some games => games.lookup gameID

/-- Go `memStore.SaveNewUser`. -/
def memStore.SaveNewUser (s : memStore) (userID : String) :
    memStore × Option store.StoreError :=
  match s.games.lookup userID with
  | none => ({ games := s.games.insert userID ∅ }, none)
  | some _ => (s, none)

/-- The loop of `GetGameByID` over the entries of the map of a user. -/
def findGame (gameID : Int) : List (Sigma (fun _ : Int => State)) → Option State
  | [] => none
  | e :: rest => if e.1 = gameID then some e.2 else findGame gameID rest

/-- Go `memStore.GetGameByID`: the returned struct is a copy of the stored
one, headers included. -/
def memStore.GetGameByID (s : memStore) (userID : String) (gameID : Int) :
    Except store.StoreError State :=
  match s.games.lookup userID with
  | none => Except.error store.StoreError.ErrorUserNotFound
  | some games =>
    match findGame gameID games.entries with
    | some g => Except.ok g
    | none => Except.error store.StoreError.ErrorGameNotFound

/-- Go `controller` as far as memory goes: the session user, the active game,
the store, and the heap holding the backing arrays of all slices. -/
structure controller where
  UserID : String
  GameState : Option State
  Store : memStore
  Heap : Heap

/-- Go `controller.updateGameStatus`; `len` of a slice is the length of its
header. -/
def updateGameStatus (g : State) : game.Status :=
  if g.CharsTried.len ≥ game.MaxWrongChars then game.GameOver
  else if g.CharsGuessed.len ≥ g.WordToGuess.utf8ByteSize then game.Won
  else game.InProgress

/-- The inner loop of `guessHandler`: `for occurences > 0` appends `charStr`
to `CharsGuessed` and decrements the counter. -/
def appendOccurences (h : Heap) (charsGuessed : Slice) (charStr : String) :
    Nat → Heap × Slice
  | 0 => (h, charsGuessed)
  | occurences + 1 =>
    appendOccurences (append h charsGuessed charStr).1 (append h charsGuessed charStr).2
      charStr occurences

/-- The body of the loop of `guessHandler` for one character of the guess,
on the heap and the active game. -/
def guessChar (m : Heap × State) (char : Char) : Heap × State :=
  let charStr := runeString char
  if strings.Contains m.2.WordToGuess charStr then
    let occurences := strings.Count m.2.WordToGuess charStr
    let r := appendOccurences m.1 m.2.CharsGuessed charStr occurences
    (r.1, { m.2 with CharsGuessed := r.2 })
  else if !utils.Contains (m.2.CharsTried.elems m.1) charStr then
    let r := append m.1 m.2.CharsTried charStr
    (r.1, { m.2 with CharsTried := r.2 })
  else m

/-- Go `controller.validateGameStatus`; `none` is the nil error. -/
def validateGameStatus (c : controller) : Option messages.Error :=
  match c.GameState with
  | none => some { Message := handlers.notInProgressMessage }
  | some g =>
    if g.Status ≠ game.InProgress then some { Message := handlers.notInProgressMessage }
    else none

/-- Go `controller.guessHandler`: a guess that `validateGameStatus` rejects
changes nothing; an accepted guess runs the loop over the characters of the
guess and sets the status.  The store is not called. -/
def guessHandler (c : controller) (charGuessed : String) : controller :=
  match validateGameStatus c, c.GameState with
  | some _, _ => c
  | none, none => c
  | none, some g =>
    let r := charGuessed.data.foldl guessChar (c.Heap, g)
    let g1 : State := r.2
    { c with Heap := r.1, GameState := some { g1 with Status := updateGameStatus g1 } }

/-- Go `controller.loginHandler`. -/
def loginHandler (c : controller) (userName : String) : controller :=
  match c.Store.SaveNewUser userName with
  | (st, some _) => { c with Store := st }
  | (st, none) => { c with Store := st, UserID := userName }

/-- The second half of `newGameHandler`: `CharsTried` of the new game is the
empty slice `[]string{}`, `CharsGuessed` the nil slice, both of capacity 0. -/
def createGame (c : controller) (r : Nat) : controller :=
  let newGame : State :=
    { GameID := 0, WordToGuess := handlers.randomHero r
      CharsGuessed := { array := 0, len := 0, cap := 0 }
      CharsTried := { array := 0, len := 0, cap := 0 }
      Status := game.InProgress }
  match c.Store.SaveGame c.UserID newGame with
  | (st, Except.error _) => { c with Store := st }
  | (st, Except.ok saved) =>
    { c with Store := st, GameState := some { saved with Status := game.InProgress } }

/-- Go `controller.newGameHandler`; `r` is the random draw of `randomHero`. -/
def newGameHandler (c : controller) (r : Nat) : controller :=
  match c.GameState with
  | none => createGame c r
  | some g =>
    let g1 : State := { g with Status := game.Paused }
    match c.Store.SaveGame c.UserID g1 with
    | (st, Except.error _) => { c with GameState := some g1, Store := st }
    | (st, Except.ok _) => createGame { c with GameState := some g1, Store := st } r

/-- Go `controller.listGamesHandler`; `GetGamesByUser` only reads. -/
def listGamesHandler (c : controller) : controller :=
  match c.GameState with
  | none => c
  | some g =>
    if g.Status = game.InProgress then
      let g1 : State := { g with Status := game.Paused }
      match c.Store.SaveGame c.UserID g1 with
      | (st, Except.error _) => { c with GameState := some g1, Store := st }
      | (st, Except.ok saved) => { c with GameState := some saved, Store := st }
    else c

/-- Go `controller.resumeGameHandler`. -/
def resumeGameHandler (c : controller) (gameID : String) : controller :=
  match strconv.Atoi gameID with
  | none => c
  | some id =>
    match c.Store.GetGameByID c.UserID id with
    | Except.error _ => c
    | Except.ok toResume =>
      { c with GameState := some { toResume with Status := game.InProgress } }

/-- Go `controller.handlePlayerAction`. -/
def handlePlayerAction (c : controller) (input : messages.PlayerReq) (r : Nat) : controller :=
  if input.Action = game.Login then loginHandler c input.Value
  else if input.Action = game.NewGame then newGameHandler c r
  else if input.Action = game.Help then c
  else if input.Action = game.ListGames then listGamesHandler c
  else if input.Action = game.ResumeGame then resumeGameHandler c input.Value
  else if input.Action = game.Guess then guessHandler c input.Value
  else c

/-- A session handling the requests of `inputs` one after the other. -/
def runActions (c : controller) : List (messages.PlayerReq × Nat) → controller
  | [] => c
  | (input, r) :: rest => runActions (handlePlayerAction c input r) rest

/-- Go `NewSession`: the controller of a new connection on a store. -/
def NewSession (st : memStore) (h : Heap) : controller :=
  { UserID := "", GameState := none, Store := st, Heap := h }

/-- The active game of a controller, its slices read from the heap. -/
def controller.active (c : controller) : Option game.State :=
  c.GameState.map (State.view c.Heap)

/-- The game stored for `userID` under `gameID`, its slices read from the heap. -/
def controller.stored (c : controller) (userID : String) (gameID : Int) : Option game.State :=
  (c.Store.gameAt userID gameID).map (State.view c.Heap)

end shared

/-! ## Definitions used to state the properties -/

/-- The effect of one guessed character in the words of the specification
(section 4.1): a character occurring in the word is appended to the guessed
characters once per occurrence in the word; any other character is appended
to the tried characters once, unless it is already there. -/
def applyGuessCharSpec (word : List Char) (lists : List String × List String) (ch : Char) :
    List String × List String :=
  if ch ∈ word then (lists.1 ++ List.replicate (word.count ch) (runeString ch), lists.2)
  else if runeString ch ∈ lists.2 then lists
  else (lists.1, lists.2 ++ [runeString ch])

/-- The specification of a whole guess: its characters are taken left to
right. -/
def applyGuessSpec (word : List Char) (lists : List String × List String) (guess : List Char) :
    List String × List String :=
  guess.foldl (applyGuessCharSpec word) lists

/-- A session with an in-progress game on "foo": "f" is guessed and six wrong
characters are tried. -/
def sessionSixWrong : handlers.controller :=
  { UserID := "alice"
    GameState := some
      { GameID := 1, WordToGuess := "foo", CharsGuessed := ["f"],
        CharsTried := ["a", "b", "c", "d", "e", "g"], Status := game.InProgress }
    Store := store.NewMemStore }

/-- The entries left in `CharsGuessed` by guessing, one after the other, the
characters of `l`, each of which occurs in `word`. -/
def guessedEntries (word : List Char) : List Char → List String
  | [] => []
  | ch :: l => List.replicate (word.count ch) (runeString ch) ++ guessedEntries word l

/-- All the characters of a sequence of guess strings, in the order in which
they are submitted. -/
def guessChars : List String → List Char
  | [] => []
  | guess :: rest => guess.data ++ guessChars rest

/-- The game ID carried by what `SaveGame` returns (none for an error). -/
def returnedID : Except store.StoreError game.State → List Int
  | Except.ok saved => [saved.GameID]
  | Except.error _ => []

/-- A series of `SaveGame` calls for one user, in order: the store afterwards
and the IDs returned for the games that were saved with `GameID == 0`. -/
def saveAll (s : store.memStore) (userID : String) :
    List game.State → store.memStore × List Int
  | [] => (s, [])
  | g :: rest =>
    ((saveAll (s.SaveGame userID g).1 userID rest).1,
      (if g.GameID = 0 then returnedID (s.SaveGame userID g).2 else [])
        ++ (saveAll (s.SaveGame userID g).1 userID rest).2)

/-- Every game of the series that carries an explicit (non-zero) ID carries
an ID that the collection of the user holds at the time of the call. -/
def explicitIDsStored (s : store.memStore) (userID : String) : List game.State → Bool
  | [] => true
  | g :: rest =>
    (decide (g.GameID = 0) || decide (g.GameID ∈ s.gameIDs userID))
      && explicitIDsStored (s.SaveGame userID g).1 userID rest

/-- A game carrying the explicit ID 2. -/
def explicitGame : game.State :=
  { GameID := 2, WordToGuess := "batman", CharsGuessed := ["a", "a"], CharsTried := [],
    Status := game.Paused }

/-- A store in which "alice" has saved one game under the explicit ID 2. -/
def storeWithExplicitID : store.memStore :=
  (store.NewMemStore.SaveGame "alice" explicitGame).1

/-- A new game, not yet saved: `GameID` is 0. -/
def unsavedGame : game.State :=
  { GameID := 0, WordToGuess := "jocker", CharsGuessed := [], CharsTried := [],
    Status := game.InProgress }

/-- The store of `TestSaveGame` after its first two saves: "user-id" holds
the games 1 and 2. -/
def storeTwoGames : store.memStore :=
  (saveAll store.NewMemStore "user-id"
    [{ GameID := 0, WordToGuess := "test-word", CharsGuessed := [], CharsTried := [],
       Status := "" },
     { GameID := 0, WordToGuess := "another-test-word", CharsGuessed := [], CharsTried := [],
       Status := "" }]).1

/-- The game `toUpdate` of `TestSaveGame`: game 1 with "a" guessed. -/
def toUpdate : game.State :=
  { GameID := 1, WordToGuess := "test-word", CharsGuessed := ["a"], CharsTried := [],
    Status := "" }

/-- The session after "login alice", "new" (the draw picks "batman") and
"login bob" on an empty store: the user is "bob", the active game is game 1
of "alice". -/
def sessionRelogin : handlers.controller :=
  handlers.runActions (handlers.NewSession store.NewMemStore)
    [({ Action := "login", Value := "alice" }, 0), ({ Action := "new", Value := "" }, 2),
     ({ Action := "login", Value := "bob" }, 0)]

/-- The session of `TestNewGameHandler` before its first call: "user-id" is
registered and logged in, no game is active. -/
def sessionRegistered : handlers.controller :=
  { UserID := "user-id", GameState := none
    Store := (store.NewMemStore.SaveNewUser "user-id").1 }

/-- The session after "login alice", "new" (the draw picks "batman") and the
guess "batmn" on an empty store: the active game is won. -/
def sessionWon : handlers.controller :=
  handlers.runActions (handlers.NewSession store.NewMemStore)
    [({ Action := "login", Value := "alice" }, 0), ({ Action := "new", Value := "" }, 2),
     ({ Action := "try", Value := "batmn" }, 0)]

/-- A game is well formed when every entry of `CharsGuessed` is a single
character occurring in the word, every entry of `CharsTried` is a single
character not occurring in the word, and `CharsTried` has no duplicates. -/
def wellFormed (g : game.State) : Prop :=
  (∀ x ∈ g.CharsGuessed, ∃ ch : Char, x = runeString ch ∧ ch ∈ g.WordToGuess.data)
  ∧ (∀ x ∈ g.CharsTried, ∃ ch : Char, x = runeString ch ∧ ch ∉ g.WordToGuess.data)
  ∧ g.CharsTried.Nodup

/-- Every game held in the store, for any user, has status in progress or
paused. -/
def storedInProgressOrPaused (s : store.memStore) : Prop :=
  ∀ (userID : String) (gameID : Int) (g : game.State),
    s.gameAt userID gameID = some g → g.Status = "in progress" ∨ g.Status = "paused"

/-- Modelled from the spec: the table `drawing.Display` of the client, which is
not among the sources, has 8 stages (0 through 7 wrong guesses); the client
indexes it with `len(CharsTried)`. -/
def displayStages : Nat := 8

/-- The session after "login alice" and the requests "new", "new", "resume 1",
"new" on an empty store (the draws pick "batman", "jocker", "superman"). -/
def sessionNewNewResumeNew : handlers.controller :=
  handlers.runActions (handlers.NewSession store.NewMemStore)
    [({ Action := "login", Value := "alice" }, 0), ({ Action := "new", Value := "" }, 2),
     ({ Action := "new", Value := "" }, 4), ({ Action := "resume", Value := "1" }, 0),
     ({ Action := "new", Value := "" }, 0)]

/-- The session after "login alice" and "new" (the draw picks "batman") on an
empty store. -/
def sessionPlaying : handlers.controller :=
  handlers.runActions (handlers.NewSession store.NewMemStore)
    [({ Action := "login", Value := "alice" }, 0), ({ Action := "new", Value := "" }, 2)]

/-- The session after "login alice", "new" ("batman"), seven wrong
single-character guesses (the game is over), "new" and "resume 1" on an
empty store: game 1, with its seven tried characters, is active and in
progress again. -/
def sessionResumedGameOver : handlers.controller :=
  handlers.runActions (handlers.NewSession store.NewMemStore)
    [({ Action := "login", Value := "alice" }, 0), ({ Action := "new", Value := "" }, 2),
     ({ Action := "try", Value := "c" }, 0), ({ Action := "try", Value := "d" }, 0),
     ({ Action := "try", Value := "e" }, 0), ({ Action := "try", Value := "f" }, 0),
     ({ Action := "try", Value := "g" }, 0), ({ Action := "try", Value := "h" }, 0),
     ({ Action := "try", Value := "i" }, 0), ({ Action := "new", Value := "" }, 4),
     ({ Action := "resume", Value := "1" }, 0)]

/-- A header fits the heap: the length is within the capacity, and a slice
of positive capacity points to an allocated array of that many cells. -/
def shared.Slice.fits (h : shared.Heap) (s : shared.Slice) : Prop :=
  s.len ≤ s.cap ∧ (0 < s.cap → s.array < h.length ∧ (h.getD s.array []).length = s.cap)

/-- Two slices lie on different arrays (a slice of capacity 0 has no array). -/
def shared.Slice.apart (s t : shared.Slice) : Prop :=
  0 < s.cap → 0 < t.cap → s.array ≠ t.array

/-- The two slices of a game fit the heap and lie on different arrays. -/
def shared.State.fits (h : shared.Heap) (g : shared.State) : Prop :=
  g.CharsGuessed.fits h ∧ g.CharsTried.fits h ∧ g.CharsTried.apart g.CharsGuessed

/-- The session, with slices as headers, after "login bob", "new" (the draw
picks "batman"), the wrong guesses "c", "d", "e", "list", "login alice",
"new", "login bob", "resume 1", the wrong guess "f", "list", "login alice" and
"resume 1" on an empty store and an empty heap: game 1 of "alice" is active. -/
def sessionSharedArray : shared.controller :=
  shared.runActions (shared.NewSession shared.NewMemStore [])
    [({ Action := "login", Value := "bob" }, 0), ({ Action := "new", Value := "" }, 2),
     ({ Action := "try", Value := "c" }, 0), ({ Action := "try", Value := "d" }, 0),
     ({ Action := "try", Value := "e" }, 0), ({ Action := "list", Value := "" }, 0),
     ({ Action := "login", Value := "alice" }, 0), ({ Action := "new", Value := "" }, 4),
     ({ Action := "login", Value := "bob" }, 0), ({ Action := "resume", Value := "1" }, 0),
     ({ Action := "try", Value := "f" }, 0), ({ Action := "list", Value := "" }, 0),
     ({ Action := "login", Value := "alice" }, 0), ({ Action := "resume", Value := "1" }, 0)]

open handlers game store

/-! ## Basic facts about the library functions -/

theorem runeString_inj {a b : Char} : runeString a = runeString b ↔ a = b := by
  constructor
  · intro h
    have h2 : (runeString a).data = (runeString b).data := by rw [h]
    simpa [runeString] using h2
  · intro h; rw [h]

theorem strings_containsFrom_singleton (c : Char) (l : List Char) :
    strings.containsFrom [c] l = true ↔ c ∈ l := by
  induction l with
  | nil => simp [strings.containsFrom]
  | cons d ds ih =>
    simp [strings.containsFrom, List.isPrefixOf, ih]

theorem strings_Contains_rune (s : String) (c : Char) :
    strings.Contains s (runeString c) = true ↔ c ∈ s.data := by
  simp [strings.Contains, runeString, strings_containsFrom_singleton]

theorem strings_countFrom_singleton (c : Char) (l : List Char) :
    strings.countFrom [c] l 0 = l.count c := by
  induction l with
  | nil => simp [strings.countFrom]
  | cons d ds ih =>
    by_cases h : c = d
    · subst h
      simp [strings.countFrom, List.isPrefixOf, ih, Nat.add_comm]
    · have h2 : ¬ d = c := fun e => h e.symm
      simp [strings.countFrom, List.isPrefixOf, ih, h, h2, List.count_cons]

theorem strings_Count_rune (s : String) (c : Char) :
    strings.Count s (runeString c) = s.data.count c := by
  simp [strings.Count, runeString, strings_countFrom_singleton]

theorem utils_Contains_iff (l : List String) (x : String) :
    utils.Contains l x = true ↔ x ∈ l := by
  induction l with
  | nil => simp [utils.Contains]
  | cons a as ih =>
    by_cases h : a = x
    · simp [utils.Contains, h]
    · have h2 : ¬ x = a := fun e => h e.symm
      simp [utils.Contains, h, h2, ih]

theorem appendOccurences_eq (l : List String) (x : String) (n : Nat) :
    appendOccurences l x n = l ++ List.replicate n x := by
  induction n generalizing l with
  | zero => simp [appendOccurences]
  | succ n ih =>
    simp [appendOccurences, ih, List.replicate_succ]


/-! ## The guess handler -/

theorem guessChar_spec (g : State) (ch : Char) :
    ((guessChar g ch).CharsGuessed, (guessChar g ch).CharsTried)
      = applyGuessCharSpec g.WordToGuess.data (g.CharsGuessed, g.CharsTried) ch
    ∧ (guessChar g ch).WordToGuess = g.WordToGuess
    ∧ (guessChar g ch).GameID = g.GameID
    ∧ (guessChar g ch).Status = g.Status := by
  unfold guessChar applyGuessCharSpec
  by_cases hw : ch ∈ g.WordToGuess.data
  · have h1 : strings.Contains g.WordToGuess (runeString ch) = true :=
      (strings_Contains_rune _ _).2 hw
    simp [h1, hw, appendOccurences_eq, strings_Count_rune]
  · have h1 : ¬ strings.Contains g.WordToGuess (runeString ch) = true :=
      fun h => hw ((strings_Contains_rune _ _).1 h)
    by_cases ht : runeString ch ∈ g.CharsTried
    · have h2 : utils.Contains g.CharsTried (runeString ch) = true :=
        (utils_Contains_iff _ _).2 ht
      simp [h1, hw, ht, h2]
    · have h2 : ¬ utils.Contains g.CharsTried (runeString ch) = true :=
        fun h => ht ((utils_Contains_iff _ _).1 h)
      simp [h1, hw, ht, h2]

theorem foldl_guessChar_spec (l : List Char) (g : State) :
    ((l.foldl guessChar g).CharsGuessed, (l.foldl guessChar g).CharsTried)
      = applyGuessSpec g.WordToGuess.data (g.CharsGuessed, g.CharsTried) l
    ∧ (l.foldl guessChar g).WordToGuess = g.WordToGuess
    ∧ (l.foldl guessChar g).GameID = g.GameID
    ∧ (l.foldl guessChar g).Status = g.Status := by
  induction l generalizing g with
  | nil => simp [applyGuessSpec]
  | cons ch cs ih =>
    obtain ⟨h1, h2, h3, h4⟩ := guessChar_spec g ch
    obtain ⟨k1, k2, k3, k4⟩ := ih (guessChar g ch)
    refine ⟨?_, ?_, ?_, ?_⟩
    · simp only [List.foldl_cons, applyGuessSpec] at k1 ⊢
      rw [k1, h2, h1]
    · simp only [List.foldl_cons]; rw [k2, h2]
    · simp only [List.foldl_cons]; rw [k3, h3]
    · simp only [List.foldl_cons]; rw [k4, h4]

theorem guessLoop_spec (g : State) (guess : String) :
    ((guessLoop g guess).CharsGuessed, (guessLoop g guess).CharsTried)
      = applyGuessSpec g.WordToGuess.data (g.CharsGuessed, g.CharsTried) guess.data
    ∧ (guessLoop g guess).WordToGuess = g.WordToGuess
    ∧ (guessLoop g guess).GameID = g.GameID
    ∧ (guessLoop g guess).Status = g.Status :=
  foldl_guessChar_spec guess.data g

theorem validateGameStatus_eq_none (c : controller) (g : State)
    (hg : c.GameState = some g) (hs : g.Status = InProgress) :
    validateGameStatus c = none := by
  simp [validateGameStatus, hg, hs]

theorem guessHandler_accepted (c : controller) (g : State) (guess : String)
    (hg : c.GameState = some g) (hs : g.Status = InProgress) :
    guessHandler c guess =
      ({ c with
          GameState :=
            some ({ (guessLoop g guess) with Status := updateGameStatus (guessLoop g guess) }) },
       { State := ({ (guessLoop g guess) with Status := updateGameStatus (guessLoop g guess) }),
         Error := none }) := by
  have hv := validateGameStatus_eq_none c g hg hs
  unfold guessHandler
  rw [hv, hg]

theorem guessHandler_rejected (c : controller) (guess : String)
    (h : c.GameState = none ∨ ∃ g, c.GameState = some g ∧ g.Status ≠ InProgress) :
    guessHandler c guess = (c, rejected { Message := notInProgressMessage }) := by
  rcases h with h | ⟨g, hg, hs⟩
  · simp [guessHandler, validateGameStatus, h]
  · simp [guessHandler, validateGameStatus, hg, hs]

/-- C1: for an in-progress active game, `guessHandler` accepts the guess and
takes its characters left to right; a character occurring in the word is
appended to `CharsGuessed` once per occurrence in the word, any other
character is appended to `CharsTried` once unless it is already there.  The
response carries the updated game and no error. -/
theorem guessHandler_appends_per_occurrence (c : controller) (g : State) (guess : String)
    (hg : c.GameState = some g) (hs : g.Status = InProgress) :
    ∃ g1 : State,
      (guessHandler c guess).1.GameState = some g1
      ∧ (guessHandler c guess).2 = { State := g1, Error := none }
      ∧ (g1.CharsGuessed, g1.CharsTried)
          = guess.data.foldl
              (fun lists ch =>
                if ch ∈ g.WordToGuess.data then
                  (lists.1 ++ List.replicate (g.WordToGuess.data.count ch) (runeString ch),
                    lists.2)
                else if runeString ch ∈ lists.2 then lists
                else (lists.1, lists.2 ++ [runeString ch]))
              (g.CharsGuessed, g.CharsTried) := by
  rw [guessHandler_accepted c g guess hg hs]
  refine ⟨_, rfl, rfl, ?_⟩
  exact (guessLoop_spec g guess).1

/-- C1, witness: on the word "foo" the guess "o" yields `CharsGuessed = ["o", "o"]`. -/
theorem guessHandler_appends_per_occurrence_witness :
    ∃ g1 : State,
      (guessHandler (freshSession "alice" NewMemStore 1 "foo") "o").1.GameState = some g1
      ∧ g1.CharsGuessed = ["o", "o"] ∧ g1.CharsTried = [] := by
  obtain ⟨g1, h1, _, h3⟩ :=
    guessHandler_appends_per_occurrence (freshSession "alice" NewMemStore 1 "foo")
      { GameID := 1, WordToGuess := "foo", CharsGuessed := [], CharsTried := [],
        Status := InProgress } "o" rfl rfl
  refine ⟨g1, h1, ?_, ?_⟩
  · exact (congrArg Prod.fst h3).trans (by decide)
  · exact (congrArg Prod.snd h3).trans (by decide)

theorem status_constants_distinct :
    GameOver ≠ Won ∧ GameOver ≠ InProgress ∧ Won ≠ InProgress := by decide

theorem updateGameStatus_cases (g : State) :
    (updateGameStatus g = GameOver ↔ 7 ≤ g.CharsTried.length)
    ∧ (updateGameStatus g = Won ↔
        g.CharsTried.length < 7 ∧ g.WordToGuess.utf8ByteSize ≤ g.CharsGuessed.length)
    ∧ (updateGameStatus g = InProgress ↔
        g.CharsTried.length < 7 ∧ g.CharsGuessed.length < g.WordToGuess.utf8ByteSize) := by
  obtain ⟨h1, h2, h3⟩ := status_constants_distinct
  unfold updateGameStatus MaxWrongChars
  by_cases ht : 7 ≤ g.CharsTried.length
  · have ht2 : ¬ g.CharsTried.length < 7 := by omega
    simp [ht, ht2, h1, h2]
  · have ht2 : g.CharsTried.length < 7 := by omega
    by_cases hw : g.WordToGuess.utf8ByteSize ≤ g.CharsGuessed.length
    · have hw2 : ¬ g.CharsGuessed.length < g.WordToGuess.utf8ByteSize := by omega
      simp [ht, ht2, hw, hw2, h1.symm, h3]
    · have hw2 : g.CharsGuessed.length < g.WordToGuess.utf8ByteSize := by omega
      simp [ht, ht2, hw, hw2, h2.symm, h3.symm]

/-- C2, counterexample: on "foo" with "f" guessed and six wrong characters
tried, the accepted guess "oh" completes the word (three entries guessed for
a word of length three) and brings the tried characters to seven; the status
is then game over, not won. -/
theorem guess_completing_word_at_seven_wrong_is_game_over :
    (guessHandler sessionSixWrong "oh").1.GameState
      = some
          { GameID := 1, WordToGuess := "foo", CharsGuessed := ["f", "o", "o"],
            CharsTried := ["a", "b", "c", "d", "e", "g", "h"], Status := "game over" }
    ∧ (guessHandler sessionSixWrong "oh").2.Error = none
    ∧ ["f", "o", "o"].length ≥ "foo".utf8ByteSize
    ∧ GameOver ≠ Won := by
  decide

/-- C2, amended: after every accepted guess the status of the active game is
game over if and only if `len(CharsTried) >= 7`; won if and only if
`len(CharsTried) < 7` and `len(CharsGuessed) >= len(WordToGuess)`; in
progress if and only if neither bound is reached.  The check of the tried
characters comes first. -/
theorem status_after_accepted_guess (c : controller) (g : State) (guess : String)
    (hg : c.GameState = some g) (hs : g.Status = InProgress) :
    ∃ g1 : State,
      (guessHandler c guess).1.GameState = some g1
      ∧ (guessHandler c guess).2 = { State := g1, Error := none }
      ∧ (g1.Status = "game over" ↔ 7 ≤ g1.CharsTried.length)
      ∧ (g1.Status = "won" ↔
          g1.CharsTried.length < 7 ∧ g1.WordToGuess.utf8ByteSize ≤ g1.CharsGuessed.length)
      ∧ (g1.Status = "in progress" ↔
          g1.CharsTried.length < 7 ∧ g1.CharsGuessed.length < g1.WordToGuess.utf8ByteSize) := by
  rw [guessHandler_accepted c g guess hg hs]
  exact ⟨_, rfl, rfl, updateGameStatus_cases (guessLoop g guess)⟩

/-- C2, witness: on "foo" with "f" guessed and six wrong characters tried, the
guess "o" is accepted and the status obeys the rule for won. -/
theorem status_after_accepted_guess_witness :
    ∃ g1 : State,
      (guessHandler sessionSixWrong "o").1.GameState = some g1
      ∧ (g1.Status = "won" ↔
          g1.CharsTried.length < 7 ∧ g1.WordToGuess.utf8ByteSize ≤ g1.CharsGuessed.length) := by
  obtain ⟨g1, h1, _, _, h4, _⟩ :=
    status_after_accepted_guess sessionSixWrong
      { GameID := 1, WordToGuess := "foo", CharsGuessed := ["f"],
        CharsTried := ["a", "b", "c", "d", "e", "g"], Status := InProgress } "o" rfl rfl
  exact ⟨g1, h1, h4⟩

/-- C3: when there is no active game, or the active game is not in progress,
`guessHandler` answers with the error "you must start a new game or resume a
paused game before guessing the hero" and leaves the controller, hence the
active game, as it was; in particular every guess that follows a guess which
ended the game (status other than in progress) is rejected in this way. -/
theorem guessHandler_rejects_unless_in_progress (c : controller) (guess : String) :
    ((c.GameState = none ∨ ∃ g, c.GameState = some g ∧ g.Status ≠ "in progress") →
      guessHandler c guess =
        (c, { State := default,
              Error := some { Message :=
                "you must start a new game or resume a paused game before guessing the hero" } }))
    ∧ (∀ g1 : State, (guessHandler c guess).1.GameState = some g1 →
        (g1.Status = "won" ∨ g1.Status = "game over") →
        ∀ next : String,
          guessHandler (guessHandler c guess).1 next =
            ((guessHandler c guess).1,
              { State := default,
                Error := some { Message :=
                  "you must start a new game or resume a paused game before guessing the hero" } })) := by
  refine ⟨fun h => guessHandler_rejected c guess h, ?_⟩
  intro g1 h1 h2 next
  apply guessHandler_rejected
  refine Or.inr ⟨g1, h1, ?_⟩
  rcases h2 with h2 | h2 <;> rw [h2] <;> decide

/-- C3, witness: a paused game rejects the guess "o" and stays as it is. -/
theorem guessHandler_rejects_unless_in_progress_witness :
    (guessHandler
        { UserID := "alice"
          GameState := some { (default : State) with WordToGuess := "foo", Status := "paused" }
          Store := NewMemStore } "o").2.Error
      = some { Message :=
          "you must start a new game or resume a paused game before guessing the hero" } := by
  have h :=
    (guessHandler_rejects_unless_in_progress
      { UserID := "alice"
        GameState := some { (default : State) with WordToGuess := "foo", Status := "paused" }
        Store := NewMemStore } "o").1
      (Or.inr ⟨_, rfl, by decide⟩)
  rw [h]

/-! ## Sequences of guesses -/

theorem guessSequence_append (c : controller) (l1 l2 : List String) :
    guessSequence c (l1 ++ l2) = guessSequence (guessSequence c l1) l2 := by
  simp [guessSequence, List.foldl_append]

theorem guessSequence_cons (c : controller) (x : String) (l : List String) :
    guessSequence c (x :: l) = guessSequence (guessHandler c x).1 l := rfl

theorem guessLoop_runeString (g : State) (ch : Char) :
    guessLoop g (runeString ch) = guessChar g ch := rfl

theorem utf8ByteSize_pos_of_ne_empty (w : String) (hw : w ≠ "") : 0 < w.utf8ByteSize := by
  obtain ⟨l⟩ := w
  cases l with
  | nil => exact absurd rfl hw
  | cons a as =>
    have := Char.utf8Size_pos a
    simp only [String.utf8ByteSize, String.utf8ByteSize.go]
    omega

theorem guessChar_wrong_new (g : State) (ch : Char)
    (hw : ch ∉ g.WordToGuess.data) (ht : runeString ch ∉ g.CharsTried) :
    guessChar g ch = { g with CharsTried := g.CharsTried ++ [runeString ch] } := by
  have h1 : ¬ strings.Contains g.WordToGuess (runeString ch) = true :=
    fun h => hw ((strings_Contains_rune _ _).1 h)
  have h2 : ¬ utils.Contains g.CharsTried (runeString ch) = true :=
    fun h => ht ((utils_Contains_iff _ _).1 h)
  simp [guessChar, h1, h2]

theorem guessChar_wrong_old (g : State) (ch : Char)
    (hw : ch ∉ g.WordToGuess.data) (ht : runeString ch ∈ g.CharsTried) :
    guessChar g ch = g := by
  have h1 : ¬ strings.Contains g.WordToGuess (runeString ch) = true :=
    fun h => hw ((strings_Contains_rune _ _).1 h)
  have h2 : utils.Contains g.CharsTried (runeString ch) = true :=
    (utils_Contains_iff _ _).2 ht
  simp [guessChar, h1, h2]

/-- The state of a game on `w` in which only wrong characters were tried. -/
theorem wrong_guesses_state (userID : String) (st : memStore) (gameID : Int) (w : String)
    (hw : w ≠ "")
    (l : List Char) (hn : l.Nodup) (hl : ∀ ch ∈ l, ch ∉ w.data) (h7 : l.length ≤ 7) :
    guessSequence (freshSession userID st gameID w) (l.map runeString) =
      { UserID := userID
        GameState := some
          { GameID := gameID, WordToGuess := w, CharsGuessed := [],
            CharsTried := l.map runeString,
            Status := if l.length < 7 then InProgress else GameOver }
        Store := st } := by
  induction l using List.reverseRecOn with
  | nil => simp [guessSequence, freshSession]
  | append_singleton l a ih =>
    have hn1 : l.Nodup := (List.nodup_append.1 hn).1
    have ha : a ∉ l := by
      intro h
      exact (List.nodup_append.1 hn).2.2 h (List.mem_singleton_self a)
    have hlen : l.length < 7 := by
      simp only [List.length_append, List.length_singleton] at h7; omega
    have ih1 := ih hn1 (fun ch h => hl ch (List.mem_append_left _ h)) (by omega)
    rw [List.map_append, guessSequence_append, ih1]
    simp only [List.map_cons, List.map_nil, guessSequence_cons]
    have hw1 : a ∉ w.data := hl a (List.mem_append_right _ (List.mem_singleton_self a))
    have ht : runeString a ∉ l.map runeString := by
      intro h
      obtain ⟨b, hb, hab⟩ := List.mem_map.1 h
      exact ha ((runeString_inj.1 hab) ▸ hb)
    rw [guessHandler_accepted _ _ (runeString a) rfl (by simp [hlen])]
    rw [guessLoop_runeString, guessChar_wrong_new _ _ hw1 ht]
    have hpos := utf8ByteSize_pos_of_ne_empty w hw
    simp only [guessSequence, List.foldl_nil, updateGameStatus, MaxWrongChars,
      List.length_append, List.length_map, List.length_singleton, List.length_nil]
    by_cases h6 : l.length + 1 < 7
    · have h6b : ¬ l.length + 1 ≥ 7 := by omega
      have hz : ¬ 0 ≥ w.utf8ByteSize := by omega
      simp [h6, h6b, hz]
    · have h6b : l.length + 1 ≥ 7 := by omega
      simp [h6, h6b]

/-- C5, failing input: on a fresh game on "foo", guessing "o" twice leaves
four entries in `CharsGuessed`, more than the three letters of the word (and
the game is won although "f" was never guessed). -/
theorem repeated_correct_guess_exceeds_word_length :
    (guessSequence (freshSession "alice" NewMemStore 1 "foo") ["o", "o"]).GameState
      = some
          { GameID := 1, WordToGuess := "foo", CharsGuessed := ["o", "o", "o", "o"],
            CharsTried := [], Status := "won" }
    ∧ "foo".data.length < ["o", "o", "o", "o"].length
    ∧ (guessHandler (freshSession "alice" NewMemStore 1 "foo") "oo").1.GameState
      = some
          { GameID := 1, WordToGuess := "foo", CharsGuessed := ["o", "o", "o", "o"],
            CharsTried := [], Status := "won" } := by
  decide

/-- C6: on a fresh game on a non-empty word, after `k` pairwise distinct
single-character guesses that do not occur in the word, submitted one at a
time, `CharsTried` holds these `k` characters and the status is in progress
for every `k < 7` and game over for `k = 7`. -/
theorem game_over_exactly_on_seventh_wrong_guess (userID : String) (st : memStore)
    (gameID : Int) (w : String) (cs : List Char) (k : Nat)
    (hw : w ≠ "") (hn : cs.Nodup) (hc : ∀ ch ∈ cs, ch ∉ w.data)
    (hk : k ≤ cs.length) (h7 : k ≤ 7) :
    ∃ g : State,
      (guessSequence (freshSession userID st gameID w) ((cs.take k).map runeString)).GameState
        = some g
      ∧ g.CharsTried = (cs.take k).map runeString
      ∧ g.CharsTried.length = k
      ∧ g.Status = if k < 7 then "in progress" else "game over" := by
  have hlen : (cs.take k).length = k := by rw [List.length_take]; omega
  have h := wrong_guesses_state userID st gameID w hw (cs.take k)
    (hn.sublist (List.take_sublist k cs))
    (fun ch h => hc ch (List.mem_of_mem_take h)) (by omega)
  rw [h, hlen]
  refine ⟨_, rfl, rfl, ?_, rfl⟩
  rw [List.length_map]; exact hlen

/-- C6, witness: seven distinct wrong characters on "foo"; the seventh guess
ends the game. -/
theorem game_over_exactly_on_seventh_wrong_guess_witness :
    ∃ g : State,
      (guessSequence (freshSession "alice" NewMemStore 1 "foo")
        ["a", "b", "c", "d", "e", "g", "h"]).GameState = some g
      ∧ g.Status = "game over" := by
  obtain ⟨g, h1, _, _, h4⟩ :=
    game_over_exactly_on_seventh_wrong_guess "alice" NewMemStore 1 "foo"
      ['a', 'b', 'c', 'd', 'e', 'g', 'h'] 7 (by decide) (by decide) (by decide)
      (by decide) (by decide)
  exact ⟨g, h1, h4⟩

theorem guessChar_wrong_mem_tried (g : State) (ch : Char) (hw : ch ∉ g.WordToGuess.data) :
    runeString ch ∈ (guessChar g ch).CharsTried := by
  by_cases ht : runeString ch ∈ g.CharsTried
  · rw [guessChar_wrong_old g ch hw ht]; exact ht
  · rw [guessChar_wrong_new g ch hw ht]; simp

theorem guessHandler_tried_char_any_status (c : controller) (g : State) (ch : Char)
    (hg : c.GameState = some g) (hw : ch ∉ g.WordToGuess.data)
    (ht : runeString ch ∈ g.CharsTried) :
    ∃ g1 : State,
      (guessHandler c (runeString ch)).1.GameState = some g1
      ∧ g1.CharsTried = g.CharsTried := by
  by_cases hs : g.Status = InProgress
  · rw [guessHandler_accepted c g _ hg hs, guessLoop_runeString, guessChar_wrong_old g ch hw ht]
    exact ⟨_, rfl, rfl⟩
  · rw [guessHandler_rejected c _ (Or.inr ⟨g, hg, hs⟩)]
    exact ⟨g, hg, rfl⟩

/-- C7: for an in-progress game and a character that is not in the word,
guessing the character when it is already in `CharsTried` leaves `CharsTried`
(and `CharsGuessed`) as they are; hence guessing it twice in a row leaves the
same `CharsTried` as guessing it once. -/
theorem reguessing_wrong_char_keeps_CharsTried (c : controller) (g : State) (ch : Char)
    (hg : c.GameState = some g) (hs : g.Status = InProgress)
    (hw : ch ∉ g.WordToGuess.data) :
    (runeString ch ∈ g.CharsTried →
      ∃ g1 : State,
        (guessHandler c (runeString ch)).1.GameState = some g1
        ∧ g1.CharsTried = g.CharsTried ∧ g1.CharsGuessed = g.CharsGuessed)
    ∧ ∃ g1 g2 : State,
        (guessHandler c (runeString ch)).1.GameState = some g1
        ∧ (guessSequence c [runeString ch, runeString ch]).GameState = some g2
        ∧ g2.CharsTried = g1.CharsTried := by
  constructor
  · intro ht
    rw [guessHandler_accepted c g _ hg hs, guessLoop_runeString, guessChar_wrong_old g ch hw ht]
    exact ⟨_, rfl, rfl, rfl⟩
  · simp only [guessSequence, List.foldl_cons, List.foldl_nil]
    rw [guessHandler_accepted c g _ hg hs, guessLoop_runeString]
    have hm := guessChar_wrong_mem_tried g ch hw
    have hword : (guessChar g ch).WordToGuess = g.WordToGuess := (guessChar_spec g ch).2.1
    obtain ⟨g2, h2, h3⟩ :=
      guessHandler_tried_char_any_status
        { c with
          GameState :=
            some ({ (guessChar g ch) with Status := updateGameStatus (guessChar g ch) }) }
        _ ch rfl (by simpa [hword] using hw) (by simpa using hm)
    exact ⟨_, g2, rfl, h2, h3⟩

/-- C7, witness: new game on "foo", try "z", try "z" again: `CharsTried` is
`["z"]`. -/
theorem reguessing_wrong_char_keeps_CharsTried_witness :
    ∃ g1 : State,
      (guessSequence (freshSession "alice" NewMemStore 1 "foo") ["z", "z"]).GameState = some g1
      ∧ g1.CharsTried = ["z"] := by
  obtain ⟨g1, h1, h2, _⟩ :=
    (reguessing_wrong_char_keeps_CharsTried
      (guessHandler (freshSession "alice" NewMemStore 1 "foo") "z").1
      { GameID := 1, WordToGuess := "foo", CharsGuessed := [], CharsTried := ["z"],
        Status := InProgress } 'z' (by decide) rfl (by decide)).1 (by decide)
  exact ⟨g1, h1, h2⟩

/-! ## Winning a game -/

theorem guessedEntries_append (word l1 l2 : List Char) :
    guessedEntries word (l1 ++ l2) = guessedEntries word l1 ++ guessedEntries word l2 := by
  induction l1 with
  | nil => simp [guessedEntries]
  | cons a l ih => simp [guessedEntries, ih]

theorem length_filter_mem_cons (word : List Char) (a : Char) (l : List Char) (ha : a ∉ l) :
    (word.filter (fun ch => decide (ch ∈ a :: l))).length
      = word.count a + (word.filter (fun ch => decide (ch ∈ l))).length := by
  induction word with
  | nil => simp
  | cons b bs ih =>
    by_cases hb : b = a
    · subst hb
      simp [List.filter_cons, ha] at ih ⊢
      omega
    · have hb2 : ¬ a = b := fun e => hb e.symm
      by_cases hl : b ∈ l
      · simp [List.filter_cons, hb, hl, List.count_cons] at ih ⊢
        omega
      · simp [List.filter_cons, hb, hl, List.count_cons] at ih ⊢
        omega

theorem length_guessedEntries (word l : List Char) (hn : l.Nodup) :
    (guessedEntries word l).length = (word.filter (fun ch => decide (ch ∈ l))).length := by
  induction l with
  | nil => simp [guessedEntries]
  | cons a l ih =>
    have ha : a ∉ l := (List.nodup_cons.1 hn).1
    rw [length_filter_mem_cons word a l ha, ← ih (List.nodup_cons.1 hn).2]
    simp [guessedEntries]

theorem mem_guessedEntries (word l : List Char) (ch : Char) :
    runeString ch ∈ guessedEntries word l ↔ ch ∈ l ∧ ch ∈ word := by
  induction l with
  | nil => simp [guessedEntries]
  | cons a l ih =>
    simp only [guessedEntries, List.mem_append, List.mem_replicate, ih, List.mem_cons,
      runeString_inj]
    constructor
    · rintro (⟨h1, h2⟩ | ⟨h1, h2⟩)
      · subst h2
        exact ⟨Or.inl rfl, List.count_pos_iff.1 (Nat.pos_of_ne_zero h1)⟩
      · exact ⟨Or.inr h1, h2⟩
    · rintro ⟨h1 | h1, h2⟩
      · subst h1
        exact Or.inl ⟨Nat.ne_of_gt (List.count_pos_iff.2 h2), rfl⟩
      · exact Or.inr ⟨h1, h2⟩

theorem foldl_guessChar_guessed (cs : List Char) (g : State) (l : List Char)
    (hl : g.CharsGuessed = guessedEntries g.WordToGuess.data l) :
    (cs.foldl guessChar g).CharsGuessed
      = guessedEntries g.WordToGuess.data
          (l ++ cs.filter (fun ch => decide (ch ∈ g.WordToGuess.data))) := by
  induction cs generalizing g l with
  | nil => simpa using hl
  | cons a cs ih =>
    obtain ⟨h1, h2, _, _⟩ := guessChar_spec g a
    have h1a := congrArg Prod.fst h1
    simp only [List.foldl_cons]
    by_cases ha : a ∈ g.WordToGuess.data
    · have hstep : (guessChar g a).CharsGuessed
          = guessedEntries (guessChar g a).WordToGuess.data (l ++ [a]) := by
        rw [h2, guessedEntries_append, ← hl]
        simpa [applyGuessCharSpec, ha, guessedEntries] using h1a
      rw [ih (guessChar g a) (l ++ [a]) hstep, h2]
      simp [List.filter_cons, ha]
    · have hstep : (guessChar g a).CharsGuessed
          = guessedEntries (guessChar g a).WordToGuess.data l := by
        rw [h2, ← hl]
        refine h1a.trans ?_
        unfold applyGuessCharSpec
        rw [if_neg ha]
        split <;> rfl
      rw [ih (guessChar g a) l hstep, h2]
      simp [List.filter_cons, ha]

theorem guessSequence_not_in_progress (c : controller) (g : State) (guesses : List String)
    (hg : c.GameState = some g) (hs : g.Status ≠ InProgress) :
    guessSequence c guesses = c := by
  induction guesses with
  | nil => rfl
  | cons x rest ih =>
    rw [guessSequence_cons, guessHandler_rejected c x (Or.inr ⟨g, hg, hs⟩)]
    exact ih

theorem guessSequence_invariant (guesses : List String) (c : controller) (g : State)
    (l : List Char) (hg : c.GameState = some g)
    (hl : g.CharsGuessed = guessedEntries g.WordToGuess.data l)
    (hst : g.Status = updateGameStatus g) :
    ∃ (g1 : State) (l1 : List Char),
      (guessSequence c guesses).GameState = some g1
      ∧ g1.WordToGuess = g.WordToGuess
      ∧ g1.CharsGuessed = guessedEntries g.WordToGuess.data l1
      ∧ l1 <+: l ++ (guessChars guesses).filter (fun ch => decide (ch ∈ g.WordToGuess.data))
      ∧ g1.Status = updateGameStatus g1 := by
  induction guesses generalizing c g l with
  | nil => exact ⟨g, l, hg, rfl, hl, by simp [guessChars], hst⟩
  | cons x rest ih =>
    by_cases hs : g.Status = InProgress
    · rw [guessSequence_cons, guessHandler_accepted c g x hg hs]
      obtain ⟨_, k2, _, _⟩ := guessLoop_spec g x
      have hl2 := foldl_guessChar_guessed x.data g l hl
      obtain ⟨g1, l1, e1, e2, e3, e4, e5⟩ :=
        ih
          { c with
            GameState := some ({ (guessLoop g x) with Status := updateGameStatus (guessLoop g x) }) }
          ({ (guessLoop g x) with Status := updateGameStatus (guessLoop g x) })
          (l ++ x.data.filter (fun ch => decide (ch ∈ g.WordToGuess.data)))
          rfl (by simpa [k2] using hl2) rfl
      refine ⟨g1, l1, e1, ?_, ?_, ?_, e5⟩
      · simpa [k2] using e2
      · simpa [k2] using e3
      · simpa [k2, guessChars, List.filter_append, List.append_assoc] using e4
    · rw [guessSequence_not_in_progress c g _ hg hs]
      exact ⟨g, l, hg, rfl, hl, List.prefix_append _ _, hst⟩

/-- C4, counterexample: on a fresh game on "foo" the single guess "abcdeghfo"
puts every letter of the word into `CharsGuessed` and seven wrong characters
into `CharsTried`; the status is game over, not won. -/
theorem all_letters_guessed_with_seven_wrong_is_game_over :
    (guessSequence (freshSession "alice" NewMemStore 1 "foo") ["abcdeghfo"]).GameState
      = some
          { GameID := 1, WordToGuess := "foo", CharsGuessed := ["f", "o", "o"],
            CharsTried := ["a", "b", "c", "d", "e", "g", "h"], Status := "game over" }
    ∧ (∀ ch ∈ "foo".data, runeString ch ∈ ["f", "o", "o"])
    ∧ GameOver ≠ Won := by
  decide

/-- C4, amended: for every non-empty word `w` whose length `len(w)` is its
number of letters (as for the ASCII words of the vocabulary) and every
sequence of guesses applied to a fresh game on `w` in which no letter of `w`
is guessed more than once, the status is won if and only if every letter of
`w` occurs in `CharsGuessed` and `CharsTried` holds fewer than 7 characters. -/
theorem won_iff_all_letters_guessed (userID : String) (st : memStore) (gameID : Int)
    (w : String) (guesses : List String)
    (hw : w ≠ "") (hlen : w.utf8ByteSize = w.data.length)
    (hn : ((guessChars guesses).filter (fun ch => decide (ch ∈ w.data))).Nodup) :
    ∃ g : State,
      (guessSequence (freshSession userID st gameID w) guesses).GameState = some g
      ∧ (g.Status = "won" ↔
          (∀ ch ∈ w.data, runeString ch ∈ g.CharsGuessed) ∧ g.CharsTried.length < 7) := by
  have hpos := utf8ByteSize_pos_of_ne_empty w hw
  have hfresh :
      InProgress
        = updateGameStatus
            { GameID := gameID, WordToGuess := w, CharsGuessed := [], CharsTried := [],
              Status := InProgress } := by
    have hz : ¬ 0 ≥ w.utf8ByteSize := by omega
    simp [updateGameStatus, MaxWrongChars, hz]
  obtain ⟨g, l, e1, e2, e3, e4, e5⟩ :=
    guessSequence_invariant guesses (freshSession userID st gameID w)
      { GameID := gameID, WordToGuess := w, CharsGuessed := [], CharsTried := [],
        Status := InProgress } [] rfl rfl hfresh
  have e2 : g.WordToGuess = w := e2
  have e3 : g.CharsGuessed = guessedEntries w.data l := e3
  have hl : l.Nodup := List.Nodup.sublist (by simpa using e4.sublist) hn
  refine ⟨g, e1, ?_⟩
  have hwon := (updateGameStatus_cases g).2.1
  rw [← e5] at hwon
  have hcount : g.CharsGuessed.length = (w.data.filter (fun ch => decide (ch ∈ l))).length := by
    rw [e3, length_guessedEntries w.data l hl]
  have hmem : ∀ ch ∈ w.data, (runeString ch ∈ g.CharsGuessed ↔ ch ∈ l) := by
    intro ch hch
    rw [e3, mem_guessedEntries]
    exact ⟨fun h => h.1, fun h => ⟨h, hch⟩⟩
  have hall : w.utf8ByteSize ≤ g.CharsGuessed.length ↔ ∀ ch ∈ w.data, ch ∈ l := by
    rw [hcount, hlen]
    constructor
    · intro h ch hch
      by_contra hnot
      have hlt : (w.data.filter (fun ch => decide (ch ∈ l))).length < w.data.length :=
        List.length_filter_lt_length_iff_exists.2 ⟨ch, hch, by simpa using hnot⟩
      omega
    · intro h
      have : w.data.filter (fun ch => decide (ch ∈ l)) = w.data :=
        List.filter_eq_self.2 (fun ch hch => by simpa using h ch hch)
      rw [this]
  show g.Status = Won ↔ _
  rw [hwon, e2, hall]
  constructor
  · rintro ⟨h1, h2⟩
    exact ⟨fun ch hch => (hmem ch hch).2 (h2 ch hch), h1⟩
  · rintro ⟨h1, h2⟩
    exact ⟨h2, fun ch hch => (hmem ch hch).1 (h1 ch hch)⟩

/-- C4, witness: on "foo" the guesses "o" then "f" win the game. -/
theorem won_iff_all_letters_guessed_witness :
    ∃ g : State,
      (guessSequence (freshSession "alice" NewMemStore 1 "foo") ["o", "f"]).GameState = some g
      ∧ (g.Status = "won" ↔
          (∀ ch ∈ "foo".data, runeString ch ∈ g.CharsGuessed) ∧ g.CharsTried.length < 7) :=
  won_iff_all_letters_guessed "alice" NewMemStore 1 "foo" ["o", "f"] (by decide) (by decide) (by decide)

/-! ## The wire representation of a game -/

theorem maskStep_eq (charsGuessed : List String) (p : String) (c : Char) :
    maskStep charsGuessed p c
      = p ++ (if runeString c ∈ charsGuessed then runeString c ++ " " else "_ ") := by
  unfold maskStep
  by_cases h : runeString c ∈ charsGuessed
  · rw [if_pos ((utils_Contains_iff _ _).2 h), if_pos h]
  · rw [if_neg (fun h2 => h ((utils_Contains_iff _ _).1 h2)), if_neg h]

theorem foldl_maskStep (charsGuessed : List String) (l : List Char) (p : String) :
    l.foldl (maskStep charsGuessed) p
      = p ++ List.foldr (fun piece rest => piece ++ rest) ""
          (l.map (fun c => if runeString c ∈ charsGuessed then runeString c ++ " " else "_ ")) := by
  induction l generalizing p with
  | nil => simp
  | cons a l ih =>
    simp only [List.foldl_cons, List.map_cons, List.foldr_cons]
    rw [ih, maskStep_eq, String.append_assoc]

theorem masked_chars (charsGuessed : List String) (l : List Char) :
    ∀ c ∈ (List.foldr (fun piece rest => piece ++ rest) ""
        (l.map (fun c => if runeString c ∈ charsGuessed then runeString c ++ " "
          else "_ "))).data,
      c = ' ' ∨ c = '_' ∨ (c ∈ l ∧ runeString c ∈ charsGuessed) := by
  induction l with
  | nil => simp
  | cons a l ih =>
    intro c hc
    simp only [List.map_cons, List.foldr_cons, String.data_append, List.mem_append] at hc
    rcases hc with hc | hc
    · by_cases h : runeString a ∈ charsGuessed
      · rw [if_pos h] at hc
        have hc2 : c = a ∨ c = ' ' := by simpa [runeString] using hc
        rcases hc2 with hc2 | hc2
        · subst hc2
          exact Or.inr (Or.inr ⟨List.mem_cons_self _ _, h⟩)
        · exact Or.inl hc2
      · rw [if_neg h] at hc
        have hc2 : c = '_' ∨ c = ' ' := by simpa using hc
        rcases hc2 with hc2 | hc2
        · exact Or.inr (Or.inl hc2)
        · exact Or.inl hc2
    · rcases ih c hc with h | h | ⟨h1, h2⟩
      · exact Or.inl h
      · exact Or.inr (Or.inl h)
      · exact Or.inr (Or.inr ⟨List.mem_cons_of_mem _ h1, h2⟩)

/-- C8: the `word` field produced by `State.MarshalJSON` is the concatenation,
over the characters of `WordToGuess` in order, of the character followed by
one space when the character is in `CharsGuessed` and of "_ " otherwise; `id`,
`tried` and `status` are passed through, and the struct has no field for
`CharsGuessed`.  Every character of the `word` field is a space, the
placeholder, or a character of the word that is in `CharsGuessed`. -/
theorem MarshalJSON_masks_word (g : State) :
    g.MarshalJSON.WordToGuess
        = List.foldr (fun piece rest => piece ++ rest) ""
            (g.WordToGuess.data.map
              (fun c => if runeString c ∈ g.CharsGuessed then runeString c ++ " " else "_ "))
    ∧ g.MarshalJSON.GameID = g.GameID
    ∧ g.MarshalJSON.CharsTried = g.CharsTried
    ∧ g.MarshalJSON.Status = g.Status
    ∧ ∀ c ∈ g.MarshalJSON.WordToGuess.data,
        c = ' ' ∨ c = '_' ∨ (c ∈ g.WordToGuess.data ∧ runeString c ∈ g.CharsGuessed) := by
  have h : g.MarshalJSON.WordToGuess
        = List.foldr (fun piece rest => piece ++ rest) ""
            (g.WordToGuess.data.map
              (fun c => if runeString c ∈ g.CharsGuessed then runeString c ++ " " else "_ ")) := by
    show g.WordToGuess.data.foldl (maskStep g.CharsGuessed) "" = _
    rw [foldl_maskStep]
    exact String.empty_append _
  refine ⟨h, rfl, rfl, rfl, ?_⟩
  rw [h]
  exact masked_chars g.CharsGuessed g.WordToGuess.data

/-- C8, example: the word "foo" with nothing guessed is sent as "_ _ _ ", and
with "o" guessed as "_ o o ". -/
theorem MarshalJSON_masks_word_witness :
    (State.MarshalJSON
        { GameID := 1, WordToGuess := "foo", CharsGuessed := [], CharsTried := [],
          Status := InProgress }).WordToGuess = "_ _ _ "
    ∧ (State.MarshalJSON
        { GameID := 1, WordToGuess := "foo", CharsGuessed := ["o", "o"], CharsTried := [],
          Status := InProgress }).WordToGuess = "_ o o " :=
  ⟨(MarshalJSON_masks_word _).1.trans (by decide),
    (MarshalJSON_masks_word _).1.trans (by decide)⟩

/-! ## The store -/

theorem lenGames_eq_length_gameIDs (s : memStore) (userID : String) :
    lenGames s userID = (s.gameIDs userID).length := by
  unfold lenGames memStore.gameIDs
  cases s.games.lookup userID with
  | none => rfl
  | some games => simp [AList.keys, List.keys]

theorem SaveGame_eq (s : memStore) (userID : String) (g : State) :
    s.SaveGame userID g =
      ({ games := s.games.insert userID
          (((s.games.lookup userID).getD ∅).insert
            (if g.GameID = 0 then (lenGames s userID : Int) + 1 else g.GameID)
            (if g.GameID = 0 then { g with GameID := (lenGames s userID : Int) + 1 } else g)) },
        Except.ok (if g.GameID = 0 then { g with GameID := (lenGames s userID : Int) + 1 } else g)) := by
  unfold memStore.SaveGame
  by_cases h0 : g.GameID = 0
  · cases hl : s.games.lookup userID <;> simp [h0]
  · cases hl : s.games.lookup userID <;> simp [h0]

theorem gameAt_SaveGame (s : memStore) (userID : String) (g : State) (gameID : Int) :
    (s.SaveGame userID g).1.gameAt userID gameID =
      if gameID = (if g.GameID = 0 then (lenGames s userID : Int) + 1 else g.GameID) then
        some (if g.GameID = 0 then { g with GameID := (lenGames s userID : Int) + 1 } else g)
      else s.gameAt userID gameID := by
  rw [SaveGame_eq]
  simp only [memStore.gameAt, AList.lookup_insert]
  generalize (if g.GameID = 0 then (lenGames s userID : Int) + 1 else g.GameID) = k
  generalize (if g.GameID = 0 then
    ({ g with GameID := (lenGames s userID : Int) + 1 } : State) else g) = g1
  by_cases h : gameID = k
  · rw [if_pos h, h, AList.lookup_insert]
  · rw [if_neg h, AList.lookup_insert_ne h]
    cases s.games.lookup userID with
    | none => simp
    | some games => simp

theorem gameIDs_SaveGame (s : memStore) (userID : String) (g : State) :
    (s.SaveGame userID g).1.gameIDs userID =
      (if g.GameID = 0 then (lenGames s userID : Int) + 1 else g.GameID)
        :: (s.gameIDs userID).erase
            (if g.GameID = 0 then (lenGames s userID : Int) + 1 else g.GameID) := by
  rw [SaveGame_eq]
  simp only [memStore.gameIDs, AList.lookup_insert, AList.keys_insert]
  cases s.games.lookup userID with
  | none => simp
  | some games => simp

theorem gameIDs_nodup (s : memStore) (userID : String) : (s.gameIDs userID).Nodup := by
  unfold memStore.gameIDs
  cases s.games.lookup userID with
  | none => exact List.nodup_nil
  | some games => exact games.keys_nodup

theorem lookup_SaveGame_other (s : memStore) (userID other : String) (g : State)
    (h : other ≠ userID) :
    (s.SaveGame userID g).1.games.lookup other = s.games.lookup other := by
  rw [SaveGame_eq]
  exact AList.lookup_insert_ne h

/-- C9: for a game with `GameID == 0`, `SaveGame` returns no error; the game
it returns is `g` with `GameID` set to the number of games stored for the
user plus one, and this game is stored under that ID for the user.  For a
user without a collection the ID is 1 and the collection is created. -/
theorem SaveGame_new_game_gets_count_plus_one (s : memStore) (userID : String) (g : State)
    (h0 : g.GameID = 0) :
    (s.SaveGame userID g).2
        = Except.ok { g with GameID := ((s.gameIDs userID).length : Int) + 1 }
    ∧ (s.SaveGame userID g).1.gameAt userID (((s.gameIDs userID).length : Int) + 1)
        = some { g with GameID := ((s.gameIDs userID).length : Int) + 1 }
    ∧ (s.games.lookup userID = none →
        (s.SaveGame userID g).2 = Except.ok { g with GameID := 1 }
        ∧ (s.SaveGame userID g).1.gameAt userID 1 = some { g with GameID := 1 }
        ∧ (s.SaveGame userID g).1.gameIDs userID = [1]) := by
  have hlen := lenGames_eq_length_gameIDs s userID
  refine ⟨?_, ?_, ?_⟩
  · rw [SaveGame_eq]; simp only [if_pos h0, hlen]
  · rw [gameAt_SaveGame]; simp only [if_pos h0, hlen, if_true]
  · intro hnone
    have hids : s.gameIDs userID = [] := by simp [memStore.gameIDs, hnone]
    have hz : lenGames s userID = 0 := by rw [hlen, hids]; rfl
    refine ⟨?_, ?_, ?_⟩
    · rw [SaveGame_eq]; simp only [if_pos h0, hz]; simp
    · rw [gameAt_SaveGame]; simp only [if_pos h0, hz]; simp
    · rw [gameIDs_SaveGame]; simp only [if_pos h0, hz, hids]; simp

/-- C9, witness: the first game saved for "user-id" in an empty store gets ID 1
(the first step of `TestSaveGame`). -/
theorem SaveGame_new_game_gets_count_plus_one_witness :
    (NewMemStore.SaveGame "user-id"
        { GameID := 0, WordToGuess := "test-word", CharsGuessed := [], CharsTried := [],
          Status := "" }).2
      = Except.ok
          { GameID := 1, WordToGuess := "test-word", CharsGuessed := [], CharsTried := [],
            Status := "" } :=
  ((SaveGame_new_game_gets_count_plus_one NewMemStore "user-id"
      { GameID := 0, WordToGuess := "test-word", CharsGuessed := [], CharsTried := [],
        Status := "" } rfl).2.2 rfl).1

/-- C10, counterexample: "alice" holds one game, saved under the explicit ID 2.
Saving a new game (`GameID == 0`) returns ID 2, which is present in the
collection: the stored game is overwritten and the collection keeps its size;
a second new game gets ID 2 again. -/
theorem new_game_overwrites_explicit_id :
    storeWithExplicitID.gameIDs "alice" = [2]
    ∧ (storeWithExplicitID.gameAt "alice" 2).map (fun g => g.WordToGuess) = some "batman"
    ∧ returnedID (storeWithExplicitID.SaveGame "alice" unsavedGame).2 = [2]
    ∧ ((storeWithExplicitID.SaveGame "alice" unsavedGame).1.gameAt "alice" 2).map
        (fun g => g.WordToGuess) = some "jocker"
    ∧ (storeWithExplicitID.SaveGame "alice" unsavedGame).1.gameIDs "alice" = [2]
    ∧ (saveAll NewMemStore "alice" [explicitGame, unsavedGame, unsavedGame]).2 = [2, 2] := by
  decide

/-- The IDs of a collection are exactly 1, ..., n, for n its size. -/
theorem numbered_SaveGame (s : memStore) (userID : String) (g : State)
    (hinv : ∀ gameID : Int, gameID ∈ s.gameIDs userID ↔
      1 ≤ gameID ∧ gameID ≤ ((s.gameIDs userID).length : Int))
    (hg : g.GameID = 0 ∨ g.GameID ∈ s.gameIDs userID) :
    (∀ gameID : Int, gameID ∈ (s.SaveGame userID g).1.gameIDs userID ↔
      1 ≤ gameID ∧ gameID ≤ (((s.SaveGame userID g).1.gameIDs userID).length : Int))
    ∧ ((s.SaveGame userID g).1.gameIDs userID).length
        = (s.gameIDs userID).length + (if g.GameID = 0 then 1 else 0) := by
  have hlen := lenGames_eq_length_gameIDs s userID
  rw [gameIDs_SaveGame]
  by_cases h0 : g.GameID = 0
  · simp only [if_pos h0, hlen]
    have hnot : (((s.gameIDs userID).length : Int) + 1) ∉ s.gameIDs userID := by
      intro h
      have := (hinv _).1 h
      omega
    rw [List.erase_of_not_mem hnot]
    refine ⟨?_, by simp⟩
    intro gameID
    simp only [List.mem_cons, List.length_cons, hinv gameID]
    push_cast
    omega
  · have hmem : g.GameID ∈ s.gameIDs userID := hg.resolve_left h0
    simp only [if_neg h0]
    have hl : ((s.gameIDs userID).erase g.GameID).length + 1 = (s.gameIDs userID).length := by
      rw [List.length_erase_of_mem hmem]
      have := List.length_pos_of_mem hmem
      omega
    have hlen2 : (g.GameID :: (s.gameIDs userID).erase g.GameID).length
        = (s.gameIDs userID).length := by
      rw [List.length_cons, hl]
    refine ⟨?_, by rw [hlen2]; simp⟩
    intro gameID
    rw [hlen2, ← hinv gameID]
    constructor
    · intro h
      rcases List.mem_cons.1 h with h | h
      · rw [h]; exact hmem
      · exact List.mem_of_mem_erase h
    · intro h
      by_cases e : gameID = g.GameID
      · rw [e]; exact List.mem_cons_self _ _
      · exact List.mem_cons_of_mem _ ((List.mem_erase_of_ne e).2 h)

theorem explicitIDsStored_cons (s : memStore) (userID : String) (g : State)
    (rest : List State) :
    explicitIDsStored s userID (g :: rest) = true ↔
      (g.GameID = 0 ∨ g.GameID ∈ s.gameIDs userID)
      ∧ explicitIDsStored (s.SaveGame userID g).1 userID rest = true := by
  simp [explicitIDsStored]

theorem returnedID_SaveGame_new (s : memStore) (userID : String) (g : State)
    (h0 : g.GameID = 0) :
    returnedID (s.SaveGame userID g).2 = [((s.gameIDs userID).length : Int) + 1] := by
  rw [SaveGame_eq]
  simp only [if_pos h0, lenGames_eq_length_gameIDs, returnedID]

theorem saveAll_ids (userID : String) (games : List State) (s : memStore)
    (hinv : ∀ gameID : Int, gameID ∈ s.gameIDs userID ↔
      1 ≤ gameID ∧ gameID ≤ ((s.gameIDs userID).length : Int))
    (hex : explicitIDsStored s userID games = true) :
    (saveAll s userID games).2
      = (List.range (games.countP (fun g => decide (g.GameID = 0)))).map
          (fun i : Nat => ((s.gameIDs userID).length : Int) + 1 + (i : Int)) := by
  induction games generalizing s with
  | nil => simp [saveAll]
  | cons g rest ih =>
    obtain ⟨h1, h2⟩ := (explicitIDsStored_cons s userID g rest).1 hex
    obtain ⟨k1, k2⟩ := numbered_SaveGame s userID g hinv h1
    have ih1 := ih (s.SaveGame userID g).1 k1 h2
    simp only [saveAll]
    rw [ih1, k2]
    by_cases h0 : g.GameID = 0
    · rw [if_pos h0, if_pos h0, returnedID_SaveGame_new s userID g h0,
        List.countP_cons_of_pos _ _ (by simpa using h0), List.range_succ_eq_map]
      simp only [List.map_cons, List.map_map, List.singleton_append, Nat.cast_zero, add_zero]
      congr 1
      apply List.map_congr_left
      intro i _
      simp only [Function.comp]
      push_cast
      omega
    · rw [if_neg h0, if_neg h0, List.countP_cons_of_neg _ _ (by simpa using h0)]
      simp

theorem saveAll_prefix (userID : String) (pre rest : List State) (s : memStore)
    (hinv : ∀ gameID : Int, gameID ∈ s.gameIDs userID ↔
      1 ≤ gameID ∧ gameID ≤ ((s.gameIDs userID).length : Int))
    (hex : explicitIDsStored s userID (pre ++ rest) = true) :
    (∀ gameID : Int, gameID ∈ (saveAll s userID pre).1.gameIDs userID ↔
      1 ≤ gameID ∧ gameID ≤ (((saveAll s userID pre).1.gameIDs userID).length : Int))
    ∧ explicitIDsStored (saveAll s userID pre).1 userID rest = true := by
  induction pre generalizing s with
  | nil => exact ⟨hinv, hex⟩
  | cons g pre ih =>
    obtain ⟨h1, h2⟩ := (explicitIDsStored_cons s userID g (pre ++ rest)).1 hex
    obtain ⟨k1, _⟩ := numbered_SaveGame s userID g hinv h1
    exact ih (s.SaveGame userID g).1 k1 h2

/-- C10, amended: for every user whose collection is missing or empty and every
series of `SaveGame` calls for that user in which each game carrying an
explicit non-zero ID carries an ID that the collection holds at the time of
the call, the IDs returned for the games saved with `GameID == 0` are
1, 2, 3, ... in this order; each such save returns an ID that is not yet in
the collection, makes the collection grow by exactly one and leaves every
game stored before as it was. -/
theorem new_game_ids_increase_from_one (s : memStore) (userID : String) (games : List State)
    (hempty : s.gameIDs userID = [])
    (hex : explicitIDsStored s userID games = true) :
    (saveAll s userID games).2
      = (List.range (games.countP (fun g => decide (g.GameID = 0)))).map
          (fun i : Nat => (i : Int) + 1)
    ∧ ∀ (pre post : List State) (g : State), games = pre ++ g :: post → g.GameID = 0 →
        ∃ saved : State,
          ((saveAll s userID pre).1.SaveGame userID g).2 = Except.ok saved
          ∧ saved = { g with GameID := saved.GameID }
          ∧ saved.GameID ∉ (saveAll s userID pre).1.gameIDs userID
          ∧ (((saveAll s userID pre).1.SaveGame userID g).1.gameIDs userID).length
              = ((saveAll s userID pre).1.gameIDs userID).length + 1
          ∧ ∀ gameID ∈ (saveAll s userID pre).1.gameIDs userID,
              ((saveAll s userID pre).1.SaveGame userID g).1.gameAt userID gameID
                = (saveAll s userID pre).1.gameAt userID gameID := by
  have hinv : ∀ gameID : Int, gameID ∈ s.gameIDs userID ↔
      1 ≤ gameID ∧ gameID ≤ ((s.gameIDs userID).length : Int) := by
    intro gameID
    rw [hempty]
    simp only [List.not_mem_nil, List.length_nil, Nat.cast_zero, false_iff]
    omega
  constructor
  · rw [saveAll_ids userID games s hinv hex, hempty]
    apply List.map_congr_left
    intro i _
    simp only [List.length_nil, Nat.cast_zero]
    omega
  · intro pre post g hsplit h0
    rw [hsplit] at hex
    obtain ⟨k1, _⟩ := saveAll_prefix userID pre (g :: post) s hinv hex
    obtain ⟨_, m2⟩ := numbered_SaveGame (saveAll s userID pre).1 userID g k1 (Or.inl h0)
    have hnot : (((((saveAll s userID pre).1).gameIDs userID).length : Int) + 1)
        ∉ (saveAll s userID pre).1.gameIDs userID := by
      intro h
      have := (k1 _).1 h
      omega
    refine ⟨{ g with GameID := ((((saveAll s userID pre).1).gameIDs userID).length : Int) + 1 },
      ?_, rfl, hnot, ?_, ?_⟩
    · rw [SaveGame_eq]
      simp only [if_pos h0, lenGames_eq_length_gameIDs]
    · rw [m2, if_pos h0]
    · intro gameID hmem
      rw [gameAt_SaveGame]
      simp only [if_pos h0, lenGames_eq_length_gameIDs]
      rw [if_neg]
      intro e
      exact hnot (e ▸ hmem)

/-- C10, witness: the three saves of `TestSaveGame` (two new games, then an
update of game 1) return the IDs 1 and 2 for the new games. -/
theorem new_game_ids_increase_from_one_witness :
    (saveAll NewMemStore "user-id"
      [{ GameID := 0, WordToGuess := "test-word", CharsGuessed := [], CharsTried := [],
         Status := "" },
       { GameID := 0, WordToGuess := "another-test-word", CharsGuessed := [], CharsTried := [],
         Status := "" },
       { GameID := 1, WordToGuess := "test-word", CharsGuessed := ["a"], CharsTried := [],
         Status := "" }]).2 = [1, 2] :=
  (new_game_ids_increase_from_one NewMemStore "user-id" _ (by decide) (by decide)).1.trans
    (by decide)

/-! ## The store: updates and queries -/

/-- C11: for a game whose non-zero `GameID` is present in the collection of the
user, `SaveGame` returns the game with no error, stores it under that ID,
keeps the IDs of the collection (hence its size), and leaves every other game
of the user and the collection of every other user as they were. -/
theorem SaveGame_existing_id_overwrites_in_place (s : memStore) (userID : String) (g : State)
    (h0 : g.GameID ≠ 0) (hmem : g.GameID ∈ s.gameIDs userID) :
    (s.SaveGame userID g).2 = Except.ok g
    ∧ (s.SaveGame userID g).1.gameAt userID g.GameID = some g
    ∧ ((s.SaveGame userID g).1.gameIDs userID).length = (s.gameIDs userID).length
    ∧ (∀ gameID : Int, gameID ∈ (s.SaveGame userID g).1.gameIDs userID ↔
        gameID ∈ s.gameIDs userID)
    ∧ (∀ gameID : Int, gameID ≠ g.GameID →
        (s.SaveGame userID g).1.gameAt userID gameID = s.gameAt userID gameID)
    ∧ (∀ other : String, other ≠ userID →
        (s.SaveGame userID g).1.games.lookup other = s.games.lookup other) := by
  refine ⟨?_, ?_, ?_, ?_, ?_, ?_⟩
  · rw [SaveGame_eq]; simp only [if_neg h0]
  · rw [gameAt_SaveGame]; simp only [if_neg h0, if_true]
  · rw [gameIDs_SaveGame]; simp only [if_neg h0]
    rw [List.length_cons, List.length_erase_of_mem hmem]
    have := List.length_pos_of_mem hmem
    omega
  · intro gameID
    rw [gameIDs_SaveGame]; simp only [if_neg h0]
    constructor
    · intro h
      rcases List.mem_cons.1 h with h | h
      · rw [h]; exact hmem
      · exact List.mem_of_mem_erase h
    · intro h
      by_cases e : gameID = g.GameID
      · rw [e]; exact List.mem_cons_self _ _
      · exact List.mem_cons_of_mem _ ((List.mem_erase_of_ne e).2 h)
  · intro gameID hne
    rw [gameAt_SaveGame]; simp only [if_neg h0, if_neg hne]
  · intro other hne
    exact lookup_SaveGame_other s userID other g hne

/-- C11, witness: the upsert of `TestSaveGame`: game 1 is replaced by
`toUpdate` and "user-id" still holds two games. -/
theorem SaveGame_existing_id_overwrites_in_place_witness :
    (storeTwoGames.SaveGame "user-id" toUpdate).1.gameAt "user-id" 1 = some toUpdate
    ∧ ((storeTwoGames.SaveGame "user-id" toUpdate).1.gameIDs "user-id").length = 2 :=
  ⟨(SaveGame_existing_id_overwrites_in_place storeTwoGames "user-id" toUpdate
      (by decide) (by decide)).2.1,
    (SaveGame_existing_id_overwrites_in_place storeTwoGames "user-id" toUpdate
      (by decide) (by decide)).2.2.1.trans (by decide)⟩

theorem findGame_eq_dlookup (gameID : Int) (l : List (Sigma (fun _ : Int => State))) :
    findGame gameID l = l.dlookup gameID := by
  induction l with
  | nil => rfl
  | cons e rest ih =>
    obtain ⟨k, v⟩ := e
    by_cases h : k = gameID
    · subst h
      simp [findGame, List.dlookup_cons_eq]
    · have h2 : gameID ≠ k := fun e => h e.symm
      simp only [findGame, if_neg h, ih]
      exact (List.dlookup_cons_ne rest ⟨k, v⟩ h2).symm

theorem GetGameByID_eq (s : memStore) (userID : String) (gameID : Int) :
    s.GetGameByID userID gameID =
      match s.games.lookup userID with
      | none => Except.error StoreError.ErrorUserNotFound
      | some games =>
        match games.lookup gameID with
        | some g => Except.ok g
        | none => Except.error StoreError.ErrorGameNotFound := by
  unfold memStore.GetGameByID
  cases s.games.lookup userID with
  | none => rfl
  | some games =>
    simp only [findGame_eq_dlookup]
    rfl

theorem GetGameByID_of_gameAt (s : memStore) (userID : String) (gameID : Int) (g : State)
    (h : s.gameAt userID gameID = some g) :
    s.GetGameByID userID gameID = Except.ok g := by
  rw [GetGameByID_eq]
  unfold memStore.gameAt at h
  cases hl : s.games.lookup userID with
  | none => rw [hl] at h; cases h
  | some games =>
    rw [hl] at h
    dsimp only at h ⊢
    rw [h]

/-- C12: `GetGameByID` fails with `ErrorUserNotFound` exactly when the user
has no collection, fails with `ErrorGameNotFound` exactly when the user has
a collection that does not contain the ID, and returns a game exactly when
that game is stored under the ID; the game returned by `SaveGame` is
returned by `GetGameByID` on its ID right afterwards. -/
theorem GetGameByID_errors_and_result (s : memStore) (userID : String) (gameID : Int) :
    (s.GetGameByID userID gameID = Except.error StoreError.ErrorUserNotFound ↔
      s.games.lookup userID = none)
    ∧ (s.GetGameByID userID gameID = Except.error StoreError.ErrorGameNotFound ↔
        (s.games.lookup userID).isSome = true ∧ gameID ∉ s.gameIDs userID)
    ∧ (∀ g : State, s.GetGameByID userID gameID = Except.ok g ↔
        s.gameAt userID gameID = some g)
    ∧ (∀ g saved : State, (s.SaveGame userID g).2 = Except.ok saved →
        (s.SaveGame userID g).1.GetGameByID userID saved.GameID = Except.ok saved) := by
  refine ⟨?_, ?_, ?_, ?_⟩
  · rw [GetGameByID_eq]
    cases hl : s.games.lookup userID with
    | none => simp
    | some games =>
      dsimp only
      cases hg : games.lookup gameID <;> simp
  · rw [GetGameByID_eq]
    unfold memStore.gameIDs
    cases hl : s.games.lookup userID with
    | none => simp
    | some games =>
      dsimp only
      cases hg : games.lookup gameID with
      | none =>
        have : gameID ∉ games.keys := fun h =>
          (AList.lookup_eq_none.1 hg) (AList.mem_keys.2 h)
        simp [this]
      | some g =>
        have : gameID ∈ games.keys :=
          AList.mem_keys.1 (AList.lookup_isSome.1 (by rw [hg]; rfl))
        simp [this]
  · intro g
    rw [GetGameByID_eq]
    unfold memStore.gameAt
    cases hl : s.games.lookup userID with
    | none => simp
    | some games =>
      dsimp only
      cases hg : games.lookup gameID <;> simp
  · intro g saved hsaved
    apply GetGameByID_of_gameAt
    rw [SaveGame_eq] at hsaved
    have hs : saved
        = (if g.GameID = 0 then { g with GameID := (lenGames s userID : Int) + 1 } else g) := by
      simpa using hsaved.symm
    rw [gameAt_SaveGame, hs]
    by_cases h0 : g.GameID = 0
    · simp [h0]
    · simp [h0]

/-- C12, witness: the three queries of `TestGetGameByID` on a store in which
"user-id" holds game 1. -/
theorem GetGameByID_errors_and_result_witness :
    (storeTwoGames.GetGameByID "i-dont-exist" 99 = Except.error StoreError.ErrorUserNotFound)
    ∧ (storeTwoGames.GetGameByID "user-id" 99 = Except.error StoreError.ErrorGameNotFound)
    ∧ (storeTwoGames.GetGameByID "user-id" 1
        = Except.ok
            { GameID := 1, WordToGuess := "test-word", CharsGuessed := [], CharsTried := [],
              Status := "" }) :=
  ⟨(GetGameByID_errors_and_result storeTwoGames "i-dont-exist" 99).1.2 (by decide),
    (GetGameByID_errors_and_result storeTwoGames "user-id" 99).2.1.2
      ⟨by decide, by decide⟩,
    ((GetGameByID_errors_and_result storeTwoGames "user-id" 1).2.2.1 _).2 (by decide)⟩

theorem foldl_append_games (l : List (Sigma (fun _ : Int => State))) (init : List State) :
    l.foldl (fun gameSlice e => gameSlice ++ [e.2]) init = init ++ l.map (fun e => e.2) := by
  induction l generalizing init with
  | nil => simp
  | cons e rest ih => simp [ih]

theorem filterMap_dlookup_keys (l : List (Sigma (fun _ : Int => State))) (hn : l.NodupKeys) :
    l.keys.filterMap (fun gameID => l.dlookup gameID) = l.map (fun e => e.2) := by
  induction l with
  | nil => rfl
  | cons e rest ih =>
    obtain ⟨k, v⟩ := e
    have hk : k ∉ rest.keys := (List.nodupKeys_cons.1 hn).1
    have hrest := ih (List.nodupKeys_cons.1 hn).2
    simp only [List.keys_cons, List.map_cons]
    have hhead : (fun gameID => List.dlookup gameID (⟨k, v⟩ :: rest)) k = some v :=
      List.dlookup_cons_eq rest k v
    rw [@List.filterMap_cons_some _ _ (fun gameID => List.dlookup gameID (⟨k, v⟩ :: rest))
      k rest.keys v hhead, ← hrest]
    congr 1
    apply List.filterMap_congr
    intro gameID hmem
    have hne : gameID ≠ k := fun e => hk (e ▸ hmem)
    exact List.dlookup_cons_ne rest ⟨k, v⟩ hne

theorem GetGamesByUser_eq (s : memStore) (userID : String) :
    s.GetGamesByUser userID =
      match s.games.lookup userID with
      | none => Except.error StoreError.ErrorUserNotFound
      | some _ => Except.ok ((s.gameIDs userID).filterMap (fun gameID => s.gameAt userID gameID)) := by
  unfold memStore.GetGamesByUser memStore.gameIDs memStore.gameAt
  cases hl : s.games.lookup userID with
  | none => rfl
  | some games =>
    dsimp only
    rw [foldl_append_games, List.nil_append]
    exact congrArg Except.ok (filterMap_dlookup_keys games.entries games.nodupKeys).symm

theorem gameAt_some_mem_gameIDs (s : memStore) (userID : String) (gameID : Int) (g : State)
    (h : s.gameAt userID gameID = some g) : gameID ∈ s.gameIDs userID := by
  unfold memStore.gameAt at h
  unfold memStore.gameIDs
  cases hl : s.games.lookup userID with
  | none => rw [hl] at h; cases h
  | some games =>
    rw [hl] at h
    dsimp only at h ⊢
    exact AList.mem_keys.1 (AList.lookup_isSome.1 (by rw [h]; rfl))

theorem gameAt_isSome_of_mem_gameIDs (s : memStore) (userID : String) (gameID : Int)
    (h : gameID ∈ s.gameIDs userID) : ∃ g, s.gameAt userID gameID = some g := by
  unfold memStore.gameIDs at h
  unfold memStore.gameAt
  cases hl : s.games.lookup userID with
  | none => rw [hl] at h; cases h
  | some games =>
    rw [hl] at h
    dsimp only at h ⊢
    exact Option.isSome_iff_exists.1 (AList.lookup_isSome.2 (AList.mem_keys.2 h))

/-- C13: `GetGamesByUser` fails with `ErrorUserNotFound` exactly when the user
has no collection.  Otherwise it returns, without error, the list made of
the game stored under each ID of the collection, every ID taken once: its
length is the size of the collection and its members are exactly the games
stored for the user; for a collection without games it is the empty list. -/
theorem GetGamesByUser_lists_collection (s : memStore) (userID : String) :
    (s.GetGamesByUser userID = Except.error StoreError.ErrorUserNotFound ↔
      s.games.lookup userID = none)
    ∧ ((s.games.lookup userID).isSome = true →
        s.GetGamesByUser userID
          = Except.ok ((s.gameIDs userID).filterMap (fun gameID => s.gameAt userID gameID))
        ∧ (s.gameIDs userID).Nodup
        ∧ ((s.gameIDs userID).filterMap (fun gameID => s.gameAt userID gameID)).length
            = (s.gameIDs userID).length
        ∧ (∀ g : State,
            g ∈ (s.gameIDs userID).filterMap (fun gameID => s.gameAt userID gameID) ↔
              ∃ gameID, s.gameAt userID gameID = some g)
        ∧ (s.gameIDs userID = [] → s.GetGamesByUser userID = Except.ok [])) := by
  constructor
  · rw [GetGamesByUser_eq]
    cases hl : s.games.lookup userID <;> simp
  · intro hsome
    have hget : s.GetGamesByUser userID
        = Except.ok ((s.gameIDs userID).filterMap (fun gameID => s.gameAt userID gameID)) := by
      rw [GetGamesByUser_eq]
      cases hl : s.games.lookup userID with
      | none => rw [hl] at hsome; cases hsome
      | some games => rfl
    refine ⟨hget, gameIDs_nodup s userID, ?_, ?_, ?_⟩
    · have hall : ∀ gameID ∈ s.gameIDs userID, (s.gameAt userID gameID).isSome = true := by
        intro gameID hmem
        obtain ⟨g, hg⟩ := gameAt_isSome_of_mem_gameIDs s userID gameID hmem
        rw [hg]; rfl
      generalize s.gameIDs userID = ids at hall
      induction ids with
      | nil => rfl
      | cons a rest ih =>
        obtain ⟨g, hg⟩ := Option.isSome_iff_exists.1 (hall a (List.mem_cons_self _ _))
        rw [List.filterMap_cons_some hg, List.length_cons, List.length_cons,
          ih (fun x hx => hall x (List.mem_cons_of_mem _ hx))]
    · intro g
      rw [List.mem_filterMap]
      constructor
      · rintro ⟨gameID, _, hg⟩
        exact ⟨gameID, hg⟩
      · rintro ⟨gameID, hg⟩
        exact ⟨gameID, gameAt_some_mem_gameIDs s userID gameID g hg, hg⟩
    · intro hempty
      rw [hget, hempty]
      rfl

/-- C13, witness: for the registered user "user-id" with no game the list is
empty, and after the two saves of `TestSaveGame` it has length 2. -/
theorem GetGamesByUser_lists_collection_witness :
    (NewMemStore.SaveNewUser "user-id").1.GetGamesByUser "user-id" = Except.ok []
    ∧ ((storeTwoGames.gameIDs "user-id").filterMap
        (fun gameID => storeTwoGames.gameAt "user-id" gameID)).length = 2 :=
  ⟨((GetGamesByUser_lists_collection (NewMemStore.SaveNewUser "user-id").1 "user-id").2
      (by decide)).2.2.2.2 (by decide),
    ((GetGamesByUser_lists_collection storeTwoGames "user-id").2
      (by decide)).2.2.1.trans (by decide)⟩

theorem SaveNewUser_eq (s : memStore) (userID : String) :
    s.SaveNewUser userID =
      (if (s.games.lookup userID).isSome then s else { games := s.games.insert userID ∅ },
        none) := by
  unfold memStore.SaveNewUser
  cases hl : s.games.lookup userID <;> simp

/-- C14: `SaveNewUser` returns no error; for a user without a collection it
creates an empty one and leaves the collections of the other users as they
were; for a user with a collection it returns the store unchanged; calling
it twice gives the same store as calling it once. -/
theorem SaveNewUser_idempotent (s : memStore) (userID : String) :
    (s.SaveNewUser userID).2 = none
    ∧ (s.games.lookup userID = none →
        (s.SaveNewUser userID).1.games.lookup userID = some ∅
        ∧ (s.SaveNewUser userID).1.gameIDs userID = []
        ∧ ∀ other : String, other ≠ userID →
            (s.SaveNewUser userID).1.games.lookup other = s.games.lookup other)
    ∧ ((s.games.lookup userID).isSome = true → (s.SaveNewUser userID).1 = s)
    ∧ ((s.SaveNewUser userID).1.SaveNewUser userID).1 = (s.SaveNewUser userID).1
    ∧ ((s.SaveNewUser userID).1.SaveNewUser userID).2 = none := by
  have hsome : ((s.SaveNewUser userID).1.games.lookup userID).isSome = true := by
    rw [SaveNewUser_eq]
    cases hl : s.games.lookup userID with
    | none => simp [AList.lookup_insert]
    | some games => simp [hl]
  refine ⟨?_, ?_, ?_, ?_, ?_⟩
  · rw [SaveNewUser_eq]
  · intro hnone
    rw [SaveNewUser_eq]
    simp only [hnone, Option.isSome_none, Bool.false_eq_true, if_false]
    refine ⟨AList.lookup_insert _, ?_, ?_⟩
    · simp [memStore.gameIDs, AList.lookup_insert]
    · intro other hne
      exact AList.lookup_insert_ne hne
  · intro h
    rw [SaveNewUser_eq]
    simp only [h, if_true]
  · rw [SaveNewUser_eq (s.SaveNewUser userID).1]
    simp only [hsome, if_true]
  · rw [SaveNewUser_eq (s.SaveNewUser userID).1]

/-- C14, witness: `TestSaveNewUser`: on an empty store "user-id" gets an empty
collection. -/
theorem SaveNewUser_idempotent_witness :
    (NewMemStore.SaveNewUser "user-id").1.gameIDs "user-id" = []
    ∧ ((NewMemStore.SaveNewUser "user-id").1.games.lookup "user-id").isSome = true :=
  ⟨((SaveNewUser_idempotent NewMemStore "user-id").2.1 (by decide)).2.1,
    by rw [((SaveNewUser_idempotent NewMemStore "user-id").2.1 (by decide)).1]; rfl⟩

/-! ## Decimal texts -/

theorem digitValue_digitChar (d : Nat) (hd : d < 10) :
    strconv.digitValue (strconv.digitChar d) = some d := by
  interval_cases d <;> rfl

theorem isDigit_digitChar (d : Nat) (hd : d < 10) :
    48 ≤ (strconv.digitChar d).toNat := by
  interval_cases d <;> decide

theorem parseDigits_formatDigits (fuel n : Nat) (acc : List Char) (h : n < fuel) :
    strconv.parseDigits (strconv.formatDigits fuel n acc) 0 = strconv.parseDigits acc n := by
  induction fuel generalizing n acc with
  | zero => omega
  | succ fuel ih =>
    have hmod : n % 10 < 10 := Nat.mod_lt _ (by omega)
    unfold strconv.formatDigits
    by_cases h0 : n / 10 = 0
    · rw [if_pos h0]
      have hn : n % 10 = n := by omega
      have hlt : n < 10 := by omega
      simp only [hn, strconv.parseDigits, digitValue_digitChar _ hlt]
      simp
    · rw [if_neg h0, ih (n / 10) _ (by omega)]
      simp only [strconv.parseDigits, digitValue_digitChar _ hmod]
      congr 1
      omega

theorem formatDigits_head (fuel n : Nat) (acc : List Char) :
    ∃ ch rest, strconv.formatDigits (fuel + 1) n acc = ch :: rest ∧ 48 ≤ ch.toNat := by
  induction fuel generalizing n acc with
  | zero =>
    have hmod : n % 10 < 10 := Nat.mod_lt _ (by omega)
    unfold strconv.formatDigits
    by_cases h0 : n / 10 = 0
    · rw [if_pos h0]
      exact ⟨_, _, rfl, isDigit_digitChar _ hmod⟩
    · rw [if_neg h0]
      exact ⟨_, _, rfl, isDigit_digitChar _ hmod⟩
  | succ fuel ih =>
    have hmod : n % 10 < 10 := Nat.mod_lt _ (by omega)
    unfold strconv.formatDigits
    by_cases h0 : n / 10 = 0
    · rw [if_pos h0]
      exact ⟨_, _, rfl, isDigit_digitChar _ hmod⟩
    · rw [if_neg h0]
      exact ih (n / 10) _

theorem parseUnsigned_formatDigits (n : Nat) :
    strconv.parseUnsigned (strconv.formatDigits (n + 1) n []) = some n := by
  obtain ⟨ch, rest, h, _⟩ := formatDigits_head n n []
  unfold strconv.parseUnsigned
  rw [parseDigits_formatDigits (n + 1) n [] (by omega), h]
  simp [strconv.parseDigits]

/-- The decimal text of an integer in the range of a 64-bit `int` is read
back by `strconv.Atoi`. -/
theorem Atoi_Itoa (i : Int) (hlo : -(2 ^ 63 : Int) ≤ i) (hhi : i < 2 ^ 63) :
    strconv.Atoi (strconv.Itoa i) = some i := by
  unfold strconv.Itoa
  by_cases hneg : i < 0
  · rw [if_pos hneg]
    have hb : i.natAbs ≤ 2 ^ 63 := by omega
    have hi : -((i.natAbs : Nat) : Int) = i := by omega
    simp only [strconv.Atoi, if_true, parseUnsigned_formatDigits, Option.some_bind, if_pos hb, hi]
  · rw [if_neg hneg]
    obtain ⟨ch, rest, h, hd⟩ := formatDigits_head i.natAbs i.natAbs []
    have hb : i.natAbs < 2 ^ 63 := by omega
    have hi : ((i.natAbs : Nat) : Int) = i := by omega
    have h1 : ch ≠ '-' := by
      intro e; rw [e] at hd; revert hd; decide
    have h2 : ch ≠ '+' := by
      intro e; rw [e] at hd; revert hd; decide
    have hp := parseUnsigned_formatDigits i.natAbs
    rw [h] at hp
    simp only [strconv.Atoi, h, if_neg h1, if_neg h2, hp, Option.some_bind, if_pos hb, hi]

/-! ## The session handlers -/

theorem loginHandler_eq (c : controller) (userName : String) :
    loginHandler c userName =
      { ctrl := { c with Store := (c.Store.SaveNewUser userName).1, UserID := userName }
        sent := some (Response.help { Info := Rules, Error := none })
        err := none } := by
  unfold loginHandler
  rw [SaveNewUser_eq]

theorem createGame_eq (c : controller) (r : Nat) :
    createGame c r =
      { ctrl :=
          { c with
            Store :=
              (c.Store.SaveGame c.UserID
                { GameID := 0, WordToGuess := randomHero r, CharsGuessed := [], CharsTried := [],
                  Status := InProgress }).1
            GameState := some
              { GameID := (lenGames c.Store c.UserID : Int) + 1, WordToGuess := randomHero r,
                CharsGuessed := [], CharsTried := [], Status := InProgress } }
        sent := some (Response.gameState
          { State :=
              { GameID := (lenGames c.Store c.UserID : Int) + 1, WordToGuess := randomHero r,
                CharsGuessed := [], CharsTried := [], Status := InProgress }
            Error := none })
        err := none } := by
  unfold createGame
  simp only []
  rw [SaveGame_eq]
  simp

theorem newGameHandler_none (c : controller) (r : Nat) (h : c.GameState = none) :
    newGameHandler c r = createGame c r := by
  unfold newGameHandler
  rw [h]

theorem newGameHandler_some (c : controller) (r : Nat) (g : State) (h : c.GameState = some g) :
    newGameHandler c r =
      createGame
        { c with
          GameState := some ({ g with Status := Paused })
          Store := (c.Store.SaveGame c.UserID ({ g with Status := Paused })).1 } r := by
  unfold newGameHandler
  rw [h]
  simp only
  rw [SaveGame_eq]

theorem listStored_eq (c : controller) :
    listStored c =
      match c.Store.games.lookup c.UserID with
      | none =>
        { ctrl := c, sent := none, err := some (HandlerError.store StoreError.ErrorUserNotFound) }
      | some _ =>
        { ctrl := c
          sent := some (Response.listGames
            { Games := (c.Store.gameIDs c.UserID).filterMap
                (fun gameID => c.Store.gameAt c.UserID gameID)
              Error := none })
          err := none } := by
  unfold listStored
  rw [GetGamesByUser_eq]
  cases c.Store.games.lookup c.UserID <;> rfl

theorem listGamesHandler_in_progress (c : controller) (g : State)
    (h : c.GameState = some g) (hs : g.Status = InProgress) :
    listGamesHandler c =
      listStored
        { c with
          GameState := some
            (if g.GameID = 0 then
              { g with Status := Paused, GameID := (lenGames c.Store c.UserID : Int) + 1 }
            else { g with Status := Paused })
          Store := (c.Store.SaveGame c.UserID ({ g with Status := Paused })).1 } := by
  unfold listGamesHandler
  rw [h]
  simp only [hs, if_true]
  rw [SaveGame_eq]

theorem listGamesHandler_otherwise (c : controller)
    (h : c.GameState = none ∨ ∃ g, c.GameState = some g ∧ g.Status ≠ InProgress) :
    listGamesHandler c = listStored c := by
  unfold listGamesHandler
  rcases h with h | ⟨g, h, hs⟩
  · rw [h]
  · rw [h]
    simp only [if_neg hs]

theorem resumeGameHandler_found (c : controller) (text : String) (gameID : Int)
    (stored : State) (ht : strconv.Atoi text = some gameID)
    (hs : c.Store.gameAt c.UserID gameID = some stored) :
    resumeGameHandler c text =
      { ctrl := { c with GameState := some ({ stored with Status := InProgress }) }
        sent := some (Response.gameState
          { State := ({ stored with Status := InProgress }), Error := none })
        err := none } := by
  unfold resumeGameHandler
  rw [ht]
  simp only
  rw [GetGameByID_of_gameAt _ _ _ _ hs]

theorem randomHero_mem (r : Nat) : randomHero r ∈ heroes := by
  unfold randomHero
  have h : r % heroes.length < 12 := Nat.mod_lt _ (by decide)
  generalize r % heroes.length = k at h
  interval_cases k <;> decide

theorem MarshalJSON_nothing_guessed (g : State) (h : g.CharsGuessed = []) :
    g.MarshalJSON.WordToGuess
      = List.foldr (fun piece rest => piece ++ rest) ""
          (List.replicate g.WordToGuess.data.length "_ ") := by
  show g.WordToGuess.data.foldl (maskStep g.CharsGuessed) "" = _
  rw [foldl_maskStep, h]
  simp only [List.not_mem_nil, if_false, List.map_const']
  exact String.empty_append _

/-- The effect of `newGameHandler` on a store whose IDs for the user are
1, ..., n and whose active game, if any, carries one of these IDs. -/
theorem newGameHandler_numbered (c : controller) (r : Nat)
    (hnum : ∀ gameID : Int, gameID ∈ c.Store.gameIDs c.UserID ↔
      1 ≤ gameID ∧ gameID ≤ ((c.Store.gameIDs c.UserID).length : Int))
    (hact : ∀ g : State, c.GameState = some g → g.GameID ∈ c.Store.gameIDs c.UserID) :
    (newGameHandler c r).err = none
    ∧ (newGameHandler c r).sent = some (Response.gameState
        { State :=
            { GameID := ((c.Store.gameIDs c.UserID).length : Int) + 1,
              WordToGuess := randomHero r, CharsGuessed := [], CharsTried := [],
              Status := InProgress }
          Error := none })
    ∧ (newGameHandler c r).ctrl.GameState = some
        { GameID := ((c.Store.gameIDs c.UserID).length : Int) + 1,
          WordToGuess := randomHero r, CharsGuessed := [], CharsTried := [],
          Status := InProgress }
    ∧ (newGameHandler c r).ctrl.UserID = c.UserID
    ∧ (newGameHandler c r).ctrl.Store.gameAt c.UserID
          (((c.Store.gameIDs c.UserID).length : Int) + 1)
        = some
            { GameID := ((c.Store.gameIDs c.UserID).length : Int) + 1,
              WordToGuess := randomHero r, CharsGuessed := [], CharsTried := [],
              Status := InProgress }
    ∧ (∀ g : State, c.GameState = some g →
        (newGameHandler c r).ctrl.Store.gameAt c.UserID g.GameID
          = some ({ g with Status := Paused }))
    ∧ ((newGameHandler c r).ctrl.Store.gameIDs c.UserID).length
        = (c.Store.gameIDs c.UserID).length + 1
    ∧ (∀ gameID : Int, gameID ∈ c.Store.gameIDs c.UserID →
        (∀ g : State, c.GameState = some g → gameID ≠ g.GameID) →
        (newGameHandler c r).ctrl.Store.gameAt c.UserID gameID
          = c.Store.gameAt c.UserID gameID) := by
  have hfresh : (((c.Store.gameIDs c.UserID).length : Int) + 1) ∉ c.Store.gameIDs c.UserID := by
    intro h
    have := (hnum _).1 h
    omega
  cases hg : c.GameState with
  | none =>
    rw [newGameHandler_none c r hg, createGame_eq]
    obtain ⟨_, k2⟩ := numbered_SaveGame c.Store c.UserID
      { GameID := 0, WordToGuess := randomHero r, CharsGuessed := [], CharsTried := [],
        Status := InProgress } hnum (Or.inl rfl)
    simp only [lenGames_eq_length_gameIDs]
    refine ⟨trivial, trivial, trivial, trivial, ?_, ?_, ?_, ?_⟩
    · rw [gameAt_SaveGame]
      simp [lenGames_eq_length_gameIDs]
    · intro g hsome
      cases hsome
    · rw [k2]; simp
    · intro gameID hmem _
      rw [gameAt_SaveGame]
      simp only [if_true, lenGames_eq_length_gameIDs]
      rw [if_neg]
      intro e
      exact hfresh (e ▸ hmem)
  | some g =>
    have hgmem : g.GameID ∈ c.Store.gameIDs c.UserID := hact g hg
    have hg0 : g.GameID ≠ 0 := by
      intro e
      have := (hnum _).1 hgmem
      omega
    have hgne : g.GameID ≠ ((c.Store.gameIDs c.UserID).length : Int) + 1 :=
      fun e => hfresh (e ▸ hgmem)
    obtain ⟨k1, k2⟩ := numbered_SaveGame c.Store c.UserID ({ g with Status := Paused })
      hnum (Or.inr hgmem)
    have k2 : ((c.Store.SaveGame c.UserID ({ g with Status := Paused })).1.gameIDs
        c.UserID).length = (c.Store.gameIDs c.UserID).length := by
      rw [k2]; simp [hg0]
    obtain ⟨_, m2⟩ := numbered_SaveGame
      (c.Store.SaveGame c.UserID ({ g with Status := Paused })).1 c.UserID
      { GameID := 0, WordToGuess := randomHero r, CharsGuessed := [], CharsTried := [],
        Status := InProgress } k1 (Or.inl rfl)
    rw [newGameHandler_some c r g hg, createGame_eq]
    simp only [lenGames_eq_length_gameIDs, k2]
    refine ⟨trivial, trivial, trivial, trivial, ?_, ?_, ?_, ?_⟩
    · rw [gameAt_SaveGame]
      simp [lenGames_eq_length_gameIDs, k2]
    · intro g2 hsome
      cases hsome
      rw [gameAt_SaveGame]
      simp only [if_true, lenGames_eq_length_gameIDs, k2]
      rw [if_neg hgne, gameAt_SaveGame]
      simp [hg0]
    · rw [m2, k2]; simp
    · intro gameID hmem hne
      rw [gameAt_SaveGame]
      simp only [if_true, lenGames_eq_length_gameIDs, k2]
      have hne2 : gameID ≠ ((c.Store.gameIDs c.UserID).length : Int) + 1 :=
        fun e => hfresh (e ▸ hmem)
      rw [if_neg hne2, gameAt_SaveGame]
      simp only [if_neg hg0]
      rw [if_neg (hne g rfl)]

/-- C15, counterexample: after "login alice", "new", "login bob" the session
of "bob" holds game 1 of "alice" as active game while "bob" has no game; one
call of `newGameHandler` then leaves two games in the collection of "bob". -/
theorem newGameHandler_grows_by_two_after_relogin :
    sessionRelogin.UserID = "bob"
    ∧ sessionRelogin.GameState.map (fun g => g.GameID) = some 1
    ∧ (sessionRelogin.Store.gameIDs "bob").length = 0
    ∧ (newGameHandler sessionRelogin 4).err = none
    ∧ ((newGameHandler sessionRelogin 4).ctrl.Store.gameIDs "bob").length = 2 := by
  decide

/-- C15, amended: for every controller state in which the IDs of the
collection of the user are 1, ..., n and the active game, if any, carries one
of these IDs, `newGameHandler` returns no error and (1) when a game is
active, stores it under its ID with status paused and otherwise unchanged,
(2) stores, under the ID n + 1 assigned by the store, a fresh game whose
word is one of `heroes`, with nothing guessed or tried and status in
progress, (3) makes this game the active game and answers with it, its word
being sent as placeholders only; the collection grows by exactly one game
and the other games stay as they were. -/
theorem newGameHandler_creates_fresh_game (c : controller) (r : Nat)
    (hnum : ∀ gameID : Int, gameID ∈ c.Store.gameIDs c.UserID ↔
      1 ≤ gameID ∧ gameID ≤ ((c.Store.gameIDs c.UserID).length : Int))
    (hact : ∀ g : State, c.GameState = some g → g.GameID ∈ c.Store.gameIDs c.UserID) :
    ∃ fresh : State,
      fresh =
        { GameID := ((c.Store.gameIDs c.UserID).length : Int) + 1, WordToGuess := randomHero r,
          CharsGuessed := [], CharsTried := [], Status := "in progress" }
      ∧ fresh.WordToGuess ∈ heroes
      ∧ (newGameHandler c r).err = none
      ∧ (newGameHandler c r).sent = some (Response.gameState { State := fresh, Error := none })
      ∧ fresh.MarshalJSON.WordToGuess
          = List.foldr (fun piece rest => piece ++ rest) ""
              (List.replicate fresh.WordToGuess.data.length "_ ")
      ∧ (newGameHandler c r).ctrl.GameState = some fresh
      ∧ (newGameHandler c r).ctrl.UserID = c.UserID
      ∧ (newGameHandler c r).ctrl.Store.gameAt c.UserID fresh.GameID = some fresh
      ∧ (∀ g : State, c.GameState = some g →
          (newGameHandler c r).ctrl.Store.gameAt c.UserID g.GameID
            = some ({ g with Status := "paused" }))
      ∧ ((newGameHandler c r).ctrl.Store.gameIDs c.UserID).length
          = (c.Store.gameIDs c.UserID).length + 1
      ∧ (∀ gameID : Int, gameID ∈ c.Store.gameIDs c.UserID →
          (∀ g : State, c.GameState = some g → gameID ≠ g.GameID) →
          (newGameHandler c r).ctrl.Store.gameAt c.UserID gameID
            = c.Store.gameAt c.UserID gameID) := by
  obtain ⟨h1, h2, h3, h4, h5, h6, h7, h8⟩ := newGameHandler_numbered c r hnum hact
  exact ⟨_, rfl, randomHero_mem r, h1, h2, MarshalJSON_nothing_guessed _ rfl, h3, h4, h5, h6,
    h7, h8⟩

/-- C15, witness: the two calls of `TestNewGameHandler` for the new user
"user-id" leave 2 games in the store. -/
theorem newGameHandler_creates_fresh_game_witness :
    ((newGameHandler (newGameHandler sessionRegistered 5).ctrl 7).ctrl.Store.gameIDs
      "user-id").length = 2 := by
  have hids : (newGameHandler sessionRegistered 5).ctrl.Store.gameIDs "user-id" = [1] := by
    decide
  obtain ⟨_, _, _, _, _, _, _, _, _, _, h, _⟩ :=
    newGameHandler_creates_fresh_game (newGameHandler sessionRegistered 5).ctrl 7
      (by
        intro gameID
        show gameID ∈ (newGameHandler sessionRegistered 5).ctrl.Store.gameIDs "user-id" ↔
          1 ≤ gameID ∧
            gameID ≤ (((newGameHandler sessionRegistered 5).ctrl.Store.gameIDs
              "user-id").length : Int)
        rw [hids]
        simp only [List.mem_singleton, List.length_singleton, Nat.cast_one]
        omega)
      (by
        intro g hg
        have h1 : g.GameID = 1 := by
          have : (newGameHandler sessionRegistered 5).ctrl.GameState.map (fun x => x.GameID)
              = some 1 := by decide
          rw [hg] at this
          simpa using this
        show g.GameID ∈ (newGameHandler sessionRegistered 5).ctrl.Store.gameIDs "user-id"
        rw [hids, h1]
        exact List.mem_singleton_self _)
  exact h.trans (by decide)

/-- C16: for every game stored for the user of the session under an ID in the
range of `int`, whatever its status, `resumeGameHandler` called with the
decimal text of the ID (or any other text that `strconv.Atoi` reads as the
ID) returns no error, makes the stored game with status in progress the
active game, every other field as stored, answers with that state, and
leaves user and store as they were. -/
theorem resumeGameHandler_activates_stored_game (c : controller) (gameID : Int)
    (stored : State) (text : String)
    (hstored : c.Store.gameAt c.UserID gameID = some stored)
    (hlo : -(2 ^ 63 : Int) ≤ gameID) (hhi : gameID < 2 ^ 63)
    (htext : text = strconv.Itoa gameID ∨ strconv.Atoi text = some gameID) :
    (resumeGameHandler c text).err = none
    ∧ (resumeGameHandler c text).sent = some (Response.gameState
        { State := ({ stored with Status := "in progress" }), Error := none })
    ∧ (resumeGameHandler c text).ctrl.GameState = some ({ stored with Status := "in progress" })
    ∧ (resumeGameHandler c text).ctrl.UserID = c.UserID
    ∧ (resumeGameHandler c text).ctrl.Store = c.Store := by
  have ht : strconv.Atoi text = some gameID := by
    rcases htext with h | h
    · rw [h]; exact Atoi_Itoa gameID hlo hhi
    · exact h
  rw [resumeGameHandler_found c text gameID stored ht hstored]
  exact ⟨rfl, rfl, rfl, rfl, rfl⟩

/-- C16, witness: the game that `new` saved for "user-id" under ID 1 is resumed
with the text of `strconv.Itoa 1`. -/
theorem resumeGameHandler_activates_stored_game_witness :
    (resumeGameHandler (newGameHandler sessionRegistered 5).ctrl (strconv.Itoa 1)).sent
      = some (Response.gameState
          { State :=
              { GameID := 1, WordToGuess := "wolverine", CharsGuessed := [], CharsTried := [],
                Status := "in progress" }
            Error := none }) :=
  (resumeGameHandler_activates_stored_game (newGameHandler sessionRegistered 5).ctrl 1
    { GameID := 1, WordToGuess := "wolverine", CharsGuessed := [], CharsTried := [],
      Status := "in progress" } (strconv.Itoa 1) (by decide) (by decide) (by decide)
    (Or.inl rfl)).2.1

theorem handlePlayerAction_login (c : controller) (userName : String) (r : Nat) :
    handlePlayerAction c { Action := "login", Value := userName } r
      = loginHandler c userName := by
  simp [handlePlayerAction, Login]

/-- C18, counterexample: on a new connection over an empty store the login with
the empty username is answered with the rules and no error, and the empty
name is registered in the store. -/
theorem login_with_empty_name_is_accepted :
    (handlePlayerAction (NewSession NewMemStore) { Action := "login", Value := "" } 0).sent
      = some (Response.help { Info := Rules, Error := none })
    ∧ (handlePlayerAction (NewSession NewMemStore) { Action := "login", Value := "" } 0).err
      = none
    ∧ ((handlePlayerAction (NewSession NewMemStore)
          { Action := "login", Value := "" } 0).ctrl.Store.games.lookup "").isSome = true
    ∧ ((NewSession NewMemStore).Store.games.lookup "").isSome = false := by
  refine ⟨?_, ?_, ?_, ?_⟩
  · rw [handlePlayerAction_login, loginHandler_eq]
  · rw [handlePlayerAction_login, loginHandler_eq]
  · decide
  · decide

/-- C18, amended: for every controller state and every username, the empty one
included, the login action succeeds: the user is registered in the store
(an existing collection is kept), becomes the user of the session, the
active game stays as it is, and the response carries `game.Rules` with no
error. -/
theorem login_always_succeeds (c : controller) (userName : String) (r : Nat) :
    (handlePlayerAction c { Action := "login", Value := userName } r).sent
      = some (Response.help { Info := Rules, Error := none })
    ∧ (handlePlayerAction c { Action := "login", Value := userName } r).err = none
    ∧ (handlePlayerAction c { Action := "login", Value := userName } r).ctrl.UserID = userName
    ∧ (handlePlayerAction c { Action := "login", Value := userName } r).ctrl.GameState
        = c.GameState
    ∧ (handlePlayerAction c { Action := "login", Value := userName } r).ctrl.Store
        = (c.Store.SaveNewUser userName).1
    ∧ ((handlePlayerAction c { Action := "login", Value := userName }
          r).ctrl.Store.games.lookup userName).isSome = true
    ∧ ((c.Store.games.lookup userName).isSome = true →
        (handlePlayerAction c { Action := "login", Value := userName } r).ctrl.Store
          = c.Store) := by
  rw [handlePlayerAction_login, loginHandler_eq]
  refine ⟨rfl, rfl, rfl, rfl, rfl, ?_, ?_⟩
  · show ((c.Store.SaveNewUser userName).1.games.lookup userName).isSome = true
    rw [SaveNewUser_eq]
    cases hl : c.Store.games.lookup userName with
    | none => simp [AList.lookup_insert]
    | some games => simp [hl]
  · intro h
    show (c.Store.SaveNewUser userName).1 = c.Store
    rw [SaveNewUser_eq]
    simp only [h, if_true]

/-- C18, witness: `TestLoginHandler`: the login of "user-id" on an empty store
is answered with the rules. -/
theorem login_always_succeeds_witness :
    (handlePlayerAction (NewSession NewMemStore) { Action := "login", Value := "user-id" } 0).sent
      = some (Response.help { Info := Rules, Error := none })
    ∧ (handlePlayerAction (NewSession NewMemStore)
        { Action := "login", Value := "user-id" } 0).ctrl.UserID = "user-id" :=
  ⟨(login_always_succeeds (NewSession NewMemStore) "user-id" 0).1,
    (login_always_succeeds (NewSession NewMemStore) "user-id" 0).2.2.1⟩

theorem listStored_ctrl (c : controller) : (listStored c).ctrl = c := by
  rw [listStored_eq]
  cases c.Store.games.lookup c.UserID <;> rfl

theorem guessHandler_frame (c : controller) (charGuessed : String) :
    (guessHandler c charGuessed).1.UserID = c.UserID
    ∧ (guessHandler c charGuessed).1.Store = c.Store := by
  unfold guessHandler
  split <;> exact ⟨rfl, rfl⟩

theorem resumeGameHandler_frame (c : controller) (text : String) :
    (resumeGameHandler c text).ctrl.UserID = c.UserID
    ∧ (resumeGameHandler c text).ctrl.Store = c.Store := by
  unfold resumeGameHandler
  split
  · exact ⟨rfl, rfl⟩
  · split <;> exact ⟨rfl, rfl⟩

theorem createGame_frame (c : controller) (r : Nat) :
    (createGame c r).ctrl.UserID = c.UserID
    ∧ ∀ other : String, other ≠ c.UserID →
        (createGame c r).ctrl.Store.games.lookup other = c.Store.games.lookup other := by
  rw [createGame_eq]
  exact ⟨rfl, fun other hne => lookup_SaveGame_other _ _ _ _ hne⟩

theorem newGameHandler_frame (c : controller) (r : Nat) :
    (newGameHandler c r).ctrl.UserID = c.UserID
    ∧ ∀ other : String, other ≠ c.UserID →
        (newGameHandler c r).ctrl.Store.games.lookup other = c.Store.games.lookup other := by
  cases hg : c.GameState with
  | none =>
    rw [newGameHandler_none c r hg]
    exact createGame_frame c r
  | some g =>
    rw [newGameHandler_some c r g hg]
    obtain ⟨h1, h2⟩ := createGame_frame
      { c with
        GameState := some ({ g with Status := Paused })
        Store := (c.Store.SaveGame c.UserID ({ g with Status := Paused })).1 } r
    refine ⟨h1, ?_⟩
    intro other hne
    rw [h2 other hne]
    exact lookup_SaveGame_other _ _ _ _ hne

theorem listGamesHandler_frame (c : controller) :
    (listGamesHandler c).ctrl.UserID = c.UserID
    ∧ ∀ other : String, other ≠ c.UserID →
        (listGamesHandler c).ctrl.Store.games.lookup other = c.Store.games.lookup other := by
  by_cases h : ∃ g, c.GameState = some g ∧ g.Status = InProgress
  · obtain ⟨g, hg, hs⟩ := h
    rw [listGamesHandler_in_progress c g hg hs, listStored_ctrl]
    exact ⟨rfl, fun other hne => lookup_SaveGame_other _ _ _ _ hne⟩
  · have h2 : c.GameState = none ∨ ∃ g, c.GameState = some g ∧ g.Status ≠ InProgress := by
      cases hg : c.GameState with
      | none => exact Or.inl rfl
      | some g => exact Or.inr ⟨g, rfl, fun hs => h ⟨g, hg, hs⟩⟩
    rw [listGamesHandler_otherwise c h2, listStored_ctrl]
    exact ⟨rfl, fun _ _ => rfl⟩

/-- Every action other than login keeps the user of the session and the
collections of all other users. -/
theorem handlePlayerAction_frame (c : controller) (input : messages.PlayerReq) (r : Nat)
    (h : input.Action ≠ "login") :
    (handlePlayerAction c input r).ctrl.UserID = c.UserID
    ∧ ∀ other : String, other ≠ c.UserID →
        (handlePlayerAction c input r).ctrl.Store.games.lookup other
          = c.Store.games.lookup other := by
  have h0 : ¬ input.Action = Login := h
  by_cases h1 : input.Action = NewGame
  · simp only [handlePlayerAction, if_neg h0, if_pos h1]
    exact newGameHandler_frame c r
  by_cases h2 : input.Action = Help
  · simp only [handlePlayerAction, if_neg h0, if_neg h1, if_pos h2]
    exact ⟨rfl, fun _ _ => rfl⟩
  by_cases h3 : input.Action = ListGames
  · simp only [handlePlayerAction, if_neg h0, if_neg h1, if_neg h2, if_pos h3]
    exact listGamesHandler_frame c
  by_cases h4 : input.Action = ResumeGame
  · simp only [handlePlayerAction, if_neg h0, if_neg h1, if_neg h2, if_neg h3, if_pos h4]
    exact ⟨(resumeGameHandler_frame c _).1,
      fun other _ => by rw [(resumeGameHandler_frame c _).2]⟩
  by_cases h5 : input.Action = Guess
  · simp only [handlePlayerAction, if_neg h0, if_neg h1, if_neg h2, if_neg h3, if_neg h4,
      if_pos h5]
    exact ⟨(guessHandler_frame c _).1, fun other _ => by rw [(guessHandler_frame c _).2]⟩
  · simp only [handlePlayerAction, if_neg h0, if_neg h1, if_neg h2, if_neg h3, if_neg h4,
      if_neg h5]
    exact ⟨trivial, fun _ _ => trivial⟩

theorem runActions_frame (inputs : List (messages.PlayerReq × Nat)) (c : controller)
    (h : ∀ x ∈ inputs, x.1.Action ≠ "login") :
    (runActions c inputs).UserID = c.UserID
    ∧ ∀ other : String, other ≠ c.UserID →
        (runActions c inputs).Store.games.lookup other = c.Store.games.lookup other := by
  induction inputs generalizing c with
  | nil => exact ⟨rfl, fun _ _ => rfl⟩
  | cons x rest ih =>
    obtain ⟨input, r⟩ := x
    obtain ⟨h1, h2⟩ := handlePlayerAction_frame c input r (h (input, r) (List.mem_cons_self _ _))
    obtain ⟨k1, k2⟩ := ih (handlePlayerAction c input r).ctrl
      (fun y hy => h y (List.mem_cons_of_mem _ hy))
    refine ⟨?_, ?_⟩
    · show (runActions (handlePlayerAction c input r).ctrl rest).UserID = c.UserID
      rw [k1, h1]
    · intro other hne
      show (runActions (handlePlayerAction c input r).ctrl rest).Store.games.lookup other = _
      rw [k2 other (by rw [h1]; exact hne), h2 other hne]

/-- C19, counterexample: on a new connection over an empty store, without any
login, the action "new" is carried out: it returns no error, makes a fresh
game the active game and creates a collection with game 1 for the empty user
name; the action "help" is answered with the rules. -/
theorem new_is_served_before_login :
    (NewSession NewMemStore).UserID = ""
    ∧ (handlePlayerAction (NewSession NewMemStore) { Action := "new", Value := "" } 2).err = none
    ∧ (handlePlayerAction (NewSession NewMemStore) { Action := "new", Value := "" } 2).ctrl.GameState
      = some
          { GameID := 1, WordToGuess := "batman", CharsGuessed := [], CharsTried := [],
            Status := "in progress" }
    ∧ (NewSession NewMemStore).Store.gameIDs "" = []
    ∧ (handlePlayerAction (NewSession NewMemStore)
        { Action := "new", Value := "" } 2).ctrl.Store.gameIDs "" = [1]
    ∧ (handlePlayerAction (NewSession NewMemStore) { Action := "help", Value := "" } 0).err
      = none := by
  decide

/-- C19, amended: `handlePlayerAction` has no login check.  For a controller
on which no login has succeeded (empty `UserID`, no active game) over a store
without a collection for the empty user name: "try" is answered with the
error of `validateGameStatus`, "list" returns the error `ErrorUserNotFound`,
"resume" returns the error of `strconv.Atoi` or is answered with the error
"user not found", and none of the three changes the controller or the
store; "help" is answered with the rules; "new" is carried out for the empty
user name: a collection with the fresh game 1 is created and the game becomes
the active game. -/
theorem actions_before_login (c : controller) (value : String) (r : Nat)
    (hu : c.UserID = "") (hg : c.GameState = none) (hs : c.Store.games.lookup "" = none) :
    ((handlePlayerAction c { Action := "try", Value := value } r).ctrl = c
      ∧ (handlePlayerAction c { Action := "try", Value := value } r).err = none
      ∧ (handlePlayerAction c { Action := "try", Value := value } r).sent
          = some (Response.gameState
              { State := default
                Error := some { Message :=
                  "you must start a new game or resume a paused game before guessing the hero" } }))
    ∧ ((handlePlayerAction c { Action := "list", Value := value } r).ctrl = c
      ∧ (handlePlayerAction c { Action := "list", Value := value } r).sent = none
      ∧ (handlePlayerAction c { Action := "list", Value := value } r).err
          = some (HandlerError.store StoreError.ErrorUserNotFound))
    ∧ ((handlePlayerAction c { Action := "resume", Value := value } r).ctrl = c
      ∧ (strconv.Atoi value = none →
          (handlePlayerAction c { Action := "resume", Value := value } r).sent = none
          ∧ (handlePlayerAction c { Action := "resume", Value := value } r).err
              = some (HandlerError.atoi value))
      ∧ ((strconv.Atoi value).isSome = true →
          (handlePlayerAction c { Action := "resume", Value := value } r).err = none
          ∧ (handlePlayerAction c { Action := "resume", Value := value } r).sent
              = some (Response.gameState
                  { State := default, Error := some { Message := "user not found" } })))
    ∧ ((handlePlayerAction c { Action := "help", Value := value } r).ctrl = c
      ∧ (handlePlayerAction c { Action := "help", Value := value } r).err = none
      ∧ (handlePlayerAction c { Action := "help", Value := value } r).sent
          = some (Response.help { Info := Rules, Error := none }))
    ∧ ((handlePlayerAction c { Action := "new", Value := value } r).err = none
      ∧ (handlePlayerAction c { Action := "new", Value := value } r).ctrl.UserID = ""
      ∧ (handlePlayerAction c { Action := "new", Value := value } r).ctrl.GameState
          = some
              { GameID := 1, WordToGuess := randomHero r, CharsGuessed := [], CharsTried := [],
                Status := "in progress" }
      ∧ (handlePlayerAction c { Action := "new", Value := value } r).ctrl.Store.gameIDs "" = [1]
      ∧ (handlePlayerAction c { Action := "new", Value := value } r).ctrl.Store.gameAt "" 1
          = some
              { GameID := 1, WordToGuess := randomHero r, CharsGuessed := [], CharsTried := [],
                Status := "in progress" }) := by
  have hids : c.Store.gameIDs "" = [] := by simp [memStore.gameIDs, hs]
  have hlen : lenGames c.Store "" = 0 := by rw [lenGames_eq_length_gameIDs, hids]; rfl
  refine ⟨?_, ?_, ?_, ?_, ?_⟩
  · have e : handlePlayerAction c { Action := "try", Value := value } r
        = { ctrl := (guessHandler c value).1
            sent := some (Response.gameState (guessHandler c value).2), err := none } := by
      simp [handlePlayerAction, Login, NewGame, Help, ListGames, ResumeGame, Guess]
    rw [e, guessHandler_rejected c value (Or.inl hg)]
    exact ⟨rfl, rfl, rfl⟩
  · have e : handlePlayerAction c { Action := "list", Value := value } r
        = listGamesHandler c := by
      simp [handlePlayerAction, Login, NewGame, Help, ListGames]
    rw [e, listGamesHandler_otherwise c (Or.inl hg), listStored_eq, hu, hs]
    exact ⟨rfl, rfl, rfl⟩
  · have e : handlePlayerAction c { Action := "resume", Value := value } r
        = resumeGameHandler c value := by
      simp [handlePlayerAction, Login, NewGame, Help, ListGames, ResumeGame]
    rw [e]
    unfold resumeGameHandler
    cases ha : strconv.Atoi value with
    | none => simp
    | some gameID =>
      have hget : c.Store.GetGameByID c.UserID gameID
          = Except.error StoreError.ErrorUserNotFound := by
        rw [GetGameByID_eq, hu, hs]
      simp only [hget]
      simp [StoreError.message]
  · have e : handlePlayerAction c { Action := "help", Value := value } r = helpHandler c := by
      simp [handlePlayerAction, Login, NewGame, Help]
    rw [e]
    exact ⟨rfl, rfl, rfl⟩
  · have e : handlePlayerAction c { Action := "new", Value := value } r
        = newGameHandler c r := by
      simp [handlePlayerAction, Login, NewGame]
    rw [e, newGameHandler_none c r hg, createGame_eq, hu, hlen]
    refine ⟨rfl, rfl, ?_, ?_, ?_⟩
    · simp [InProgress]
    · rw [gameIDs_SaveGame, hlen, hids]
      simp
    · rw [gameAt_SaveGame, hlen]
      simp [InProgress]

/-- C19, witness: on a new connection over an empty store the guess "o" is
answered with the error and changes nothing. -/
theorem actions_before_login_witness :
    (handlePlayerAction (NewSession NewMemStore) { Action := "try", Value := "o" } 0).sent
      = some (Response.gameState
          { State := default
            Error := some { Message :=
              "you must start a new game or resume a paused game before guessing the hero" } }) :=
  (actions_before_login (NewSession NewMemStore) "o" 0 rfl rfl (by decide)).1.2.2

/-- C20, counterexample: after "login alice" and "new" the request "login bob"
changes the user of the session from "alice" to "bob" and keeps game 1 of
"alice" as active game; the next "new" saves that game, paused, into the
collection of "bob". -/
theorem second_login_rebinds_session :
    (runActions (NewSession NewMemStore)
        [({ Action := "login", Value := "alice" }, 0), ({ Action := "new", Value := "" }, 2)]).UserID
      = "alice"
    ∧ sessionRelogin.UserID = "bob"
    ∧ sessionRelogin.Store.gameAt "alice" 1
      = some
          { GameID := 1, WordToGuess := "batman", CharsGuessed := [], CharsTried := [],
            Status := "in progress" }
    ∧ sessionRelogin.Store.gameAt "bob" 1 = none
    ∧ (handlePlayerAction sessionRelogin { Action := "new", Value := "" } 4).ctrl.Store.gameAt
        "bob" 1
      = some
          { GameID := 1, WordToGuess := "batman", CharsGuessed := [], CharsTried := [],
            Status := "paused" } := by
  decide

/-- C20, amended: the user of a controller changes through the login action
only.  For every sequence of actions without a login the `UserID` stays as
it is and no game is saved into the collection of another user: every other
user keeps the same game IDs and, under each ID, a game of the same
`GameID`, `WordToGuess` and `Status`.  Every login request, also after an
earlier login, makes the submitted name the user of the session and keeps
the active game. -/
theorem userID_changes_only_by_login (c : controller)
    (inputs : List (messages.PlayerReq × Nat)) :
    ((∀ x ∈ inputs, x.1.Action ≠ "login") →
      (runActions c inputs).UserID = c.UserID
      ∧ ∀ other : String, other ≠ c.UserID →
          (runActions c inputs).Store.gameIDs other = c.Store.gameIDs other
          ∧ ∀ gameID : Int,
              ((runActions c inputs).Store.gameAt other gameID).map
                  (fun g => (g.GameID, g.WordToGuess, g.Status))
                = (c.Store.gameAt other gameID).map
                    (fun g => (g.GameID, g.WordToGuess, g.Status)))
    ∧ (∀ (userName : String) (r : Nat),
        (handlePlayerAction c { Action := "login", Value := userName } r).ctrl.UserID = userName
        ∧ (handlePlayerAction c { Action := "login", Value := userName } r).ctrl.GameState
            = c.GameState) := by
  refine ⟨fun h => ⟨(runActions_frame inputs c h).1, fun other hne => ?_⟩, ?_⟩
  · have hl := (runActions_frame inputs c h).2 other hne
    refine ⟨?_, fun gameID => ?_⟩
    · simp only [memStore.gameIDs, hl]
    · simp only [memStore.gameAt, hl]
  · intro userName r
    rw [handlePlayerAction_login, loginHandler_eq]
    exact ⟨rfl, rfl⟩

/-- C20, witness: after the login of "user-id" the actions "new", "try", "list",
"resume" and "help" leave "user-id" the user of the session. -/
theorem userID_changes_only_by_login_witness :
    (runActions sessionRegistered
      [({ Action := "new", Value := "" }, 3), ({ Action := "try", Value := "c" }, 0),
       ({ Action := "list", Value := "" }, 0), ({ Action := "resume", Value := "1" }, 0),
       ({ Action := "help", Value := "" }, 0)]).UserID = "user-id" :=
  ((userID_changes_only_by_login sessionRegistered _).1 (by decide)).1

/-! ## Sessions: pausing, failing requests and the request loop -/

/-- C21, failing input: after "login alice" on an empty store the requests
"new", "new", "resume 1", "new" leave three games stored for "alice", of
which game 2 and game 3 both have status in progress: "resume 1" made game 1
the active game without pausing and saving game 2. -/
theorem resume_leaves_two_games_in_progress :
    sessionNewNewResumeNew.Store.gameAt "alice" 1
      = some
          { GameID := 1, WordToGuess := "batman", CharsGuessed := [], CharsTried := [],
            Status := "paused" }
    ∧ sessionNewNewResumeNew.Store.gameAt "alice" 2
      = some
          { GameID := 2, WordToGuess := "jocker", CharsGuessed := [], CharsTried := [],
            Status := "in progress" }
    ∧ sessionNewNewResumeNew.Store.gameAt "alice" 3
      = some
          { GameID := 3, WordToGuess := "superman", CharsGuessed := [], CharsTried := [],
            Status := "in progress" }
    ∧ (sessionNewNewResumeNew.Store.gameIDs "alice").length = 3 := by
  decide

theorem resumeGameHandler_parse_error (c : controller) (text : String)
    (h : strconv.Atoi text = none) :
    resumeGameHandler c text
      = { ctrl := c, sent := none, err := some (HandlerError.atoi text) } := by
  unfold resumeGameHandler
  rw [h]

theorem resumeGameHandler_not_found (c : controller) (text : String) (gameID : Int)
    (ht : strconv.Atoi text = some gameID) (hs : c.Store.gameAt c.UserID gameID = none) :
    resumeGameHandler c text
      = { ctrl := c
          sent := some (Response.gameState
            { State := default
              Error := some { Message :=
                if (c.Store.games.lookup c.UserID).isSome then "game not found"
                else "user not found" } })
          err := none } := by
  unfold resumeGameHandler
  rw [ht]
  simp only
  rw [GetGameByID_eq]
  unfold memStore.gameAt at hs
  cases hl : c.Store.games.lookup c.UserID with
  | none => simp [StoreError.message]
  | some games =>
    rw [hl] at hs
    dsimp only at hs ⊢
    rw [hs]
    simp [StoreError.message]

theorem handlePlayerAction_resume (c : controller) (value : String) (r : Nat) :
    handlePlayerAction c { Action := "resume", Value := value } r
      = resumeGameHandler c value := by
  simp [handlePlayerAction, Login, NewGame, Help, ListGames, ResumeGame]

/-- C22: a resume action whose value is not read by `strconv.Atoi`, or whose ID
is not stored for the user of the session (the user having a collection or
not), yields an outcome, and the controller afterwards, its active game, its
`UserID` and its store included, is the controller before.  In the first
case the handler returns the error of `strconv.Atoi`, in the second it
answers with the error "game not found" or "user not found". -/
theorem failed_resume_changes_nothing (c : controller) (value : String) (r : Nat) :
    (strconv.Atoi value = none →
      (handlePlayerAction c { Action := "resume", Value := value } r).ctrl = c
      ∧ (handlePlayerAction c { Action := "resume", Value := value } r).sent = none
      ∧ (handlePlayerAction c { Action := "resume", Value := value } r).err
          = some (HandlerError.atoi value))
    ∧ (∀ gameID : Int, strconv.Atoi value = some gameID →
        c.Store.gameAt c.UserID gameID = none →
        (handlePlayerAction c { Action := "resume", Value := value } r).ctrl = c
        ∧ (handlePlayerAction c { Action := "resume", Value := value } r).err = none
        ∧ (handlePlayerAction c { Action := "resume", Value := value } r).sent
            = some (Response.gameState
                { State := default
                  Error := some { Message :=
                    if (c.Store.games.lookup c.UserID).isSome then "game not found"
                    else "user not found" } })) := by
  rw [handlePlayerAction_resume]
  constructor
  · intro h
    rw [resumeGameHandler_parse_error c value h]
    exact ⟨rfl, rfl, rfl⟩
  · intro gameID ht hs
    rw [resumeGameHandler_not_found c value gameID ht hs]
    exact ⟨rfl, rfl, rfl⟩

/-- C22, witness: for "user-id" with game 1 active, "resume abc" and "resume 7"
leave the active game as it is. -/
theorem failed_resume_changes_nothing_witness :
    (handlePlayerAction (newGameHandler sessionRegistered 5).ctrl
        { Action := "resume", Value := "abc" } 0).ctrl.GameState
      = (newGameHandler sessionRegistered 5).ctrl.GameState
    ∧ (handlePlayerAction (newGameHandler sessionRegistered 5).ctrl
        { Action := "resume", Value := "7" } 0).ctrl.GameState
      = (newGameHandler sessionRegistered 5).ctrl.GameState := by
  constructor
  · rw [((failed_resume_changes_nothing (newGameHandler sessionRegistered 5).ctrl "abc" 0).1
      (by decide)).1]
  · rw [((failed_resume_changes_nothing (newGameHandler sessionRegistered 5).ctrl "7" 0).2 7
      (by decide) (by decide)).1]

/-- C23, failing input: for the logged-in user "user-id" the request
"resume abc" emits no response: the handler returns the error of
`strconv.Atoi`; likewise "list" for a user without collection returns
`ErrorUserNotFound` and emits no `ListGamesResp`.  The loop of the session
then encodes the bare error. -/
theorem resume_non_numeric_returns_handler_error :
    (handlePlayerAction sessionRegistered { Action := "resume", Value := "abc" } 0).sent = none
    ∧ (handlePlayerAction sessionRegistered { Action := "resume", Value := "abc" } 0).err
      = some (HandlerError.atoi "abc")
    ∧ (handlePlayerAction (NewSession NewMemStore) { Action := "list", Value := "" } 0).sent
      = none
    ∧ (handlePlayerAction (NewSession NewMemStore) { Action := "list", Value := "" } 0).err
      = some (HandlerError.store StoreError.ErrorUserNotFound)
    ∧ ( handleGameIO id sessionRegistered
        [(Incoming.request { Action := "resume", Value := "abc" }, 0)]).emitted
      = [Emitted.handlerError (HandlerError.atoi "abc")] := by
  decide

theorem handlePlayerAction_unknown (c : controller) (input : messages.PlayerReq) (r : Nat)
    (h1 : input.Action ≠ "login") (h2 : input.Action ≠ "new") (h3 : input.Action ≠ "resume")
    (h4 : input.Action ≠ "list") (h5 : input.Action ≠ "try") (h6 : input.Action ≠ "help") :
    handlePlayerAction c input r
      = { ctrl := c, sent := none, err := some (HandlerError.unknownAction input.Action) } := by
  have k1 : ¬ input.Action = Login := h1
  have k2 : ¬ input.Action = NewGame := h2
  have k3 : ¬ input.Action = ResumeGame := h3
  have k4 : ¬ input.Action = ListGames := h4
  have k5 : ¬ input.Action = Guess := h5
  have k6 : ¬ input.Action = Help := h6
  simp only [handlePlayerAction, if_neg k1, if_neg k2, if_neg k3, if_neg k4, if_neg k5,
    if_neg k6]

theorem handleGameIO_request (ToLower : String → String) (c : controller)
    (req : messages.PlayerReq) (r : Nat) (rest : List (Incoming × Nat)) :
    handleGameIO ToLower c ((Incoming.request req, r) :: rest)
      = { ctrl :=
            ( handleGameIO ToLower
              (handlePlayerAction c { req with Value := ToLower req.Value } r).ctrl rest).ctrl
          emitted :=
            (match (handlePlayerAction c { req with Value := ToLower req.Value } r).sent with
              | some resp => [Emitted.response resp]
              | none => [])
            ++ (match (handlePlayerAction c { req with Value := ToLower req.Value } r).err with
              | some e => [Emitted.handlerError e]
              | none => [])
            ++ ( handleGameIO ToLower
              (handlePlayerAction c { req with Value := ToLower req.Value } r).ctrl rest).emitted
          status :=
            ( handleGameIO ToLower
              (handlePlayerAction c { req with Value := ToLower req.Value } r).ctrl
              rest).status } := by
  simp [ handleGameIO, parseUserInput]

theorem handleGameIO_malformed (ToLower : String → String) (c : controller) (r : Nat)
    (rest : List (Incoming × Nat)) :
    handleGameIO ToLower c ((Incoming.malformed, r) :: rest)
      = { ctrl := c, emitted := [Emitted.readError ReadError.decode]
          status := SessionStatus.panicked } := by
  simp [ handleGameIO, parseUserInput]

/-- C24: for a request whose action is none of login, new, resume, list, try,
help, `handlePlayerAction` emits no response and returns the error with the
text "unexpected error: action <action> was not recognized"; the controller,
its `UserID`, active game and store included, stays as it is; in the loop of
the session the error is encoded and the following requests are handled from
the same controller. -/
theorem unknown_action_is_reported (c : controller) (input : messages.PlayerReq) (r : Nat)
    (h1 : input.Action ≠ "login") (h2 : input.Action ≠ "new") (h3 : input.Action ≠ "resume")
    (h4 : input.Action ≠ "list") (h5 : input.Action ≠ "try") (h6 : input.Action ≠ "help") :
    (handlePlayerAction c input r).ctrl = c
    ∧ (handlePlayerAction c input r).sent = none
    ∧ (∃ e : HandlerError,
        (handlePlayerAction c input r).err = some e
        ∧ e.text = some ("unexpected error: action " ++ input.Action ++ " was not recognized"))
    ∧ (∀ (ToLower : String → String) (rest : List (Incoming × Nat)),
        ( handleGameIO ToLower c ((Incoming.request input, r) :: rest)).ctrl
            = ( handleGameIO ToLower c rest).ctrl
        ∧ ( handleGameIO ToLower c ((Incoming.request input, r) :: rest)).status
            = ( handleGameIO ToLower c rest).status
        ∧ ( handleGameIO ToLower c ((Incoming.request input, r) :: rest)).emitted
            = Emitted.handlerError (HandlerError.unknownAction input.Action)
                :: ( handleGameIO ToLower c rest).emitted) := by
  refine ⟨?_, ?_, ?_, ?_⟩
  · rw [handlePlayerAction_unknown c input r h1 h2 h3 h4 h5 h6]
  · rw [handlePlayerAction_unknown c input r h1 h2 h3 h4 h5 h6]
  · rw [handlePlayerAction_unknown c input r h1 h2 h3 h4 h5 h6]
    exact ⟨_, rfl, rfl⟩
  · intro ToLower rest
    rw [handleGameIO_request,
      handlePlayerAction_unknown c { input with Value := ToLower input.Value } r h1 h2 h3 h4 h5
        h6]
    exact ⟨rfl, rfl, rfl⟩

/-- C24, witness: the action "quit" is reported and the request "help" that
follows is answered. -/
theorem unknown_action_is_reported_witness :
    ( handleGameIO id sessionRegistered
        [(Incoming.request { Action := "quit", Value := "" }, 0),
         (Incoming.request { Action := "help", Value := "" }, 0)]).emitted
      = Emitted.handlerError (HandlerError.unknownAction "quit")
          :: ( handleGameIO id sessionRegistered
                [(Incoming.request { Action := "help", Value := "" }, 0)]).emitted
    ∧ ( handleGameIO id sessionRegistered
        [(Incoming.request { Action := "quit", Value := "" }, 0),
         (Incoming.request { Action := "help", Value := "" }, 0)]).status
      = SessionStatus.waiting :=
  ⟨((unknown_action_is_reported sessionRegistered { Action := "quit", Value := "" } 0
      (by decide) (by decide) (by decide) (by decide) (by decide) (by decide)).2.2.2 id _).2.2,
    ((unknown_action_is_reported sessionRegistered { Action := "quit", Value := "" } 0
      (by decide) (by decide) (by decide) (by decide) (by decide) (by decide)).2.2.2 id
        _).2.1.trans (by decide)⟩

/-- C25, failing input: a payload that does not decode, followed by the request
"help": the loop encodes the decoding error and then dereferences the nil
request; the session panics, the controller is as before, and "help" is
never answered. -/
theorem malformed_payload_panics_session :
    ( handleGameIO id sessionRegistered
        [(Incoming.malformed, 0),
         (Incoming.request { Action := "help", Value := "" }, 0)]).status
      = SessionStatus.panicked
    ∧ ( handleGameIO id sessionRegistered
        [(Incoming.malformed, 0),
         (Incoming.request { Action := "help", Value := "" }, 0)]).emitted
      = [Emitted.readError ReadError.decode]
    ∧ ( handleGameIO id sessionRegistered
        [(Incoming.request { Action := "help", Value := "" }, 0)]).emitted
      = [Emitted.response (Response.help { Info := Rules, Error := none })]
    ∧ (parseUserInput id Incoming.malformed).1 = none := by
  refine ⟨?_, ?_, ?_, rfl⟩
  · rw [handleGameIO_malformed]
  · rw [handleGameIO_malformed]
  · rw [handleGameIO_request]
    rfl

/-! ## Invariants of guessing -/

theorem wellFormed_guessChar (g : State) (ch : Char) (h : wellFormed g) :
    wellFormed (guessChar g ch) := by
  obtain ⟨hg, ht, hn⟩ := h
  obtain ⟨h1, h2, _, _⟩ := guessChar_spec g ch
  have e1 := congrArg Prod.fst h1
  have e2 := congrArg Prod.snd h1
  simp only at e1 e2
  unfold wellFormed
  rw [h2, e1, e2]
  unfold applyGuessCharSpec
  by_cases hw : ch ∈ g.WordToGuess.data
  · simp only [if_pos hw]
    refine ⟨?_, ht, hn⟩
    intro x hx
    rcases List.mem_append.1 hx with hx | hx
    · exact hg x hx
    · exact ⟨ch, (List.mem_replicate.1 hx).2, hw⟩
  · simp only [if_neg hw]
    by_cases hm : runeString ch ∈ g.CharsTried
    · simp only [if_pos hm]
      exact ⟨hg, ht, hn⟩
    · simp only [if_neg hm]
      refine ⟨hg, ?_, ?_⟩
      · intro x hx
        rcases List.mem_append.1 hx with hx | hx
        · exact ht x hx
        · exact ⟨ch, List.mem_singleton.1 hx, hw⟩
      · rw [List.nodup_append]
        refine ⟨hn, List.nodup_singleton _, ?_⟩
        intro a ha hb
        exact hm ((List.mem_singleton.1 hb) ▸ ha)

theorem wellFormed_foldl_guessChar (l : List Char) (g : State) (h : wellFormed g) :
    wellFormed (l.foldl guessChar g) := by
  induction l generalizing g with
  | nil => exact h
  | cons ch rest ih => exact ih (guessChar g ch) (wellFormed_guessChar g ch h)

theorem wellFormed_guessHandler (c : controller) (g : State) (guess : String)
    (hg : c.GameState = some g) (h : wellFormed g) :
    ∃ g1 : State, (guessHandler c guess).1.GameState = some g1 ∧ wellFormed g1 := by
  by_cases hs : g.Status = InProgress
  · rw [guessHandler_accepted c g guess hg hs]
    exact ⟨_, rfl, wellFormed_foldl_guessChar guess.data g h⟩
  · rw [guessHandler_rejected c guess (Or.inr ⟨g, hg, hs⟩)]
    exact ⟨g, hg, h⟩

theorem wellFormed_guessSequence (guesses : List String) (c : controller) (g : State)
    (hg : c.GameState = some g) (h : wellFormed g) :
    ∃ g1 : State, (guessSequence c guesses).GameState = some g1 ∧ wellFormed g1 := by
  induction guesses generalizing c g with
  | nil => exact ⟨g, hg, h⟩
  | cons x rest ih =>
    obtain ⟨g1, h1, h2⟩ := wellFormed_guessHandler c g x hg h
    rw [guessSequence_cons]
    exact ih (guessHandler c x).1 g1 h1 h2

theorem wellFormed_disjoint (g : State) (h : wellFormed g) :
    ∀ x ∈ g.CharsGuessed, x ∉ g.CharsTried := by
  intro x hx hx2
  obtain ⟨a, ha, haw⟩ := h.1 x hx
  obtain ⟨b, hb, hbw⟩ := h.2.1 x hx2
  have : a = b := runeString_inj.1 (ha.symm.trans hb)
  exact hbw (this ▸ haw)

theorem newGameHandler_active (c : controller) (r : Nat) :
    ∃ gameID : Int,
      (newGameHandler c r).ctrl.GameState = some
        { GameID := gameID, WordToGuess := randomHero r, CharsGuessed := [], CharsTried := [],
          Status := InProgress } := by
  cases hg : c.GameState with
  | none =>
    rw [newGameHandler_none c r hg, createGame_eq]
    exact ⟨_, rfl⟩
  | some g =>
    rw [newGameHandler_some c r g hg, createGame_eq]
    exact ⟨_, rfl⟩

/-- C27: well-formedness of a game is preserved by guessing: if every entry of
`CharsGuessed` is a single character occurring in the word, every entry of
`CharsTried` is a single character not occurring in the word and
`CharsTried` has no duplicates, the same holds for the active game after
`guessHandler` with any guess string, and the two lists are disjoint.  The
fresh game that `newGameHandler` makes active is well formed, hence so is
every game reached from it by a sequence of guesses. -/
theorem guessing_preserves_wellFormed (c : controller) (guess : String) :
    (∀ g : State, c.GameState = some g →
      (∀ x ∈ g.CharsGuessed, ∃ ch : Char, x = runeString ch ∧ ch ∈ g.WordToGuess.data) →
      (∀ x ∈ g.CharsTried, ∃ ch : Char, x = runeString ch ∧ ch ∉ g.WordToGuess.data) →
      g.CharsTried.Nodup →
      ∃ g1 : State,
        (guessHandler c guess).1.GameState = some g1
        ∧ (∀ x ∈ g1.CharsGuessed, ∃ ch : Char, x = runeString ch ∧ ch ∈ g1.WordToGuess.data)
        ∧ (∀ x ∈ g1.CharsTried, ∃ ch : Char, x = runeString ch ∧ ch ∉ g1.WordToGuess.data)
        ∧ g1.CharsTried.Nodup
        ∧ (∀ x ∈ g1.CharsGuessed, x ∉ g1.CharsTried))
    ∧ (∀ r : Nat, ∃ fresh : State,
        (newGameHandler c r).ctrl.GameState = some fresh ∧ wellFormed fresh)
    ∧ (∀ (r : Nat) (guesses : List String), ∃ g1 : State,
        (guessSequence (newGameHandler c r).ctrl guesses).GameState = some g1
        ∧ wellFormed g1
        ∧ (∀ x ∈ g1.CharsGuessed, x ∉ g1.CharsTried)) := by
  have hfresh : ∀ r : Nat, ∃ fresh : State,
      (newGameHandler c r).ctrl.GameState = some fresh ∧ wellFormed fresh := by
    intro r
    obtain ⟨gameID, h⟩ := newGameHandler_active c r
    refine ⟨_, h, ?_, ?_, ?_⟩
    · intro x hx; cases hx
    · intro x hx; cases hx
    · exact List.nodup_nil
  refine ⟨?_, hfresh, ?_⟩
  · intro g hg h1 h2 h3
    obtain ⟨g1, k1, k2⟩ := wellFormed_guessHandler c g guess hg ⟨h1, h2, h3⟩
    exact ⟨g1, k1, k2.1, k2.2.1, k2.2.2, wellFormed_disjoint g1 k2⟩
  · intro r guesses
    obtain ⟨fresh, k1, k2⟩ := hfresh r
    obtain ⟨g1, m1, m2⟩ := wellFormed_guessSequence guesses _ fresh k1 k2
    exact ⟨g1, m1, m2, wellFormed_disjoint g1 m2⟩

/-- C27, witness: on the fresh game on "foo" the guess "oz" gives a game whose
guessed and tried characters are disjoint. -/
theorem guessing_preserves_wellFormed_witness :
    ∃ g1 : State,
      (guessHandler (freshSession "alice" NewMemStore 1 "foo") "oz").1.GameState = some g1
      ∧ g1.CharsTried.Nodup
      ∧ (∀ x ∈ g1.CharsGuessed, x ∉ g1.CharsTried) := by
  obtain ⟨g1, h1, _, _, h4, h5⟩ :=
    (guessing_preserves_wellFormed (freshSession "alice" NewMemStore 1 "foo") "oz").1
      { GameID := 1, WordToGuess := "foo", CharsGuessed := [], CharsTried := [],
        Status := InProgress } rfl
      (by intro x hx; cases hx) (by intro x hx; cases hx) List.nodup_nil
  exact ⟨g1, h1, h4, h5⟩

/-- The `UserID` stays as it is under `guessHandler`; an active game stays
active with the same `WordToGuess` and `GameID`, and when none is active none
becomes active. -/
theorem guessHandler_keeps_word_and_id (c : controller) (guess : String) :
    (guessHandler c guess).1.UserID = c.UserID
    ∧ (∀ g : State, c.GameState = some g →
        ∃ g1 : State,
          (guessHandler c guess).1.GameState = some g1
          ∧ g1.WordToGuess = g.WordToGuess ∧ g1.GameID = g.GameID)
    ∧ (c.GameState = none → (guessHandler c guess).1.GameState = none) := by
  refine ⟨(guessHandler_frame c guess).1, ?_, ?_⟩
  · intro g hg
    by_cases hs : g.Status = InProgress
    · rw [guessHandler_accepted c g guess hg hs]
      obtain ⟨_, k2, k3, _⟩ := guessLoop_spec g guess
      exact ⟨_, rfl, k2, k3⟩
    · rw [guessHandler_rejected c guess (Or.inr ⟨g, hg, hs⟩)]
      exact ⟨g, hg, rfl, rfl⟩
  · intro hg
    rw [guessHandler_rejected c guess (Or.inl hg)]
    exact hg

/-! ## Slices with their backing arrays: agreement on the active game -/

theorem take_set_succ {α : Type} (l : List α) (n : Nat) (x : α) (hn : n < l.length) :
    (l.set n x).take (n + 1) = l.take n ++ [x] := by
  induction l generalizing n with
  | nil => simp at hn
  | cons a l ih =>
    cases n with
    | zero => simp
    | succ n =>
      simp only [List.length_cons, Nat.add_lt_add_iff_right] at hn
      simp [ih n hn]

theorem getD_set_self (h : shared.Heap) (i : Nat) (a : List String) (hi : i < h.length) :
    (h.set i a).getD i [] = a := by
  simp [List.getD_eq_getElem?_getD, hi]

theorem getD_set_other (h : shared.Heap) (i j : Nat) (a : List String) (hij : i ≠ j) :
    (h.set i a).getD j [] = h.getD j [] := by
  simp [List.getD_eq_getElem?_getD, List.getElem?_set_ne hij]

theorem getD_append_old (h l : shared.Heap) (j : Nat) (hj : j < h.length) :
    (h ++ l).getD j [] = h.getD j [] := by
  simp [List.getD_eq_getElem?_getD, List.getElem?_append_left hj]

theorem getD_append_new (h : shared.Heap) (a : List String) :
    (h ++ [a]).getD h.length [] = a := by
  simp [List.getD_eq_getElem?_getD]

theorem elems_length (h : shared.Heap) (s : shared.Slice) (hf : s.fits h) :
    (s.elems h).length = s.len := by
  unfold shared.Slice.elems
  rw [List.length_take]
  rcases Nat.eq_zero_or_pos s.cap with h0 | hpos
  · have : s.len = 0 := by have := hf.1; omega
    simp [this]
  · have := (hf.2 hpos).2
    have := hf.1
    omega

theorem elems_append_self (h : shared.Heap) (s : shared.Slice) (x : String) (hf : s.fits h) :
    (shared.append h s x).2.elems (shared.append h s x).1 = s.elems h ++ [x] := by
  unfold shared.append
  by_cases hlt : s.len < s.cap
  · have hpos : 0 < s.cap := by omega
    obtain ⟨ha, hl⟩ := hf.2 hpos
    simp only [if_pos hlt, shared.Slice.elems]
    rw [getD_set_self h s.array _ ha]
    exact take_set_succ _ _ _ (by omega)
  · simp only [if_neg hlt, shared.Slice.elems]
    rw [getD_append_new]
    have hlen := elems_length h s hf
    unfold shared.Slice.elems at hlen
    have e : List.take s.len (h.getD s.array [])
          ++ x :: List.replicate (shared.growCap s.cap (s.len + 1) - (s.len + 1)) ""
        = (List.take s.len (h.getD s.array []) ++ [x])
          ++ List.replicate (shared.growCap s.cap (s.len + 1) - (s.len + 1)) "" := by
      simp
    rw [e, List.take_left' (by rw [List.length_append, hlen]; rfl)]

theorem fits_append_self (h : shared.Heap) (s : shared.Slice) (x : String) (hf : s.fits h) :
    (shared.append h s x).2.fits (shared.append h s x).1 := by
  unfold shared.append
  by_cases hlt : s.len < s.cap
  · have hpos : 0 < s.cap := by omega
    obtain ⟨ha, hl⟩ := hf.2 hpos
    simp only [if_pos hlt, shared.Slice.fits]
    refine ⟨by omega, fun _ => ⟨by simpa using ha, ?_⟩⟩
    rw [getD_set_self h s.array _ ha]
    simpa using hl
  · simp only [if_neg hlt, shared.Slice.fits]
    have hlen := elems_length h s hf
    have hg : s.len + 1 ≤ shared.growCap s.cap (s.len + 1) := by
      unfold shared.growCap
      split <;> omega
    refine ⟨hg, fun _ => ⟨by simp, ?_⟩⟩
    rw [getD_append_new]
    simp [hlen]
    omega

theorem append_other (h : shared.Heap) (s t : shared.Slice) (x : String)
    (ht : t.fits h) (hd : t.apart s) :
    t.elems (shared.append h s x).1 = t.elems h
    ∧ t.fits (shared.append h s x).1
    ∧ t.apart (shared.append h s x).2 := by
  rcases Nat.eq_zero_or_pos t.cap with h0 | hpos
  · have hl : t.len = 0 := by have := ht.1; omega
    refine ⟨by simp [shared.Slice.elems, hl], ⟨by omega, fun k => by omega⟩, fun k => by omega⟩
  · obtain ⟨ha, hlen⟩ := ht.2 hpos
    unfold shared.append
    by_cases hlt : s.len < s.cap
    · have hne : s.array ≠ t.array := fun e => hd hpos (by omega) e.symm
      simp only [if_pos hlt]
      refine ⟨?_, ⟨ht.1, fun _ => ⟨by simpa using ha, ?_⟩⟩, fun k1 k2 => hd k1 (by omega)⟩
      · simp only [shared.Slice.elems]
        rw [getD_set_other h _ _ _ hne]
      · rw [getD_set_other h _ _ _ hne]
        exact hlen
    · simp only [if_neg hlt]
      refine ⟨?_, ⟨ht.1, fun _ => ⟨by simp; omega, ?_⟩⟩, fun _ _ => Nat.ne_of_lt ha⟩
      · simp only [shared.Slice.elems]
        rw [getD_append_old h _ _ ha]
      · rw [getD_append_old h _ _ ha]
        exact hlen

theorem apart_symm (s t : shared.Slice) (h : s.apart t) : t.apart s :=
  fun k1 k2 e => h k2 k1 e.symm

theorem shared_appendOccurences (x : String) (n : Nat) :
    ∀ (h : shared.Heap) (s t : shared.Slice), s.fits h → t.fits h → t.apart s →
      (shared.appendOccurences h s x n).2.elems (shared.appendOccurences h s x n).1
          = appendOccurences (s.elems h) x n
        ∧ (shared.appendOccurences h s x n).2.fits (shared.appendOccurences h s x n).1
        ∧ t.elems (shared.appendOccurences h s x n).1 = t.elems h
        ∧ t.fits (shared.appendOccurences h s x n).1
        ∧ t.apart (shared.appendOccurences h s x n).2 := by
  induction n with
  | zero =>
    intro h s t hs ht hd
    exact ⟨rfl, hs, rfl, ht, hd⟩
  | succ n ih =>
    intro h s t hs ht hd
    obtain ⟨k1, k2, k3⟩ := append_other h s t x ht hd
    obtain ⟨j1, j2, j3, j4, j5⟩ :=
      ih (shared.append h s x).1 (shared.append h s x).2 t (fits_append_self h s x hs) k2 k3
    simp only [shared.appendOccurences, appendOccurences]
    refine ⟨?_, j2, ?_, j4, j5⟩
    · rw [j1, elems_append_self h s x hs]
    · rw [j3, k1]

theorem shared_guessChar (h : shared.Heap) (g : shared.State) (ch : Char) (hf : g.fits h) :
    (shared.guessChar (h, g) ch).2.view (shared.guessChar (h, g) ch).1
        = guessChar (g.view h) ch
      ∧ (shared.guessChar (h, g) ch).2.fits (shared.guessChar (h, g) ch).1 := by
  obtain ⟨hg, ht, hd⟩ := hf
  unfold shared.guessChar guessChar
  by_cases hc : strings.Contains g.WordToGuess (runeString ch) = true
  · obtain ⟨j1, j2, j3, j4, j5⟩ :=
      shared_appendOccurences (runeString ch) (strings.Count g.WordToGuess (runeString ch))
        h g.CharsGuessed g.CharsTried hg ht hd
    simp only [shared.State.view, hc, if_true]
    refine ⟨?_, j2, j4, j5⟩
    simp only [j1, j3]
  · by_cases hu : utils.Contains (g.CharsTried.elems h) (runeString ch) = true
    · simp only [shared.State.view, hc, hu, Bool.not_true, if_false, Bool.false_eq_true]
      exact ⟨trivial, hg, ht, hd⟩
    · obtain ⟨k1, k2, k3⟩ :=
        append_other h g.CharsTried g.CharsGuessed (runeString ch) hg (apart_symm _ _ hd)
      have hu2 : utils.Contains (g.CharsTried.elems h) (runeString ch) = false := by
        simpa using hu
      simp only [shared.State.view, hc, hu2, Bool.not_false, if_true, if_false,
        Bool.false_eq_true]
      refine ⟨?_, k2, fits_append_self h _ _ ht, apart_symm _ _ k3⟩
      simp only [k1, elems_append_self h _ _ ht]

theorem shared_foldl_guessChar (chars : List Char) :
    ∀ (h : shared.Heap) (g : shared.State), g.fits h →
      (chars.foldl shared.guessChar (h, g)).2.view (chars.foldl shared.guessChar (h, g)).1
          = chars.foldl guessChar (g.view h)
        ∧ (chars.foldl shared.guessChar (h, g)).2.fits (chars.foldl shared.guessChar (h, g)).1 := by
  induction chars with
  | nil => intro h g hf; exact ⟨rfl, hf⟩
  | cons ch rest ih =>
    intro h g hf
    obtain ⟨k1, k2⟩ := shared_guessChar h g ch hf
    obtain ⟨j1, j2⟩ := ih (shared.guessChar (h, g) ch).1 (shared.guessChar (h, g) ch).2 k2
    simp only [List.foldl_cons]
    exact ⟨by rw [j1, k1], j2⟩

/-- On the active game the two models agree: when the slices of the active
game fit the heap and lie on different arrays, the active game after
`shared.guessHandler`, read from the heap, is the active game after
`guessHandler` on the active game read before, and its slices again fit the
heap and lie on different arrays. -/
theorem shared_guessHandler_active (c : shared.controller) (guess userID : String)
    (st : memStore) (hf : ∀ g : shared.State, c.GameState = some g → g.fits c.Heap) :
    (shared.guessHandler c guess).active
        = (guessHandler { UserID := userID, GameState := c.active, Store := st } guess).1.GameState
      ∧ ∀ g1 : shared.State, (shared.guessHandler c guess).GameState = some g1 →
          g1.fits (shared.guessHandler c guess).Heap := by
  cases hg : c.GameState with
  | none =>
    have e : shared.guessHandler c guess = c := by
      simp [shared.guessHandler, shared.validateGameStatus, hg]
    rw [e]
    refine ⟨?_, fun g1 h1 => hf g1 h1⟩
    rw [guessHandler_rejected _ guess (Or.inl (by simp [shared.controller.active, hg]))]
  | some g =>
    by_cases hs : g.Status = InProgress
    · obtain ⟨k1, k2⟩ := shared_foldl_guessChar guess.data c.Heap g (hf g hg)
      have hlen1 := elems_length _ _ k2.1
      have hlen2 := elems_length _ _ k2.2.1
      have e : shared.guessHandler c guess
          = { c with
              Heap := (guess.data.foldl shared.guessChar (c.Heap, g)).1
              GameState := some
                { (guess.data.foldl shared.guessChar (c.Heap, g)).2 with
                  Status := shared.updateGameStatus
                    (guess.data.foldl shared.guessChar (c.Heap, g)).2 } } := by
        simp [shared.guessHandler, shared.validateGameStatus, hg, hs]
      rw [e]
      refine ⟨?_, ?_⟩
      · rw [guessHandler_accepted _ (g.view c.Heap) guess
          (by simp [shared.controller.active, hg]) hs]
        simp only [guessLoop]
        rw [← k1]
        simp only [shared.controller.active, Option.map_some', shared.State.view,
          updateGameStatus, shared.updateGameStatus, hlen1, hlen2]
      · intro g1 h1
        simp only [Option.some.injEq] at h1
        subst h1
        exact k2
    · have e : shared.guessHandler c guess = c := by
        simp [shared.guessHandler, shared.validateGameStatus, hg, hs]
      rw [e]
      refine ⟨?_, fun g1 h1 => hf g1 (hg ▸ h1)⟩
      rw [guessHandler_rejected _ guess
        (Or.inr ⟨g.view c.Heap, by simp [shared.controller.active, hg], hs⟩)]

/-- The agreement at the session `sessionSharedArray`: the slices of the active
game fit the heap, and the guess "g" gives the same active game in both
models. -/
theorem shared_guessHandler_active_at_session :
    (shared.guessHandler sessionSharedArray "g").active
      = (guessHandler
          { UserID := "alice", GameState := sessionSharedArray.active, Store := NewMemStore }
          "g").1.GameState := by
  have h0 : sessionSharedArray.GameState
      = some
          { GameID := 1, WordToGuess := "batman", CharsGuessed := { array := 0, len := 0, cap := 0 }
            CharsTried := { array := 2, len := 3, cap := 4 }, Status := "in progress" } := by
    decide
  have h1 : sessionSharedArray.Heap = [["c"], ["c", "d"], ["c", "d", "e", "f"]] := by decide
  refine (shared_guessHandler_active sessionSharedArray "g" "alice" NewMemStore ?_).1
  intro g hg
  rw [h0] at hg
  cases hg
  rw [h1]
  refine ⟨⟨by decide, fun k => ?_⟩, ⟨by decide, fun _ => ⟨by decide, by decide⟩⟩, fun _ k => ?_⟩
  · exact absurd k (by decide)
  · exact absurd k (by decide)

/-- C29, failing input: in the session `sessionSharedArray` the user is "alice",
her game 1 is active with the tried characters c, d, e, and game 1 stored
for "bob" has the tried characters c, d, e, f: the two slices share one
backing array of capacity 4.  The guess "g" of "alice", which makes no call
to the store and leaves the stored struct of "bob" (its slice headers
included) as it is, writes "g" into the fourth cell of that array: game 1
stored for "bob" now has the tried characters c, d, e, g. -/
theorem guess_rewrites_stored_game :
    sessionSharedArray.UserID = "alice"
    ∧ sessionSharedArray.active
      = some
          { GameID := 1, WordToGuess := "batman", CharsGuessed := [],
            CharsTried := ["c", "d", "e"], Status := "in progress" }
    ∧ sessionSharedArray.stored "bob" 1
      = some
          { GameID := 1, WordToGuess := "batman", CharsGuessed := [],
            CharsTried := ["c", "d", "e", "f"], Status := "paused" }
    ∧ (shared.guessHandler sessionSharedArray "g").active
      = some
          { GameID := 1, WordToGuess := "batman", CharsGuessed := [],
            CharsTried := ["c", "d", "e", "g"], Status := "in progress" }
    ∧ (shared.guessHandler sessionSharedArray "g").Store.gameAt "bob" 1
      = sessionSharedArray.Store.gameAt "bob" 1
    ∧ (shared.guessHandler sessionSharedArray "g").stored "bob" 1
      = some
          { GameID := 1, WordToGuess := "batman", CharsGuessed := [],
            CharsTried := ["c", "d", "e", "g"], Status := "paused" } := by
  decide

/-- C28, failing input: after "login alice" and "new" (word "batman") the single
guess "cdefghijk" is answered with a state holding nine tried characters,
more than `MaxWrongChars` and beyond the 8 stages of the drawing.  Eight
tried characters are also reached with single-character guesses, by
resuming a game that is over and guessing one more wrong character. -/
theorem long_wrong_guess_exceeds_MaxWrongChars :
    (handlePlayerAction sessionPlaying { Action := "try", Value := "cdefghijk" } 0).sent
      = some (Response.gameState
          { State :=
              { GameID := 1, WordToGuess := "batman", CharsGuessed := [],
                CharsTried := ["c", "d", "e", "f", "g", "h", "i", "j", "k"],
                Status := "game over" }
            Error := none })
    ∧ MaxWrongChars < ["c", "d", "e", "f", "g", "h", "i", "j", "k"].length
    ∧ displayStages ≤ ["c", "d", "e", "f", "g", "h", "i", "j", "k"].length
    ∧ (handlePlayerAction sessionResumedGameOver { Action := "try", Value := "k" } 0).sent
      = some (Response.gameState
          { State :=
              { GameID := 1, WordToGuess := "batman", CharsGuessed := [],
                CharsTried := ["c", "d", "e", "f", "g", "h", "i", "k"],
                Status := "game over" }
            Error := none }) := by
  decide

/-! ## What the store holds -/

theorem gameAt_SaveGame_other (s : memStore) (userID other : String) (g : State)
    (gameID : Int) (h : other ≠ userID) :
    (s.SaveGame userID g).1.gameAt other gameID = s.gameAt other gameID := by
  unfold memStore.gameAt
  rw [lookup_SaveGame_other s userID other g h]

theorem storedInProgressOrPaused_SaveGame (s : memStore) (userID : String) (g : State)
    (hs : storedInProgressOrPaused s) (hg : g.Status = InProgress ∨ g.Status = Paused) :
    storedInProgressOrPaused (s.SaveGame userID g).1 := by
  intro other gameID x hx
  by_cases hu : other = userID
  · subst hu
    rw [gameAt_SaveGame] at hx
    have hstat : (if g.GameID = 0 then
        ({ g with GameID := (lenGames s other : Int) + 1 } : State) else g).Status
          = g.Status := by
      split <;> rfl
    generalize (if g.GameID = 0 then (lenGames s other : Int) + 1 else g.GameID) = k at hx
    generalize (if g.GameID = 0 then
      ({ g with GameID := (lenGames s other : Int) + 1 } : State) else g) = g1 at hx hstat
    by_cases e : gameID = k
    · rw [if_pos e] at hx
      have e2 := Option.some.inj hx
      rw [← e2, hstat]
      exact hg
    · rw [if_neg e] at hx
      exact hs _ _ _ hx
  · rw [gameAt_SaveGame_other s userID other g gameID hu] at hx
    exact hs _ _ _ hx

theorem storedInProgressOrPaused_SaveNewUser (s : memStore) (userID : String)
    (hs : storedInProgressOrPaused s) :
    storedInProgressOrPaused (s.SaveNewUser userID).1 := by
  rw [SaveNewUser_eq]
  cases hl : s.games.lookup userID with
  | some games => simpa using hs
  | none =>
    simp only [Option.isSome_none, Bool.false_eq_true, if_false]
    intro other gameID x hx
    by_cases hu : other = userID
    · subst hu
      simp [memStore.gameAt, AList.lookup_insert] at hx
    · apply hs other gameID x
      unfold memStore.gameAt at hx ⊢
      rw [AList.lookup_insert_ne hu] at hx
      exact hx

theorem storedInProgressOrPaused_createGame (c : controller) (r : Nat)
    (hs : storedInProgressOrPaused c.Store) :
    storedInProgressOrPaused (createGame c r).ctrl.Store := by
  rw [createGame_eq]
  exact storedInProgressOrPaused_SaveGame _ _ _ hs (Or.inl rfl)

theorem storedInProgressOrPaused_newGameHandler (c : controller) (r : Nat)
    (hs : storedInProgressOrPaused c.Store) :
    storedInProgressOrPaused (newGameHandler c r).ctrl.Store := by
  cases hg : c.GameState with
  | none =>
    rw [newGameHandler_none c r hg]
    exact storedInProgressOrPaused_createGame c r hs
  | some g =>
    rw [newGameHandler_some c r g hg]
    apply storedInProgressOrPaused_createGame
    exact storedInProgressOrPaused_SaveGame _ _ _ hs (Or.inr rfl)

theorem storedInProgressOrPaused_listGamesHandler (c : controller)
    (hs : storedInProgressOrPaused c.Store) :
    storedInProgressOrPaused (listGamesHandler c).ctrl.Store := by
  by_cases h : ∃ g, c.GameState = some g ∧ g.Status = InProgress
  · obtain ⟨g, hg, hst⟩ := h
    rw [listGamesHandler_in_progress c g hg hst, listStored_ctrl]
    exact storedInProgressOrPaused_SaveGame _ _ _ hs (Or.inr rfl)
  · have h2 : c.GameState = none ∨ ∃ g, c.GameState = some g ∧ g.Status ≠ InProgress := by
      cases hg : c.GameState with
      | none => exact Or.inl rfl
      | some g => exact Or.inr ⟨g, rfl, fun hst => h ⟨g, hg, hst⟩⟩
    rw [listGamesHandler_otherwise c h2, listStored_ctrl]
    exact hs

theorem storedInProgressOrPaused_handlePlayerAction (c : controller)
    (input : messages.PlayerReq) (r : Nat) (hs : storedInProgressOrPaused c.Store) :
    storedInProgressOrPaused (handlePlayerAction c input r).ctrl.Store := by
  by_cases h0 : input.Action = Login
  · simp only [handlePlayerAction, if_pos h0]
    rw [loginHandler_eq]
    exact storedInProgressOrPaused_SaveNewUser _ _ hs
  by_cases h1 : input.Action = NewGame
  · simp only [handlePlayerAction, if_neg h0, if_pos h1]
    exact storedInProgressOrPaused_newGameHandler c r hs
  by_cases h2 : input.Action = Help
  · simp only [handlePlayerAction, if_neg h0, if_neg h1, if_pos h2]
    exact hs
  by_cases h3 : input.Action = ListGames
  · simp only [handlePlayerAction, if_neg h0, if_neg h1, if_neg h2, if_pos h3]
    exact storedInProgressOrPaused_listGamesHandler c hs
  by_cases h4 : input.Action = ResumeGame
  · simp only [handlePlayerAction, if_neg h0, if_neg h1, if_neg h2, if_neg h3, if_pos h4]
    rw [(resumeGameHandler_frame c _).2]
    exact hs
  by_cases h5 : input.Action = Guess
  · simp only [handlePlayerAction, if_neg h0, if_neg h1, if_neg h2, if_neg h3, if_neg h4,
      if_pos h5]
    rw [(guessHandler_frame c _).2]
    exact hs
  · simp only [handlePlayerAction, if_neg h0, if_neg h1, if_neg h2, if_neg h3, if_neg h4,
      if_neg h5]
    exact hs

theorem storedInProgressOrPaused_runActions (inputs : List (messages.PlayerReq × Nat))
    (c : controller) (hs : storedInProgressOrPaused c.Store) :
    storedInProgressOrPaused (runActions c inputs).Store := by
  induction inputs generalizing c with
  | nil => exact hs
  | cons x rest ih =>
    obtain ⟨input, r⟩ := x
    exact ih _ (storedInProgressOrPaused_handlePlayerAction c input r hs)

theorem listStored_sent (c : controller) (resp : messages.ListGamesResp)
    (h : (listStored c).sent = some (Response.listGames resp)) :
    ∀ g ∈ resp.Games, ∃ gameID : Int, c.Store.gameAt c.UserID gameID = some g := by
  rw [listStored_eq] at h
  cases hl : c.Store.games.lookup c.UserID with
  | none => rw [hl] at h; cases h
  | some games =>
    rw [hl] at h
    dsimp only at h
    have e : resp.Games
        = (c.Store.gameIDs c.UserID).filterMap (fun gameID => c.Store.gameAt c.UserID gameID) := by
      have h2 := Option.some.inj h
      have h3 := Response.listGames.inj h2
      rw [← h3]
    intro g hg
    rw [e, List.mem_filterMap] at hg
    obtain ⟨gameID, _, hx⟩ := hg
    exact ⟨gameID, hx⟩

theorem listGamesHandler_sent (c : controller) (resp : messages.ListGamesResp)
    (h : (listGamesHandler c).sent = some (Response.listGames resp)) :
    ∀ g ∈ resp.Games, ∃ (userID : String) (gameID : Int),
      (listGamesHandler c).ctrl.Store.gameAt userID gameID = some g := by
  by_cases hp : ∃ g, c.GameState = some g ∧ g.Status = InProgress
  · obtain ⟨g, hg, hst⟩ := hp
    rw [listGamesHandler_in_progress c g hg hst] at h ⊢
    rw [listStored_ctrl]
    intro x hx
    obtain ⟨gameID, hid⟩ := listStored_sent _ resp h x hx
    exact ⟨_, gameID, hid⟩
  · have h2 : c.GameState = none ∨ ∃ g, c.GameState = some g ∧ g.Status ≠ InProgress := by
      cases hg : c.GameState with
      | none => exact Or.inl rfl
      | some g => exact Or.inr ⟨g, rfl, fun hst => hp ⟨g, hg, hst⟩⟩
    rw [listGamesHandler_otherwise c h2] at h ⊢
    rw [listStored_ctrl]
    intro x hx
    obtain ⟨gameID, hid⟩ := listStored_sent _ resp h x hx
    exact ⟨_, gameID, hid⟩

theorem newGameHandler_sent (c : controller) (r : Nat) :
    ∃ resp : messages.GameStateResp,
      (newGameHandler c r).sent = some (Response.gameState resp) := by
  cases hg : c.GameState with
  | none =>
    rw [newGameHandler_none c r hg, createGame_eq]
    exact ⟨_, rfl⟩
  | some g =>
    rw [newGameHandler_some c r g hg, createGame_eq]
    exact ⟨_, rfl⟩

theorem resumeGameHandler_sent (c : controller) (text : String) :
    (resumeGameHandler c text).sent = none
    ∨ ∃ resp : messages.GameStateResp,
        (resumeGameHandler c text).sent = some (Response.gameState resp) := by
  unfold resumeGameHandler
  split
  · exact Or.inl rfl
  · split
    · exact Or.inr ⟨_, rfl⟩
    · exact Or.inr ⟨_, rfl⟩

/-- A list response of any action carries games that the store holds
afterwards. -/
theorem handlePlayerAction_list_sent (c : controller) (input : messages.PlayerReq) (r : Nat)
    (resp : messages.ListGamesResp)
    (h : (handlePlayerAction c input r).sent = some (Response.listGames resp)) :
    ∀ g ∈ resp.Games, ∃ (userID : String) (gameID : Int),
      (handlePlayerAction c input r).ctrl.Store.gameAt userID gameID = some g := by
  by_cases h0 : input.Action = Login
  · simp only [handlePlayerAction, if_pos h0] at h
    rw [loginHandler_eq] at h
    cases h
  by_cases h1 : input.Action = NewGame
  · simp only [handlePlayerAction, if_neg h0, if_pos h1] at h
    obtain ⟨x, hx⟩ := newGameHandler_sent c r
    rw [hx] at h
    cases h
  by_cases h2 : input.Action = Help
  · simp only [handlePlayerAction, if_neg h0, if_neg h1, if_pos h2] at h
    cases h
  by_cases h3 : input.Action = ListGames
  · simp only [handlePlayerAction, if_neg h0, if_neg h1, if_neg h2, if_pos h3] at h ⊢
    exact listGamesHandler_sent c resp h
  by_cases h4 : input.Action = ResumeGame
  · simp only [handlePlayerAction, if_neg h0, if_neg h1, if_neg h2, if_neg h3, if_pos h4] at h
    rcases resumeGameHandler_sent c input.Value with hx | ⟨x, hx⟩
    · rw [hx] at h; cases h
    · rw [hx] at h; cases h
  by_cases h5 : input.Action = Guess
  · simp only [handlePlayerAction, if_neg h0, if_neg h1, if_neg h2, if_neg h3, if_neg h4,
      if_pos h5] at h
    cases h
  · simp only [handlePlayerAction, if_neg h0, if_neg h1, if_neg h2, if_neg h3, if_neg h4,
      if_neg h5] at h
    cases h

theorem storedInProgressOrPaused_NewMemStore : storedInProgressOrPaused NewMemStore := by
  intro userID gameID g h
  cases h

/-- C30: for every sequence of actions of a controller starting from an empty
store, every game held in the store afterwards, for any user, has status in
progress or paused, and so has every game of every list response that a
further action emits: a status won or game over is never stored nor listed. -/
theorem store_holds_in_progress_or_paused (inputs : List (messages.PlayerReq × Nat)) :
    (∀ (userID : String) (gameID : Int) (g : State),
      (runActions (NewSession NewMemStore) inputs).Store.gameAt userID gameID = some g →
      g.Status = "in progress" ∨ g.Status = "paused")
    ∧ (∀ (input : messages.PlayerReq) (r : Nat) (resp : messages.ListGamesResp),
        (handlePlayerAction (runActions (NewSession NewMemStore) inputs) input r).sent
          = some (Response.listGames resp) →
        ∀ g ∈ resp.Games, g.Status = "in progress" ∨ g.Status = "paused") := by
  have hs : storedInProgressOrPaused (runActions (NewSession NewMemStore) inputs).Store :=
    storedInProgressOrPaused_runActions inputs _ storedInProgressOrPaused_NewMemStore
  refine ⟨hs, ?_⟩
  intro input r resp h g hg
  obtain ⟨userID, gameID, hx⟩ := handlePlayerAction_list_sent _ input r resp h g hg
  exact storedInProgressOrPaused_handlePlayerAction _ input r hs userID gameID g hx

/-- C30, witness: after "login alice", "new" and the winning guess "batmn" the
store holds game 1 with status in progress or paused, not won. -/
theorem store_holds_in_progress_or_paused_witness :
    ∃ g : State,
      sessionWon.Store.gameAt "alice" 1 = some g
      ∧ (g.Status = "in progress" ∨ g.Status = "paused")
      ∧ sessionWon.GameState.map (fun x => x.Status) = some "won" := by
  have h : sessionWon.Store.gameAt "alice" 1
      = some
          { GameID := 1, WordToGuess := "batman", CharsGuessed := [], CharsTried := [],
            Status := "in progress" } := by decide
  exact ⟨_, h,
    (store_holds_in_progress_or_paused
      [({ Action := "login", Value := "alice" }, 0), ({ Action := "new", Value := "" }, 2),
       ({ Action := "try", Value := "batmn" }, 0)]).1 "alice" 1 _ h,
    by decide⟩

/-! ## Guessing only adds characters -/

theorem guessChar_prefix (g : State) (ch : Char) :
    g.CharsGuessed <+: (guessChar g ch).CharsGuessed
    ∧ g.CharsTried <+: (guessChar g ch).CharsTried := by
  obtain ⟨h1, _, _, _⟩ := guessChar_spec g ch
  have e1 := congrArg Prod.fst h1
  have e2 := congrArg Prod.snd h1
  simp only at e1 e2
  rw [e1, e2]
  unfold applyGuessCharSpec
  by_cases hw : ch ∈ g.WordToGuess.data
  · simp only [if_pos hw]
    exact ⟨List.prefix_append _ _, List.prefix_rfl⟩
  · simp only [if_neg hw]
    by_cases hm : runeString ch ∈ g.CharsTried
    · simp only [if_pos hm]
      exact ⟨List.prefix_rfl, List.prefix_rfl⟩
    · simp only [if_neg hm]
      exact ⟨List.prefix_rfl, List.prefix_append _ _⟩

theorem foldl_guessChar_prefix (l : List Char) (g : State) :
    g.CharsGuessed <+: (l.foldl guessChar g).CharsGuessed
    ∧ g.CharsTried <+: (l.foldl guessChar g).CharsTried := by
  induction l generalizing g with
  | nil => exact ⟨List.prefix_rfl, List.prefix_rfl⟩
  | cons ch rest ih =>
    obtain ⟨h1, h2⟩ := guessChar_prefix g ch
    obtain ⟨k1, k2⟩ := ih (guessChar g ch)
    exact ⟨h1.trans k1, h2.trans k2⟩

/-- C31: an accepted guess only adds characters: `CharsGuessed` and
`CharsTried` before the guess are prefixes of `CharsGuessed` and `CharsTried`
after it.  Consequently, when `len(CharsTried) >= 7` or
`len(CharsGuessed) >= len(WordToGuess)` holds before the guess (as for a
finished game whose status resume has forced back to in progress), the
status after the guess is won or game over, never in progress. -/
theorem accepted_guess_is_monotone (c : controller) (g : State) (guess : String)
    (hg : c.GameState = some g) (hs : g.Status = "in progress") :
    ∃ g1 : State,
      (guessHandler c guess).1.GameState = some g1
      ∧ (guessHandler c guess).2 = { State := g1, Error := none }
      ∧ g.CharsGuessed <+: g1.CharsGuessed
      ∧ g.CharsTried <+: g1.CharsTried
      ∧ ((7 ≤ g.CharsTried.length ∨ g.WordToGuess.utf8ByteSize ≤ g.CharsGuessed.length) →
          (g1.Status = "won" ∨ g1.Status = "game over") ∧ g1.Status ≠ "in progress") := by
  rw [guessHandler_accepted c g guess hg hs]
  obtain ⟨p1, p2⟩ := foldl_guessChar_prefix guess.data g
  obtain ⟨_, hword, _, _⟩ := guessLoop_spec g guess
  refine ⟨_, rfl, rfl, p1, p2, ?_⟩
  intro hfin
  obtain ⟨c1, c2, c3⟩ := updateGameStatus_cases (guessLoop g guess)
  have l1 : g.CharsGuessed.length ≤ (guessLoop g guess).CharsGuessed.length := p1.length_le
  have l2 : g.CharsTried.length ≤ (guessLoop g guess).CharsTried.length := p2.length_le
  have hnot : ¬ updateGameStatus (guessLoop g guess) = InProgress := by
    intro h
    have := c3.1 h
    rw [hword] at this
    rcases hfin with h7 | hw
    · omega
    · omega
  refine ⟨?_, hnot⟩
  by_cases h7 : 7 ≤ (guessLoop g guess).CharsTried.length
  · exact Or.inr (c1.2 h7)
  · refine Or.inl (c2.2 ⟨by omega, ?_⟩)
    by_contra hlt
    exact hnot (c3.2 ⟨by omega, by omega⟩)

/-- C31, witness: game 1 on "batman", over with seven tried characters and
forced back to in progress by "resume 1", is game over again after the
accepted guess "b". -/
theorem accepted_guess_is_monotone_witness :
    ∃ g1 : State,
      (guessHandler sessionResumedGameOver "b").1.GameState = some g1
      ∧ ["c", "d", "e", "f", "g", "h", "i"] <+: g1.CharsTried
      ∧ (g1.Status = "won" ∨ g1.Status = "game over") := by
  obtain ⟨g1, h1, _, _, h4, h5⟩ :=
    accepted_guess_is_monotone sessionResumedGameOver
      { GameID := 1, WordToGuess := "batman", CharsGuessed := [],
        CharsTried := ["c", "d", "e", "f", "g", "h", "i"], Status := "in progress" }
      "b" (by decide) rfl
  exact ⟨g1, h1, h4, (h5 (Or.inl (by decide))).1⟩

end Hangmango
